import Mathlib

namespace Pharmacy

/-!
Formal model of the transactional billing and stock-ledger core of the
CMH-Pharmacy application, translated from `src/db/schema.ts` together with
the query modules `src/db/queries/billing.ts`, `src/db/queries/reports.ts`,
`src/db/queries/suppliers.ts` and `src/db/queries/medicines.ts` (and, for
one claim, the IPC wrapper in `electron/ipc/suppliers.ts`).

Embedding conventions:
* each SQLite table is a list of row structures inside a `State`;
* every mutating query function becomes a Lean function
  `State → … → Except (Err × State) (State × …)`; an error carries the
  state at the moment of the throw (for operations wrapped in
  `sqlite.transaction` that state is rolled back to the initial one by the
  wrapper, modelled by `Txn.run` below);
* JavaScript numbers on the integer code paths are modelled as `Int`
  (quantities, paisa amounts) and `Nat` (row ids); `Math.round(a / 100)`
  on exact integer inputs is modelled by `jsRound100`;
* TEXT values that the code compares, sorts or slices (bill numbers,
  order numbers, the `YYYYMMDD` date segment) are modelled as lists of
  character codes (`Str`), with SQLite's BINARY collation modelled by the
  lexicographic comparator `strLt`, and `reason.trim()` by the structural
  `strTrim`; TEXT values that no modelled query ever inspects structurally
  (customer names, notes) stay `String`.
* row columns that no modelled query ever reads (timestamps, notes,
  prices on the medicine row, …) are omitted from the row structures.
-/

/-- Character-code strings: the model of SQLite TEXT values that the code
compares or manipulates.  All relevant characters are ASCII, so character
codes double as UTF-8 bytes and `strLt` below is exactly SQLite's BINARY
collation. -/
abbrev Str : Type := List Nat

/-- Byte-wise (BINARY collation) strict order on strings: a proper initial
segment is smaller, otherwise the first differing code decides. -/
def strLt : Str → Str → Bool
  | [], [] => false
  | [], _ :: _ => true
  | _ :: _, [] => false
  | a :: as, b :: bs => if a < b then true else if b < a then false else strLt as bs

/-- One step of the BINARY-collation maximum fold. -/
def strMaxStep (acc : Option Str) (x : Str) : Option Str :=
  match acc with
  | none => some x
  | some m => if strLt m x then some x else some m

/-- Model of `SELECT … ORDER BY col DESC LIMIT 1`: the BINARY-collation
maximum of a list of strings (`none` on an empty list). -/
def strMax (l : List Str) : Option Str := l.foldl strMaxStep none

/-- JS `String.prototype.trim` whitespace on ASCII input: space, tab,
line feed, carriage return, vertical tab, form feed. -/
def isWsCode (c : Nat) : Bool :=
  c = 32 || c = 9 || c = 10 || c = 13 || c = 11 || c = 12

/-- `s.trim()` on an ASCII string. -/
def strTrim (s : Str) : Str :=
  ((s.dropWhile isWsCode).reverse.dropWhile isWsCode).reverse

/-- Code of the character '-'. -/
def dashCode : Nat := 45

/-- Code of the character '0'. -/
def zeroCode : Nat := 48

/-- Is this the code of a decimal digit ('0'..'9')?  Models one character
of the regular expression `^\d+$`. -/
def isDigitCode (c : Nat) : Bool := 48 ≤ c && c ≤ 57

/-- Model of `parseInt(s, 10)` on a string of decimal digits. -/
def digitsToNat (s : Str) : Nat := s.foldl (fun a c => a * 10 + (c - 48)) 0

/-- Fueled producer of the decimal digit codes of `n` (most significant
first).  With fuel `n` this is total and structural, so it evaluates by
`rfl` / `decide`. -/
def natToStrF : Nat → Nat → Str
  | 0, n => [48 + n % 10]
  | f + 1, n => if n < 10 then [48 + n] else natToStrF f (n / 10) ++ [48 + n % 10]

/-- Model of JavaScript `String(n)` for a non-negative integer `n`. -/
def natToStr (n : Nat) : Str := natToStrF n n

/-- Model of `s.padStart(w, '0')`. -/
def padZero (w : Nat) (s : Str) : Str := List.replicate (w - s.length) zeroCode ++ s

/-- The `String(n).padStart(4, '0')` suffix used for bill numbers. -/
def pad4 (n : Nat) : Str := padZero 4 (natToStr n)

/-- Model of `s.split('-').pop()`: the segment after the last '-' (the
whole string when no '-' occurs). -/
def lastSeg (s : Str) : Str := (s.reverse.takeWhile (fun c => c != dashCode)).reverse

/-! Lemmas about the decimal representation. -/

/-! Lemmas about the BINARY-collation order. -/

/-! Lemmas about padding and segment extraction. -/

/-! ## Data model (src/db/schema.ts)

Only the columns that some modelled query reads are kept; timestamps,
notes and similar write-only TEXT columns are omitted. -/

inductive PaymentMode
  | cash
  | card
  | credit
deriving DecidableEq

/-- Purchase-order status; the constructor `partialPaid` models the
status string `partial`. -/
inductive OrderStatus
  | pending
  | partialPaid
  | received
  | cancelled
deriving DecidableEq

/-- The CHECK-constrained `stock_transactions.transaction_type` column:
`in`, `out`, `adjust`, `return`. -/
inductive TxnType
  | txIn
  | txOut
  | txAdjust
  | txReturn
deriving DecidableEq

/-- The three `reference_type` strings the code writes: `bill`,
`bill_void`, `purchase_order`. -/
inductive RefType
  | bill
  | billVoid
  | purchaseOrder
deriving DecidableEq

structure MedicineRow where
  id : Nat
  name : String
  is_deleted : Bool
  opening_stock : Int
deriving DecidableEq

structure StockRow where
  medicine_id : Nat
  current_quantity : Int
deriving DecidableEq

structure StockTxnRow where
  medicine_id : Nat
  transaction_type : TxnType
  quantity : Int
  reference_id : Option Nat
  reference_type : Option RefType
  performed_by : Option Nat
deriving DecidableEq

structure BillRow where
  id : Nat
  bill_number : Str
  customer_name : Option String
  customer_phone : Option String
  subtotal : Int
  discount_percent : Int
  tax_percent : Int
  total_amount : Int
  payment_mode : PaymentMode
  amount_received : Int
  change_due : Int
  is_voided : Bool
  voided_reason : Option Str
  voided_by : Option Nat
  created_by : Option Nat
deriving DecidableEq

structure BillItemRow where
  bill_id : Nat
  medicine_id : Nat
  quantity : Int
  unit_price : Int
  total : Int
deriving DecidableEq

structure PurchaseOrderRow where
  id : Nat
  order_number : Str
  supplier_id : Nat
  received_date : Option String
  status : OrderStatus
  total_amount : Int
  paid_amount : Int
deriving DecidableEq

structure POItemRow where
  id : Nat
  purchase_order_id : Nat
  medicine_id : Nat
  quantity_ordered : Int
  quantity_received : Int
  unit_price : Int
deriving DecidableEq

/-- The database: one list per table plus the AUTOINCREMENT counters
(suppliers are reduced to their ids — no modelled query reads any other
supplier column). -/
structure State where
  medicines : List MedicineRow
  stock : List StockRow
  stockTransactions : List StockTxnRow
  bills : List BillRow
  billItems : List BillItemRow
  suppliers : List Nat
  purchaseOrders : List PurchaseOrderRow
  purchaseOrderItems : List POItemRow
  nextMedicineId : Nat
  nextBillId : Nat
  nextSupplierId : Nat
  nextOrderId : Nat
  nextPoItemId : Nat
deriving DecidableEq

def emptyState : State :=
  { medicines := [], stock := [], stockTransactions := [], bills := [],
    billItems := [], suppliers := [], purchaseOrders := [],
    purchaseOrderItems := [], nextMedicineId := 1, nextBillId := 1,
    nextSupplierId := 1, nextOrderId := 1, nextPoItemId := 1 }

/-- Error taxonomy.  Each constructor corresponds to one class of `throw
new Error(...)` sites in the query layer (plus the SQLite UNIQUE and
FOREIGN KEY constraint failures raised by the engine itself). -/
inductive Err
  | validation (msg : String)
  | notFound (msg : String)
  | deletedMedicine (name : String)
  | insufficientStock (name : Option String) (current requested : Int)
  | insufficientPayment
  | alreadyVoided
  | invalidState (msg : String)
  | uniqueViolation (what : String)
  | fkViolation (what : String)
deriving DecidableEq

/-! Table access helpers. -/

/-- `SELECT current_quantity FROM stock WHERE medicine_id = m LIMIT 1`. -/
def lookupStockRows : List StockRow → Nat → Option Int
  | [], _ => none
  | r :: rows, m =>
    if r.medicine_id = m then some r.current_quantity else lookupStockRows rows m

def lookupStock (s : State) (m : Nat) : Option Int := lookupStockRows s.stock m

/-- The `current_quantity ?? 0` reading used by createBill. -/
def stockD (s : State) (m : Nat) : Int := (lookupStock s m).getD 0

/-- SQL `UPDATE stock SET current_quantity = current_quantity + d WHERE medicine_id = m`. -/
def stockAdd (rows : List StockRow) (m : Nat) (d : Int) : List StockRow :=
  rows.map (fun r =>
    if r.medicine_id == m then { r with current_quantity := r.current_quantity + d } else r)

/-- SQL `UPDATE stock SET current_quantity = v WHERE medicine_id = m`. -/
def stockSet (rows : List StockRow) (m : Nat) (v : Int) : List StockRow :=
  rows.map (fun r => if r.medicine_id == m then { r with current_quantity := v } else r)

def findMedicine (s : State) (m : Nat) : Option MedicineRow :=
  s.medicines.find? (fun r => r.id == m)

def findOrder (s : State) (orderId : Nat) : Option PurchaseOrderRow :=
  s.purchaseOrders.find? (fun o => o.id == orderId)

def orderItems (s : State) (orderId : Nat) : List POItemRow :=
  s.purchaseOrderItems.filter (fun it => it.purchase_order_id == orderId)

/-! Arithmetic helpers from billing.ts (lines 97-114).  The inputs on all
code paths are exact integers, so `toInt`/`Math.trunc` are identities and
`Math.round(a / 100)` is the floor of `a / 100 + 1 / 2`. -/

def clampInt (n lo hi : Int) : Int := max lo (min hi n)

/-- JavaScript `Math.round(a / 100)` for an exact integer `a`. -/
def jsRound100 (a : Int) : Int := Int.fdiv (a + 50) 100

def computeDiscountAmount (subtotal discountPercent : Int) : Int :=
  jsRound100 (subtotal * clampInt discountPercent 0 100)

def computeTaxAmount (taxable taxPercent : Int) : Int :=
  jsRound100 (taxable * clampInt taxPercent 0 100)

/-! ## createBill (billing.ts lines 125-330) -/

/-- Character codes of `BILL-`. -/
def billTag : Str := [66, 73, 76, 76, 45]

/-- The `LIKE 'BILL-YYYYMMDD-%'` pattern as a plain string prefix. -/
def billPre (datePart : Str) : Str := billTag ++ datePart ++ [dashCode]

/-- `BILL-` ++ datePart ++ `-` ++ `String(n).padStart(4, '0')`. -/
def mkBillNumber (datePart : Str) (n : Nat) : Str := billPre datePart ++ pad4 n

/-- Bill-number generation (billing.ts lines 156-163): BINARY-collation
maximum of the numbers matching today's prefix, then
`split('-').pop()`, the `^\d+$` test, `parseInt` and increment. -/
def nextBillNumber (bills : List BillRow) (datePart : Str) : Str :=
  let matching := (bills.filter (fun b => (billPre datePart).isPrefixOf b.bill_number)).map
    (fun b => b.bill_number)
  let lastNumber : Str := (strMax matching).getD []
  let lastSuffix := lastSeg lastNumber
  let seq : Nat :=
    if lastSuffix ≠ [] ∧ lastSuffix.all isDigitCode = true then digitsToNat lastSuffix else 0
  mkBillNumber datePart (seq + 1)

structure CreateBillItemInput where
  medicineId : Nat
  quantity : Int
  unitPrice : Int
deriving DecidableEq

structure CreateBillInput where
  customerName : Option String
  customerPhone : Option String
  items : List CreateBillItemInput
  discountPercent : Int
  taxPercent : Int
  paymentMode : PaymentMode
  amountReceived : Option Int
  createdBy : Option Nat
deriving DecidableEq

/-- Per-line validation loop (billing.ts lines 141-145); on integer inputs
`Number.isInteger` always holds after `toInt`, so the live checks are the
sign checks.  Returns the first error in source order. -/
def validateItems : List CreateBillItemInput → Option Err
  | [] => none
  | it :: rest =>
    if it.medicineId = 0 then some (.validation "Invalid medicine in bill items.")
    else if it.quantity ≤ 0 then some (.validation "Quantity must be a positive whole number.")
    else if it.unitPrice < 0 then
      some (.validation "Unit price must be a non-negative integer (paisa).")
    else validateItems rest

/-- Order-preserving first-occurrence dedup: the iteration order of
`new Set(items.map(i => i.medicineId))` and of `required.entries()`. -/
def firstOccurAux (seen : List Nat) : List Nat → List Nat
  | [] => []
  | x :: xs =>
    if x ∈ seen then firstOccurAux seen xs else x :: firstOccurAux (x :: seen) xs

def firstOccur (l : List Nat) : List Nat := firstOccurAux [] l

/-- The aggregated `required` map (billing.ts lines 200-203). -/
def requiredQty (items : List CreateBillItemInput) (m : Nat) : Int :=
  ((items.filter (fun it => it.medicineId == m)).map (fun it => it.quantity)).sum

/-- The per-medicine existence / soft-delete / sufficiency loop
(billing.ts lines 205-212). -/
def checkStock (s : State) (items : List CreateBillItemInput) : List Nat → Option Err
  | [] => none
  | m :: ms =>
    match findMedicine s m with
    | none => some (.notFound "Medicine not found.")
    | some med =>
      if med.is_deleted then some (.deletedMedicine med.name)
      else if stockD s m < requiredQty items m then
        some (.insufficientStock (some med.name) (stockD s m) (requiredQty items m))
      else checkStock s items ms

def itemsSubtotal (items : List CreateBillItemInput) : Int :=
  (items.map (fun it => it.quantity * it.unitPrice)).sum

/-- `taxable = Math.max(0, subtotal - discountAmount)` (billing.ts line 217). -/
def taxableAmount (subtotal discountPercent : Int) : Int :=
  max 0 (subtotal - computeDiscountAmount subtotal discountPercent)

/-- `totalAmount = taxable + taxAmount` (billing.ts lines 218-219). -/
def billTotal (subtotal discountPercent taxPercent : Int) : Int :=
  taxableAmount subtotal discountPercent +
    computeTaxAmount (taxableAmount subtotal discountPercent) taxPercent

/-- Cash handling (billing.ts lines 221-232). -/
def paymentAmounts (mode : PaymentMode) (amountReceived : Option Int) (total : Int) :
    Except Err (Int × Int) :=
  match mode with
  | .cash =>
    let ar := amountReceived.getD 0
    if ar < total then .error .insufficientPayment else .ok (ar, ar - total)
  | _ => .ok (total, 0)

/-- The bill-item row inserted for one line. -/
def mkBillItem (billId : Nat) (it : CreateBillItemInput) : BillItemRow :=
  { bill_id := billId, medicine_id := it.medicineId, quantity := it.quantity,
    unit_price := it.unitPrice, total := it.quantity * it.unitPrice }

/-- The `out` ledger row inserted for one bill line. -/
def outTxn (billId : Nat) (createdBy : Option Nat) (it : CreateBillItemInput) : StockTxnRow :=
  { medicine_id := it.medicineId, transaction_type := .txOut, quantity := it.quantity,
    reference_id := some billId, reference_type := some .bill, performed_by := createdBy }

/-- Effect of one bill line inside the transaction (billing.ts lines
278-291): insert the bill item, insert an `out` ledger row referencing
the bill, and decrement the stock balance. -/
def applyBillLine (billId : Nat) (createdBy : Option Nat) (st : State)
    (it : CreateBillItemInput) : State :=
  { st with
    billItems := st.billItems ++ [mkBillItem billId it],
    stockTransactions := st.stockTransactions ++ [outTxn billId createdBy it],
    stock := stockAdd st.stock it.medicineId (-it.quantity) }

/-- The bill row inserted by createBill (billing.ts lines 235-258 and the
returned detail, lines 293-310). -/
def mkBill (s : State) (datePart : Str) (input : CreateBillInput)
    (amountReceived changeDue : Int) : BillRow :=
  { id := s.nextBillId,
    bill_number := nextBillNumber s.bills datePart,
    customer_name := input.customerName,
    customer_phone := input.customerPhone,
    subtotal := itemsSubtotal input.items,
    discount_percent := clampInt input.discountPercent 0 100,
    tax_percent := clampInt input.taxPercent 0 100,
    total_amount := billTotal (itemsSubtotal input.items)
      (clampInt input.discountPercent 0 100) (clampInt input.taxPercent 0 100),
    payment_mode := input.paymentMode,
    amount_received := amountReceived,
    change_due := changeDue,
    is_voided := false,
    voided_reason := none,
    voided_by := none,
    created_by := input.createdBy }

/-- The state after the bill insert and the per-line loop. -/
def createBillWrite (s : State) (bill : BillRow) (input : CreateBillInput) : State :=
  input.items.foldl (applyBillLine bill.id input.createdBy)
    { s with bills := s.bills ++ [bill], nextBillId := s.nextBillId + 1 }

/-- The body of createBill.  Errors carry the table state at the moment of
the throw; the surrounding `sqlite.transaction` discards it (see
`createBill`).  The `uniqueViolation` branch models the UNIQUE constraint
on `bills.bill_number` enforced by the INSERT itself. -/
def createBillBody (s : State) (datePart : Str) (input : CreateBillInput) :
    Except (Err × State) (State × BillRow) :=
  if input.items = [] then
    .error (.validation "Add at least one medicine to generate a bill.", s)
  else match validateItems input.items with
  | some e => .error (e, s)
  | none =>
    match checkStock s input.items (firstOccur (input.items.map (fun it => it.medicineId))) with
    | some e => .error (e, s)
    | none =>
      match paymentAmounts input.paymentMode input.amountReceived
          (billTotal (itemsSubtotal input.items)
            (clampInt input.discountPercent 0 100) (clampInt input.taxPercent 0 100)) with
      | .error e => .error (e, s)
      | .ok (amountReceived, changeDue) =>
        let bill := mkBill s datePart input amountReceived changeDue
        if s.bills.any (fun b => b.bill_number == bill.bill_number) then
          .error (.uniqueViolation "bills.bill_number", s)
        else
          .ok (createBillWrite s bill input, bill)

/-- createBill with the `sqlite.transaction` wrapper: on any throw the
transaction rolls back, so the partial state is discarded. -/
def createBill (s : State) (datePart : Str) (input : CreateBillInput) :
    Except Err (State × BillRow) :=
  match createBillBody s datePart input with
  | .ok r => .ok r
  | .error (e, _) => .error e

/-! ## voidBill (billing.ts lines 492-552) -/

/-- The compensating `in` ledger row written for one voided line. -/
def voidTxn (billId : Nat) (voidedBy : Nat) (it : BillItemRow) : StockTxnRow :=
  { medicine_id := it.medicine_id, transaction_type := .txIn, quantity := it.quantity,
    reference_id := some billId, reference_type := some .billVoid,
    performed_by := some voidedBy }

/-- One compensating line of the void loop (billing.ts lines 537-548). -/
def applyVoidLine (billId : Nat) (voidedBy : Nat) (st : State) (it : BillItemRow) : State :=
  { st with
    stockTransactions := st.stockTransactions ++ [voidTxn billId voidedBy it],
    stock := stockAdd st.stock it.medicine_id it.quantity }

def voidBill (s : State) (billId : Nat) (reason : Str) (voidedBy : Nat) :
    Except (Err × State) State :=
  if billId = 0 then .error (.validation "Invalid bill.", s)
  else if strTrim reason = [] then .error (.validation "Void reason is required.", s)
  else if voidedBy = 0 then .error (.validation "Voided by user is required.", s)
  else match s.bills.find? (fun b => b.id == billId) with
  | none => .error (.notFound "Bill not found.", s)
  | some bill =>
    if bill.is_voided then .error (.alreadyVoided, s)
    else
      let items := s.billItems.filter (fun it => it.bill_id == billId)
      if items = [] then .error (.notFound "Bill items not found.", s)
      else
        let s1 : State := { s with bills := s.bills.map (fun b =>
          if b.id == billId then
            { b with
              is_voided := true,
              voided_reason := some (strTrim reason),
              voided_by := some voidedBy }
          else b) }
        .ok (items.foldl (applyVoidLine billId voidedBy) s1)

/-! ## recordTransaction (reports.ts lines 549-579) -/

/-- The TS input type `'in' | 'out' | 'adjust'` of RecordTransactionInput. -/
inductive ManualTxnType
  | mIn
  | mOut
  | mAdjust
deriving DecidableEq

def ManualTxnType.toTxnType : ManualTxnType → TxnType
  | .mIn => .txIn
  | .mOut => .txOut
  | .mAdjust => .txAdjust

structure RecordTxnInput where
  medicineId : Nat
  type : ManualTxnType
  quantity : Int
  performedBy : Option Nat
deriving DecidableEq

def recordTransaction (s : State) (input : RecordTxnInput) : Except (Err × State) State :=
  if input.quantity ≤ 0 then .error (.validation "Quantity must be greater than 0.", s)
  else match lookupStock s input.medicineId with
  | none => .error (.notFound "Medicine stock record not found.", s)
  | some currentQty =>
    let delta : Int :=
      match input.type with
      | .mIn => input.quantity
      | _ => -input.quantity
    if input.type ≠ .mIn ∧ currentQty + delta < 0 then
      .error (.insufficientStock none currentQty input.quantity, s)
    else
      .ok { s with
        stockTransactions := s.stockTransactions ++
          [{ medicine_id := input.medicineId, transaction_type := input.type.toTxnType,
             quantity := input.quantity, reference_id := none, reference_type := none,
             performed_by := input.performedBy }],
        stock := stockSet s.stock input.medicineId (currentQty + delta) }

/-! ## medicines.create (medicines.ts lines 226-271) -/

structure CreateMedicineInput where
  name : String
  opening_stock : Int
deriving DecidableEq

/-- Creates the medicine, its stock row and the `Opening Stock` ledger
entry.  The source runs three separate statements without a transaction,
so a UNIQUE failure on the stock insert would leave the medicine row in
place — the error therefore carries the partial state. -/
def createMedicine (s : State) (input : CreateMedicineInput) :
    Except (Err × State) (State × Nat) :=
  let id := s.nextMedicineId
  let s1 : State := { s with
    medicines := s.medicines ++
      [{ id := id, name := input.name, is_deleted := false,
         opening_stock := input.opening_stock }],
    nextMedicineId := id + 1 }
  if (lookupStock s1 id).isSome then .error (.uniqueViolation "stock.medicine_id", s1)
  else .ok ({ s1 with
      stock := s1.stock ++ [{ medicine_id := id, current_quantity := input.opening_stock }],
      stockTransactions := s1.stockTransactions ++
        [{ medicine_id := id, transaction_type := .txIn, quantity := input.opening_stock,
           reference_id := none, reference_type := none, performed_by := none }] }, id)

/-! ## suppliers (suppliers.ts) -/

def createSupplier (s : State) : State × Nat :=
  ({ s with
      suppliers := s.suppliers ++ [s.nextSupplierId],
      nextSupplierId := s.nextSupplierId + 1 },
    s.nextSupplierId)

/-- Character codes of `PO-`. -/
def poTag : Str := [80, 79, 45]

def mkPONumber (n : Nat) : Str := poTag ++ padZero 5 (natToStr n)

/-- The match `order_number.match(/PO-(\d+)/)`, restricted to matches at
the start of the string (every generated order number starts with `PO-`). -/
def poNumParse (s : Str) : Option Nat :=
  if poTag.isPrefixOf s then
    let digs := (s.drop 3).takeWhile isDigitCode
    if digs = [] then none else some (digitsToNat digs)
  else none

/-- `ORDER BY id DESC LIMIT 1`: the row with the highest id. -/
def lastOrderByIdDesc (orders : List PurchaseOrderRow) : Option PurchaseOrderRow :=
  orders.foldl
    (fun acc o =>
      match acc with
      | none => some o
      | some m => if m.id < o.id then some o else some m)
    none

/-- generateOrderNumber (suppliers.ts lines 179-190). -/
def generateOrderNumber (orders : List PurchaseOrderRow) : Str :=
  match lastOrderByIdDesc orders with
  | none => mkPONumber 1
  | some last =>
    if last.order_number = [] then mkPONumber 1
    else mkPONumber (((poNumParse last.order_number).map (fun n => n + 1)).getD 1)

structure POItemInput where
  medicine_id : Nat
  quantity_ordered : Int
  unit_price : Int
deriving DecidableEq

structure CreatePOInput where
  supplier_id : Nat
  items : List POItemInput
deriving DecidableEq

/-- The per-item insert loop of createPurchaseOrder; each insert checks
the FOREIGN KEY on `medicine_id` (PRAGMA foreign_keys = ON in init), and
a failure aborts the loop with the partial state kept (the source uses no
transaction here). -/
def insertPOItems (orderId : Nat) : State → List POItemInput → Except (Err × State) State
  | st, [] => .ok st
  | st, it :: rest =>
    if st.medicines.any (fun m => m.id == it.medicine_id) then
      insertPOItems orderId
        { st with
          purchaseOrderItems := st.purchaseOrderItems ++
            [{ id := st.nextPoItemId, purchase_order_id := orderId,
               medicine_id := it.medicine_id, quantity_ordered := it.quantity_ordered,
               quantity_received := 0, unit_price := it.unit_price }],
          nextPoItemId := st.nextPoItemId + 1 }
        rest
    else .error (.fkViolation "purchase_order_items.medicine_id", st)

/-- createPurchaseOrder (suppliers.ts lines 315-351). -/
def createPurchaseOrder (s : State) (input : CreatePOInput) :
    Except (Err × State) (State × Nat) :=
  if input.items = [] then .error (.validation "Order must have at least one item.", s)
  else
    let orderNumber := generateOrderNumber s.purchaseOrders
    let totalAmount := (input.items.map (fun it => it.quantity_ordered * it.unit_price)).sum
    if input.supplier_id ∈ s.suppliers then
      if s.purchaseOrders.any (fun o => o.order_number == orderNumber) then
        .error (.uniqueViolation "purchase_orders.order_number", s)
      else
        let orderId := s.nextOrderId
        let s1 : State := { s with
          purchaseOrders := s.purchaseOrders ++
            [{ id := orderId, order_number := orderNumber, supplier_id := input.supplier_id,
               received_date := none, status := .pending, total_amount := totalAmount,
               paid_amount := 0 }],
          nextOrderId := orderId + 1 }
        (insertPOItems orderId s1 input.items).map (fun st => (st, orderId))
    else .error (.fkViolation "purchase_orders.supplier_id", s)

/-- One line of the receipt loop (suppliers.ts lines 390-412): update or
insert the stock row, append an `in` ledger row referencing the order,
and set the line's `quantity_received`. -/
def receiveLine (orderId : Nat) (st : State) (item : POItemRow) : State :=
  let qty := item.quantity_ordered
  if qty ≤ 0 then st
  else
    let st1 : State :=
      match lookupStock st item.medicine_id with
      | some cur => { st with stock := stockSet st.stock item.medicine_id (cur + qty) }
      | none =>
        { st with stock := st.stock ++
            [{ medicine_id := item.medicine_id, current_quantity := qty }] }
    { st1 with
      stockTransactions := st1.stockTransactions ++
        [{ medicine_id := item.medicine_id, transaction_type := .txIn, quantity := qty,
           reference_id := some orderId, reference_type := some .purchaseOrder,
           performed_by := none }],
      purchaseOrderItems := st1.purchaseOrderItems.map (fun r =>
        if r.id == item.id then { r with quantity_received := qty } else r) }

/-- markOrderReceived (suppliers.ts lines 382-418).  The final status uses
the `paid_amount`/`total_amount` read before the loop. -/
def markOrderReceived (s : State) (orderId : Nat) (receivedDate : String) :
    Except (Err × State) State :=
  match findOrder s orderId with
  | none => .error (.notFound "Order not found.", s)
  | some order =>
    if order.status = .cancelled then
      .error (.invalidState "Cannot receive a cancelled order.", s)
    else
      let items := orderItems s orderId
      let s1 := items.foldl (receiveLine orderId) s
      let newStatus : OrderStatus :=
        if order.paid_amount ≥ order.total_amount then .received else .partialPaid
      .ok { s1 with purchaseOrders := s1.purchaseOrders.map (fun o =>
        if o.id == orderId then
          { o with status := newStatus, received_date := some receivedDate }
        else o) }

/-- recordPayment (suppliers.ts lines 366-376). -/
def recordPayment (s : State) (orderId : Nat) (amountPaid : Int) :
    Except (Err × State) State :=
  match findOrder s orderId with
  | none => .error (.notFound "Order not found.", s)
  | some row =>
    let total := row.total_amount
    let currentPaid := row.paid_amount
    let newPaid := currentPaid + amountPaid
    if newPaid > total then .error (.validation "Payment cannot exceed order total.", s)
    else
      let status : OrderStatus := if newPaid ≥ total then .received else .partialPaid
      .ok { s with purchaseOrders := s.purchaseOrders.map (fun o =>
        if o.id == orderId then { o with paid_amount := newPaid, status := status } else o) }

/-- The IPC handler `suppliers:recordPayment` (electron/ipc/suppliers.ts
lines 75-79) — the only caller of `recordPayment` in the application; it
rejects non-positive amounts before reaching the query layer. -/
def ipcRecordPayment (s : State) (orderId : Nat) (amountPaid : Int) :
    Except (Err × State) State :=
  if amountPaid ≤ 0 then .error (.validation "Payment amount must be greater than 0.", s)
  else recordPayment s orderId amountPaid

/-- updateOrderStatus (suppliers.ts lines 356-361); `receivedDate = none`
models the omitted optional argument. -/
def updateOrderStatus (s : State) (orderId : Nat) (status : OrderStatus)
    (receivedDate : Option (Option String)) : State :=
  { s with purchaseOrders := s.purchaseOrders.map (fun o =>
    if o.id == orderId then
      { o with status := status, received_date := receivedDate.getD o.received_date }
    else o) }

/-! ## Operation sequences and the stock ledger -/

/-- The core mutating operations. -/
inductive Op
  | opCreateMedicine (input : CreateMedicineInput)
  | opCreateSupplier
  | opCreatePurchaseOrder (input : CreatePOInput)
  | opCreateBill (datePart : Str) (input : CreateBillInput)
  | opVoidBill (billId : Nat) (reason : Str) (voidedBy : Nat)
  | opRecordTransaction (input : RecordTxnInput)
  | opMarkOrderReceived (orderId : Nat) (receivedDate : String)
  | opRecordPayment (orderId : Nat) (amountPaid : Int)
  | opUpdateOrderStatus (orderId : Nat) (status : OrderStatus)
      (receivedDate : Option (Option String))

/-- Applies one operation.  The transactional operations (createBill,
voidBill) roll back to the pre-call state on failure; the others keep
whatever partial state the error carries. -/
def applyOp (s : State) : Op → State
  | .opCreateMedicine input =>
    match createMedicine s input with
    | .ok (s', _) => s'
    | .error (_, s') => s'
  | .opCreateSupplier => (createSupplier s).1
  | .opCreatePurchaseOrder input =>
    match createPurchaseOrder s input with
    | .ok (s', _) => s'
    | .error (_, s') => s'
  | .opCreateBill d input =>
    match createBill s d input with
    | .ok (s', _) => s'
    | .error _ => s
  | .opVoidBill b r v =>
    match voidBill s b r v with
    | .ok s' => s'
    | .error _ => s
  | .opRecordTransaction input =>
    match recordTransaction s input with
    | .ok s' => s'
    | .error (_, s') => s'
  | .opMarkOrderReceived oid rd =>
    match markOrderReceived s oid rd with
    | .ok s' => s'
    | .error (_, s') => s'
  | .opRecordPayment oid amt =>
    match recordPayment s oid amt with
    | .ok s' => s'
    | .error (_, s') => s'
  | .opUpdateOrderStatus oid st rd => updateOrderStatus s oid st rd

def runOps (s : State) (ops : List Op) : State := ops.foldl applyOp s

/-- The two sale-side stock mutators of the no-negative-stock property:
createBill and the manual recordTransaction. -/
def isSaleOp : Op → Bool
  | .opCreateBill _ _ => true
  | .opRecordTransaction _ => true
  | _ => false

/-- The signed contribution of one ledger row: types `in` and `return`
count positive, `out` and `adjust` negative. -/
def signedQty (t : StockTxnRow) : Int :=
  match t.transaction_type with
  | .txIn => t.quantity
  | .txReturn => t.quantity
  | .txOut => -t.quantity
  | .txAdjust => -t.quantity

/-- The replay sum of a medicine's ledger rows. -/
def ledgerSum (s : State) (m : Nat) : Int :=
  ((s.stockTransactions.filter (fun t => t.medicine_id == m)).map signedQty).sum

/-! ## Specification-side definitions

These definitions follow the spec's wording (not the source) and are used
to compare the code's arithmetic against the spec's. -/

/-- Round-half-away-from-zero of the rational `a / 100`, as the spec
prescribes for discount and tax amounts. -/
def roundHalfAway100 (a : Int) : Int :=
  if 0 ≤ a then (a + 50).fdiv 100 else -(((-a) + 50).fdiv 100)

/-! ## Support lemmas -/

/-! ## Sample data for the witness theorems -/

/-- The date segment `20260101`. -/
def sampleDate : Str := [50, 48, 50, 54, 48, 49, 48, 49]

/-- A second date segment, `20260102`. -/
def sampleDate2 : Str := [50, 48, 50, 54, 48, 49, 48, 50]

def dummyBill : BillRow :=
  { id := 0, bill_number := [], customer_name := none, customer_phone := none,
    subtotal := 0, discount_percent := 0, tax_percent := 0, total_amount := 0,
    payment_mode := .cash, amount_received := 0, change_due := 0,
    is_voided := false, voided_reason := none, voided_by := none, created_by := none }

/-- A store holding one medicine (id 1, stock 100). -/
def sampleState : State :=
  match createMedicine emptyState { name := "Panadol", opening_stock := 100 } with
  | .ok (s, _) => s
  | .error (_, s) => s

def sampleBillInput : CreateBillInput :=
  { customerName := none, customerPhone := none,
    items := [{ medicineId := 1, quantity := 2, unitPrice := 5000 }],
    discountPercent := 10, taxPercent := 5, paymentMode := .cash,
    amountReceived := some 20000, createdBy := some 1 }

def sampleBillState : State :=
  match createBill sampleState sampleDate sampleBillInput with
  | .ok (s, _) => s
  | .error _ => sampleState

def sampleBill : BillRow :=
  match createBill sampleState sampleDate sampleBillInput with
  | .ok (_, b) => b
  | .error _ => dummyBill

/-- A store with one medicine, one supplier and one pending purchase order
(id 1, one line of 5 units at 100 paisa, total 500, unpaid). -/
def samplePOState : State :=
  match createPurchaseOrder (createSupplier sampleState).1
      { supplier_id := 1, items := [{ medicine_id := 1, quantity_ordered := 5, unit_price := 100 }] } with
  | .ok (s, _) => s
  | .error (_, s) => s

/-! ## Claim C5: bill money arithmetic -/

/-! ## Claim C3: createBill is all-or-nothing -/

/-- A three-line bill on the sample store whose aggregated quantity (1003)
oversells the stock of 100 although lines 1 and 3 alone would fit. -/
def oversellInput : CreateBillInput :=
  { customerName := none, customerPhone := none,
    items := [{ medicineId := 1, quantity := 2, unitPrice := 5000 },
              { medicineId := 1, quantity := 1000, unitPrice := 10 },
              { medicineId := 1, quantity := 1, unitPrice := 10 }],
    discountPercent := 0, taxPercent := 0, paymentMode := .cash,
    amountReceived := some 100000, createdBy := some 1 }

/-! ## Claim C9: createBill input validation -/

/-! ## Claim C8 (corrected): recordPayment bounds -/

/-- The signed credit a single receipt line applies to medicine `m`
(zero for other medicines and for lines with `quantity_ordered ≤ 0`). -/
def lineCredit (it : POItemRow) (m : Nat) : Int :=
  if it.medicine_id = m ∧ 0 < it.quantity_ordered then it.quantity_ordered else 0

/-- Total credit `markOrderReceived` applies to medicine `m`. -/
def creditOf (its : List POItemRow) (m : Nat) : Int :=
  (its.map (fun it => lineCredit it m)).sum

/-- The `in` ledger row written for one received line. -/
def recvTxn (orderId : Nat) (it : POItemRow) : StockTxnRow :=
  { medicine_id := it.medicine_id, transaction_type := .txIn, quantity := it.quantity_ordered,
    reference_id := some orderId, reference_type := some .purchaseOrder, performed_by := none }

/-- The ledger rows appended by `markOrderReceived` (one per line with
positive ordered quantity, in line order). -/
def recvTxns (orderId : Nat) (its : List POItemRow) : List StockTxnRow :=
  (its.filter (fun it => decide (0 < it.quantity_ordered))).map (recvTxn orderId)

/-- The state a successful `markOrderReceived` produces, given the order
row `o` read before the loop. -/
def recvState (s : State) (orderId : Nat) (rd : String) (o : PurchaseOrderRow) : State :=
  let s1 := (orderItems s orderId).foldl (receiveLine orderId) s
  { s1 with purchaseOrders := s1.purchaseOrders.map (fun p =>
      if p.id == orderId then
        { p with
          status :=
            if o.paid_amount ≥ o.total_amount then OrderStatus.received
            else OrderStatus.partialPaid,
          received_date := some rd }
      else p) }

/-- The signed replay sum of a list of ledger rows for medicine `m`. -/
def txnsSum (l : List StockTxnRow) (m : Nat) : Int :=
  ((l.filter (fun t => t.medicine_id == m)).map signedQty).sum

/-- Total quantity of the given bill-item rows for medicine `m`. -/
def billItemsQty (items : List BillItemRow) (m : Nat) : Int :=
  ((items.filter (fun it => it.medicine_id == m)).map (fun it => it.quantity)).sum

/-- `r` carries the identifying fields of line `it` (everything the
receipt loop does not modify). -/
def likeItem (it : POItemRow) (r : POItemRow) : Prop :=
  r.id = it.id ∧ r.medicine_id = it.medicine_id ∧ r.quantity_ordered = it.quantity_ordered

/-- The sample purchase order after `updateOrderStatus(…, 'cancelled')`. -/
def sampleCancelledState : State := updateOrderStatus samplePOState 1 .cancelled none

/-- The sample store after receiving the purchase order once. -/
def sampleReceivedState : State :=
  match markOrderReceived samplePOState 1 "2026-01-01" with
  | .ok s => s
  | .error (_, s) => s

/-- The characters of `mistake`, the sample void reason. -/
def sampleReason : Str := [109, 105, 115, 116, 97, 107, 101]

/-- The sample store after creating and then voiding the sample bill. -/
def sampleVoidState : State :=
  match voidBill sampleBillState sampleBill.id sampleReason 7 with
  | .ok s => s
  | .error _ => sampleBillState

/-- A sequence of same-date createBill calls; `none` as soon as one call
fails, otherwise the final state and the generated bill numbers in order. -/
def runBills (d : Str) : State → List CreateBillInput → Option (State × List Str)
  | s, [] => some (s, [])
  | s, input :: rest =>
    match createBill s d input with
    | .error _ => none
    | .ok (s1, bill) =>
      match runBills d s1 rest with
      | none => none
      | some (s2, nums) => some (s2, bill.bill_number :: nums)

/-- Two bills issued on the sample date from the sample store. -/
def sampleRun : Option (State × List Str) :=
  runBills sampleDate sampleState [sampleBillInput, sampleBillInput]

def sampleRunState : State :=
  match sampleRun with
  | some (s, _) => s
  | none => sampleState

def sampleRunNums : List Str :=
  match sampleRun with
  | some (_, ns) => ns
  | none => []

/-- The ledger-replay invariant carried through every operation: every
balance equals its replay sum, and every bill item's medicine has a stock
row (so the void loop's balance update never silently misses). -/
def ledgerInv (s : State) : Prop :=
  (∀ m, stockD s m = ledgerSum s m) ∧
  (∀ it ∈ s.billItems, (lookupStockRows s.stock it.medicine_id).isSome = true)

/-! ## Theorems -/

theorem isDigitCode_iff (c : Nat) : isDigitCode c = true ↔ 48 ≤ c ∧ c ≤ 57 := by
  simp [isDigitCode]

theorem natToStrF_stable :
    ∀ n f g, n ≤ f → n ≤ g → natToStrF f n = natToStrF g n := by
  intro n
  induction n using Nat.strong_induction_on with
  | _ n ih =>
    intro f g hf hg
    match f, g with
    | 0, 0 => rfl
    | 0, g + 1 =>
      interval_cases n
      simp [natToStrF]
    | f + 1, 0 =>
      interval_cases n
      simp [natToStrF]
    | f + 1, g + 1 =>
      by_cases h10 : n < 10
      · simp [natToStrF, h10]
      · have hdiv : n / 10 < n := Nat.div_lt_self (by omega) (by omega)
        have hf' : n / 10 ≤ f := by omega
        have hg' : n / 10 ≤ g := by omega
        simp only [natToStrF, if_neg h10]
        rw [ih (n / 10) hdiv f g hf' hg']

theorem natToStr_small (n : Nat) (h : n < 10) : natToStr n = [48 + n] := by
  cases n with
  | zero => rfl
  | succ m =>
    show natToStrF (m + 1) (m + 1) = [48 + (m + 1)]
    unfold natToStrF
    rw [if_pos h]

theorem natToStr_step (n : Nat) (h : 10 ≤ n) :
    natToStr n = natToStr (n / 10) ++ [48 + n % 10] := by
  have h1 : n = (n - 1) + 1 := by omega
  have : natToStrF n n = natToStrF ((n - 1) + 1) n := by rw [← h1]
  rw [natToStr, this]
  simp only [natToStrF, if_neg (by omega : ¬ n < 10)]
  have hdiv : n / 10 < n := Nat.div_lt_self (by omega) (by omega)
  rw [natToStrF_stable (n / 10) (n - 1) (n / 10) (by omega) le_rfl]
  rfl

theorem natToStr_ne_nil (n : Nat) : natToStr n ≠ [] := by
  by_cases h : n < 10
  · rw [natToStr_small n h]; simp
  · rw [natToStr_step n (by omega)]; simp

theorem natToStr_all_digits (n : Nat) : (natToStr n).all isDigitCode = true := by
  induction n using Nat.strong_induction_on with
  | _ n ih =>
    by_cases h : n < 10
    · rw [natToStr_small n h]
      simp only [List.all_cons, List.all_nil, Bool.and_true]
      rw [isDigitCode_iff]
      omega
    · rw [natToStr_step n (by omega)]
      rw [List.all_append]
      have hdiv : n / 10 < n := Nat.div_lt_self (by omega) (by omega)
      rw [ih (n / 10) hdiv]
      simp only [List.all_cons, List.all_nil, Bool.and_true, Bool.true_and]
      rw [isDigitCode_iff]
      omega

theorem digitsToNat_acc (s : Str) :
    ∀ a, s.foldl (fun a c => a * 10 + (c - 48)) a = a * 10 ^ s.length + digitsToNat s := by
  induction s with
  | nil => intro a; simp [digitsToNat]
  | cons c s ih =>
    intro a
    show s.foldl _ (a * 10 + (c - 48)) = _
    rw [ih (a * 10 + (c - 48))]
    have : digitsToNat (c :: s) = (c - 48) * 10 ^ s.length + digitsToNat s := by
      show s.foldl _ (0 * 10 + (c - 48)) = _
      rw [ih (0 * 10 + (c - 48))]
      ring
    rw [this]
    simp only [List.length_cons, pow_succ]
    ring

theorem digitsToNat_cons (c : Nat) (s : Str) :
    digitsToNat (c :: s) = (c - 48) * 10 ^ s.length + digitsToNat s := by
  show s.foldl _ (0 * 10 + (c - 48)) = _
  rw [digitsToNat_acc s (0 * 10 + (c - 48))]
  ring

theorem digitsToNat_append (s t : Str) :
    digitsToNat (s ++ t) = digitsToNat s * 10 ^ t.length + digitsToNat t := by
  show (s ++ t).foldl _ 0 = _
  rw [List.foldl_append, digitsToNat_acc t]
  rfl

theorem digitsToNat_lt (s : Str) (h : s.all isDigitCode = true) :
    digitsToNat s < 10 ^ s.length := by
  induction s with
  | nil => simp [digitsToNat]
  | cons c s ih =>
    simp only [List.all_cons, Bool.and_eq_true] at h
    have hc : 48 ≤ c ∧ c ≤ 57 := (isDigitCode_iff c).mp h.1
    rw [digitsToNat_cons]
    have hs := ih h.2
    have h9 : c - 48 ≤ 9 := by omega
    calc (c - 48) * 10 ^ s.length + digitsToNat s
        < (c - 48) * 10 ^ s.length + 10 ^ s.length := by omega
      _ = (c - 48 + 1) * 10 ^ s.length := by ring
      _ ≤ 10 * 10 ^ s.length := by
          have : c - 48 + 1 ≤ 10 := by omega
          exact Nat.mul_le_mul_right _ this
      _ = 10 ^ (c :: s).length := by rw [List.length_cons, pow_succ]; ring

theorem digitsToNat_single (c : Nat) : digitsToNat [c] = c - 48 := by
  show 0 * 10 + (c - 48) = c - 48
  omega

theorem digitsToNat_natToStr (n : Nat) : digitsToNat (natToStr n) = n := by
  induction n using Nat.strong_induction_on with
  | _ n ih =>
    by_cases h : n < 10
    · rw [natToStr_small n h, digitsToNat_single]
      omega
    · rw [natToStr_step n (by omega)]
      rw [digitsToNat_append]
      have hdiv : n / 10 < n := Nat.div_lt_self (by omega) (by omega)
      rw [ih (n / 10) hdiv, digitsToNat_single]
      simp only [List.length_cons, List.length_nil, pow_one]
      omega

theorem natToStr_length_le (n k : Nat) (hk : 1 ≤ k) (h : n < 10 ^ k) :
    (natToStr n).length ≤ k := by
  induction n using Nat.strong_induction_on generalizing k with
  | _ n ih =>
    by_cases h10 : n < 10
    · rw [natToStr_small n h10]; simpa using hk
    · rw [natToStr_step n (by omega)]
      have hdiv : n / 10 < n := Nat.div_lt_self (by omega) (by omega)
      have hk2 : 2 ≤ k := by
        rcases Nat.lt_or_ge k 2 with hlt | hge
        · exfalso
          have hk1 : k = 1 := by omega
          subst hk1
          rw [pow_one] at h
          omega
        · exact hge
      have hlt : n / 10 < 10 ^ (k - 1) := by
        have h1 : 10 ^ k = 10 ^ (k - 1) * 10 := by
          conv_lhs => rw [show k = (k - 1) + 1 by omega]
          rw [pow_succ]
        rw [Nat.div_lt_iff_lt_mul (by omega)]
        omega
      have := ih (n / 10) hdiv (k - 1) (by omega) hlt
      simp only [List.length_append, List.length_cons, List.length_nil]
      omega

theorem strLt_irrefl (s : Str) : strLt s s = false := by
  induction s with
  | nil => rfl
  | cons c s ih => simp [strLt, ih]

theorem strLt_asymm : ∀ s t : Str, strLt s t = true → strLt t s = false := by
  intro s
  induction s with
  | nil =>
    intro t h
    cases t with
    | nil => simp [strLt] at h
    | cons d t => simp [strLt]
  | cons c s ih =>
    intro t h
    cases t with
    | nil => simp [strLt] at h
    | cons d t =>
      simp only [strLt] at h ⊢
      rcases Nat.lt_trichotomy c d with hcd | hcd | hcd
      · rw [if_neg (show ¬ d < c by omega), if_pos hcd]
      · subst hcd
        rw [if_neg (lt_irrefl c), if_neg (lt_irrefl c)] at h ⊢
        exact ih t h
      · rw [if_neg (show ¬ c < d by omega), if_pos hcd] at h
        exact absurd h (by simp)

theorem strLt_total : ∀ s t : Str, strLt s t = false → strLt t s = false → s = t := by
  intro s
  induction s with
  | nil =>
    intro t h1 _
    cases t with
    | nil => rfl
    | cons d t => simp [strLt] at h1
  | cons c s ih =>
    intro t h1 h2
    cases t with
    | nil => simp [strLt] at h2
    | cons d t =>
      simp only [strLt] at h1 h2
      rcases Nat.lt_trichotomy c d with hcd | hcd | hcd
      · rw [if_pos hcd] at h1
        exact absurd h1 (by simp)
      · subst hcd
        rw [if_neg (lt_irrefl c), if_neg (lt_irrefl c)] at h1
        rw [if_neg (lt_irrefl c), if_neg (lt_irrefl c)] at h2
        rw [ih t h1 h2]
      · rw [if_pos hcd] at h2
        exact absurd h2 (by simp)

theorem strLt_trans : ∀ s t u : Str, strLt s t = true → strLt t u = true → strLt s u = true := by
  intro s
  induction s with
  | nil =>
    intro t u h1 h2
    cases t with
    | nil => simp [strLt] at h1
    | cons d t =>
      cases u with
      | nil => simp [strLt] at h2
      | cons e u => simp [strLt]
  | cons c s ih =>
    intro t u h1 h2
    cases t with
    | nil => simp [strLt] at h1
    | cons d t =>
      cases u with
      | nil => simp [strLt] at h2
      | cons e u =>
        simp only [strLt] at h1 h2 ⊢
        rcases Nat.lt_trichotomy c d with hcd | hcd | hcd
        · rcases Nat.lt_trichotomy d e with hde | hde | hde
          · rw [if_pos (show c < e by omega)]
          · subst hde
            rw [if_pos hcd]
          · rw [if_neg (show ¬ d < e by omega), if_pos hde] at h2
            exact absurd h2 (by simp)
        · subst hcd
          rw [if_neg (lt_irrefl c), if_neg (lt_irrefl c)] at h1
          rcases Nat.lt_trichotomy c e with hce | hce | hce
          · rw [if_pos hce]
          · subst hce
            rw [if_neg (lt_irrefl c), if_neg (lt_irrefl c)] at h2
            rw [if_neg (lt_irrefl c), if_neg (lt_irrefl c)]
            exact ih t u h1 h2
          · rw [if_neg (show ¬ c < e by omega), if_pos hce] at h2
            exact absurd h2 (by simp)
        · rw [if_neg (show ¬ c < d by omega), if_pos hcd] at h1
          exact absurd h1 (by simp)

theorem strLt_append_left (p : Str) (s t : Str) :
    strLt (p ++ s) (p ++ t) = strLt s t := by
  induction p with
  | nil => rfl
  | cons c p ih => simp [strLt, ih]

/-- On digit strings of equal length, the BINARY order agrees with the
numeric order. -/
theorem strLt_of_digits :
    ∀ s t : Str, s.length = t.length → s.all isDigitCode = true → t.all isDigitCode = true →
      digitsToNat s < digitsToNat t → strLt s t = true := by
  intro s
  induction s with
  | nil =>
    intro t hlen _ _ hval
    cases t with
    | nil => simp [digitsToNat] at hval
    | cons d t => simp at hlen
  | cons c s ih =>
    intro t hlen hs ht hval
    cases t with
    | nil => simp at hlen
    | cons d t =>
      simp only [List.all_cons, Bool.and_eq_true] at hs ht
      have hc : 48 ≤ c ∧ c ≤ 57 := (isDigitCode_iff c).mp hs.1
      have hd : 48 ≤ d ∧ d ≤ 57 := (isDigitCode_iff d).mp ht.1
      have hlen' : s.length = t.length := by simpa using hlen
      rw [digitsToNat_cons, digitsToNat_cons] at hval
      have hslt := digitsToNat_lt s hs.2
      have htlt := digitsToNat_lt t ht.2
      simp only [strLt]
      by_cases hcd : c < d
      · simp [hcd]
      · by_cases hdc : d < c
        · exfalso
          have h1 : d - 48 + 1 ≤ c - 48 := by omega
          have : (d - 48) * 10 ^ t.length + digitsToNat t < (c - 48) * 10 ^ s.length := by
            calc (d - 48) * 10 ^ t.length + digitsToNat t
                < (d - 48) * 10 ^ t.length + 10 ^ t.length := by omega
              _ = (d - 48 + 1) * 10 ^ t.length := by ring
              _ ≤ (c - 48) * 10 ^ t.length := Nat.mul_le_mul_right _ h1
              _ = (c - 48) * 10 ^ s.length := by rw [hlen']
          omega
        · have hce : c = d := by omega
          subst hce
          simp only [if_neg hcd, if_neg hdc]
          apply ih t hlen' hs.2 ht.2
          rw [hlen'] at hval
          omega

theorem strMax_isSome (l : List Str) (h : l ≠ []) : (strMax l).isSome = true := by
  have aux : ∀ (l : List Str) (a : Str),
      (List.foldl strMaxStep (some a) l).isSome = true := by
    intro l
    induction l with
    | nil => intro a; rfl
    | cons x l ih =>
      intro a
      show (List.foldl strMaxStep (strMaxStep (some a) x) l).isSome = true
      show (List.foldl strMaxStep (if strLt a x then some x else some a) l).isSome = true
      by_cases hax : strLt a x
      · rw [if_pos hax]; exact ih x
      · rw [if_neg hax]; exact ih a
  cases l with
  | nil => exact absurd rfl h
  | cons x l => exact aux l x

theorem strMax_spec :
    ∀ (l : List Str) (a m : Str),
      List.foldl strMaxStep (some a) l = some m →
      (m = a ∨ m ∈ l) ∧ (a = m ∨ strLt a m = true) ∧ (∀ x ∈ l, x = m ∨ strLt x m = true) := by
  intro l
  induction l with
  | nil =>
    intro a m h
    simp at h
    subst h
    exact ⟨Or.inl rfl, Or.inl rfl, by simp⟩
  | cons x l ih =>
    intro a m h
    replace h : List.foldl strMaxStep (if strLt a x then some x else some a) l = some m := h
    by_cases hax : strLt a x
    · rw [if_pos hax] at h
      obtain ⟨hmem, hxm, hrest⟩ := ih x m h
      refine ⟨?_, ?_, ?_⟩
      · rcases hmem with h2 | h2
        · exact Or.inr (by simp [h2])
        · exact Or.inr (by simp [h2])
      · rcases hxm with h2 | h2
        · exact Or.inr (h2 ▸ hax)
        · exact Or.inr (strLt_trans a x m hax h2)
      · intro y hy
        rcases List.mem_cons.mp hy with h2 | h2
        · rw [h2]; exact hxm
        · exact hrest y h2
    · rw [if_neg hax] at h
      obtain ⟨hmem, ham, hrest⟩ := ih a m h
      refine ⟨?_, ham, ?_⟩
      · rcases hmem with h2 | h2
        · exact Or.inl h2
        · exact Or.inr (by simp [h2])
      · intro y hy
        rcases List.mem_cons.mp hy with h2 | h2
        · have hxa : x = a ∨ strLt x a = true := by
            by_cases hxa' : strLt x a
            · exact Or.inr hxa'
            · exact Or.inl (strLt_total x a (Bool.of_not_eq_true hxa') (Bool.of_not_eq_true hax))
          have hxm : x = m ∨ strLt x m = true := by
            rcases hxa with h3 | h3
            · rw [h3]; exact ham
            · rcases ham with h4 | h4
              · exact Or.inr (h4 ▸ h3)
              · exact Or.inr (strLt_trans x a m h3 h4)
          rw [h2]
          exact hxm
        · exact hrest y h2

theorem strMax_mem (l : List Str) (m : Str) (h : strMax l = some m) : m ∈ l := by
  cases l with
  | nil => simp [strMax] at h
  | cons x l =>
    have h' : List.foldl strMaxStep (some x) l = some m := h
    obtain ⟨hmem, _, _⟩ := strMax_spec l x m h'
    rcases hmem with h2 | h2
    · simp [h2]
    · simp [h2]

theorem strMax_ub (l : List Str) (m : Str) (h : strMax l = some m) :
    ∀ x ∈ l, x = m ∨ strLt x m = true := by
  cases l with
  | nil => simp [strMax] at h
  | cons x l =>
    have h' : List.foldl strMaxStep (some x) l = some m := h
    obtain ⟨_, hxm, hrest⟩ := strMax_spec l x m h'
    intro y hy
    rcases List.mem_cons.mp hy with h2 | h2
    · subst h2; exact hxm
    · exact hrest y h2

theorem padZero_length (w : Nat) (s : Str) : (padZero w s).length = max w s.length := by
  simp [padZero]
  omega

theorem digitsToNat_replicate_zero (k : Nat) : digitsToNat (List.replicate k zeroCode) = 0 := by
  induction k with
  | zero => rfl
  | succ k ih =>
    rw [List.replicate_succ, digitsToNat_cons, ih]
    simp [zeroCode]

theorem digitsToNat_padZero (w : Nat) (s : Str) : digitsToNat (padZero w s) = digitsToNat s := by
  rw [padZero, digitsToNat_append, digitsToNat_replicate_zero]
  simp

theorem padZero_all_digits (w : Nat) (s : Str) (h : s.all isDigitCode = true) :
    (padZero w s).all isDigitCode = true := by
  rw [padZero, List.all_append, h]
  simp only [Bool.and_true]
  rw [List.all_eq_true]
  intro c hc
  rw [List.eq_of_mem_replicate hc]
  rfl

theorem pad4_all_digits (n : Nat) : (pad4 n).all isDigitCode = true :=
  padZero_all_digits 4 (natToStr n) (natToStr_all_digits n)

theorem digitsToNat_pad4 (n : Nat) : digitsToNat (pad4 n) = n := by
  rw [pad4, digitsToNat_padZero, digitsToNat_natToStr]

theorem pad4_length (n : Nat) (h : n ≤ 9999) : (pad4 n).length = 4 := by
  rw [pad4, padZero_length]
  have := natToStr_length_le n 4 (by omega) (by omega)
  omega

theorem pad4_inj (a b : Nat) (h : pad4 a = pad4 b) : a = b := by
  have := digitsToNat_pad4 a
  rw [h, digitsToNat_pad4] at this
  omega

/-- Numeric order of 4-padded numbers below 10000 agrees with BINARY order. -/
theorem pad4_strLt (a b : Nat) (ha : a ≤ 9999) (hb : b ≤ 9999) (hab : a < b) :
    strLt (pad4 a) (pad4 b) = true := by
  apply strLt_of_digits
  · rw [pad4_length a ha, pad4_length b hb]
  · exact pad4_all_digits a
  · exact pad4_all_digits b
  · rw [digitsToNat_pad4, digitsToNat_pad4]
    exact hab

theorem takeWhile_append_break (p : Nat → Bool) :
    ∀ (l : Str) (brk : Nat) (rest : Str), (∀ c ∈ l, p c = true) → p brk = false →
      (l ++ brk :: rest).takeWhile p = l := by
  intro l
  induction l with
  | nil =>
    intro brk rest _ hbrk
    simp [List.takeWhile, hbrk]
  | cons c l ih =>
    intro brk rest hl hbrk
    have hc : p c = true := hl c (by simp)
    show List.takeWhile p (c :: (l ++ brk :: rest)) = c :: l
    rw [List.takeWhile_cons_of_pos hc]
    rw [ih brk rest (fun d hd => hl d (by simp [hd])) hbrk]

/-- A dash-free suffix after a dash is what `split('-').pop()` returns. -/
theorem lastSeg_append (p : Str) (s : Str) (hs : ∀ c ∈ s, c ≠ dashCode) :
    lastSeg (p ++ dashCode :: s) = s := by
  rw [lastSeg, List.reverse_append, List.reverse_cons, List.append_assoc,
    List.singleton_append]
  rw [takeWhile_append_break _ s.reverse dashCode p.reverse
    (by
      intro c hc
      have : c ∈ s := List.mem_reverse.mp hc
      have := hs c this
      simp [this])
    (by simp [dashCode])]
  exact List.reverse_reverse s

theorem all_digits_ne_dash (s : Str) (h : s.all isDigitCode = true) :
    ∀ c ∈ s, c ≠ dashCode := by
  intro c hc
  have := (isDigitCode_iff c).mp (List.all_eq_true.mp h c hc)
  rw [dashCode]
  omega

/-- If `u` is a member and every other member is strictly smaller, then the
BINARY-collation maximum is exactly `u`. -/
theorem strMax_eq (l : List Str) (u : Str) (hu : u ∈ l)
    (hmax : ∀ x ∈ l, x = u ∨ strLt x u = true) : strMax l = some u := by
  have hne : l ≠ [] := by intro h; subst h; simp at hu
  obtain ⟨m, hm⟩ := Option.isSome_iff_exists.mp (strMax_isSome l hne)
  have hmem := strMax_mem l m hm
  have hub := strMax_ub l m hm
  rcases hmax m hmem with h | h
  · rw [hm, h]
  · rcases hub u hu with h2 | h2
    · rw [hm, h2]
    · exfalso
      have := strLt_asymm m u h
      rw [this] at h2
      exact Bool.false_ne_true h2

theorem clampInt_idem (n : Int) : clampInt (clampInt n 0 100) 0 100 = clampInt n 0 100 := by
  simp only [clampInt]
  omega

theorem clampInt_nonneg (n : Int) : 0 ≤ clampInt n 0 100 := by
  simp only [clampInt]
  omega

theorem clampInt_le (n : Int) : clampInt n 0 100 ≤ 100 := by
  simp only [clampInt]
  omega

/-- On the non-negative inputs that createBill produces, JavaScript's
`Math.round` agrees with the spec's round-half-away-from-zero. -/
theorem jsRound100_eq_roundHalfAway (a : Int) (h : 0 ≤ a) :
    jsRound100 a = roundHalfAway100 a := by
  rw [jsRound100, roundHalfAway100, if_pos h]

theorem validateItems_none :
    ∀ items, validateItems items = none →
      ∀ it ∈ items, it.medicineId ≠ 0 ∧ 0 < it.quantity ∧ 0 ≤ it.unitPrice := by
  intro items
  induction items with
  | nil =>
    intro _ it hit
    simp at hit
  | cons x rest ih =>
    intro h it hit
    unfold validateItems at h
    by_cases h1 : x.medicineId = 0
    · rw [if_pos h1] at h
      exact absurd h (by simp)
    · rw [if_neg h1] at h
      by_cases h2 : x.quantity ≤ 0
      · rw [if_pos h2] at h
        exact absurd h (by simp)
      · rw [if_neg h2] at h
        by_cases h3 : x.unitPrice < 0
        · rw [if_pos h3] at h
          exact absurd h (by simp)
        · rw [if_neg h3] at h
          rcases List.mem_cons.mp hit with h4 | h4
          · rw [h4]
            exact ⟨h1, by omega, by omega⟩
          · exact ih h it h4

theorem validateItems_some_of_bad :
    ∀ items, (∃ it ∈ items, it.quantity ≤ 0 ∨ it.unitPrice < 0) →
      ∃ msg, validateItems items = some (.validation msg) := by
  intro items
  induction items with
  | nil =>
    intro h
    obtain ⟨it, hit, _⟩ := h
    simp at hit
  | cons x rest ih =>
    intro h
    unfold validateItems
    by_cases h1 : x.medicineId = 0
    · rw [if_pos h1]
      exact ⟨_, rfl⟩
    · rw [if_neg h1]
      by_cases h2 : x.quantity ≤ 0
      · rw [if_pos h2]
        exact ⟨_, rfl⟩
      · rw [if_neg h2]
        by_cases h3 : x.unitPrice < 0
        · rw [if_pos h3]
          exact ⟨_, rfl⟩
        · rw [if_neg h3]
          apply ih
          obtain ⟨it, hit, hbad⟩ := h
          rcases List.mem_cons.mp hit with h4 | h4
          · exfalso
            rw [h4] at hbad
            omega
          · exact ⟨it, h4, hbad⟩

theorem itemsSubtotal_nonneg (items : List CreateBillItemInput)
    (h : ∀ it ∈ items, 0 < it.quantity ∧ 0 ≤ it.unitPrice) : 0 ≤ itemsSubtotal items := by
  induction items with
  | nil => simp [itemsSubtotal]
  | cons x rest ih =>
    have hx := h x (by simp)
    have hr : 0 ≤ itemsSubtotal rest := ih (fun it hit => h it (by simp [hit]))
    show 0 ≤ x.quantity * x.unitPrice + itemsSubtotal rest
    have : 0 ≤ x.quantity * x.unitPrice := mul_nonneg (by omega) hx.2
    omega

/-- Every throw inside the createBill transaction happens while the tables
still hold the pre-call state: validation and the stock check precede the
first write, and the only post-write failure (the UNIQUE check on the bill
insert) is evaluated against the pre-insert table in this model. -/
theorem createBillBody_error_state (s : State) (d : Str) (input : CreateBillInput)
    (e : Err) (st : State) (h : createBillBody s d input = .error (e, st)) : st = s := by
  unfold createBillBody at h
  by_cases h1 : input.items = []
  · rw [if_pos h1] at h
    simp only [Except.error.injEq, Prod.mk.injEq] at h
    exact h.2.symm
  · rw [if_neg h1] at h
    cases hv : validateItems input.items with
    | some e' =>
      rw [hv] at h
      simp only [Except.error.injEq, Prod.mk.injEq] at h
      exact h.2.symm
    | none =>
      rw [hv] at h
      cases hc : checkStock s input.items (firstOccur (input.items.map (fun it => it.medicineId))) with
      | some e' =>
        rw [hc] at h
        simp only [Except.error.injEq, Prod.mk.injEq] at h
        exact h.2.symm
      | none =>
        rw [hc] at h
        cases hp : paymentAmounts input.paymentMode input.amountReceived
            (billTotal (itemsSubtotal input.items)
              (clampInt input.discountPercent 0 100) (clampInt input.taxPercent 0 100)) with
        | error e' =>
          rw [hp] at h
          simp only [Except.error.injEq, Prod.mk.injEq] at h
          exact h.2.symm
        | ok p =>
          obtain ⟨ar, cd⟩ := p
          rw [hp] at h
          simp only at h
          by_cases hq : s.bills.any
              (fun b => b.bill_number == (mkBill s d input ar cd).bill_number) = true
          · rw [if_pos hq] at h
            simp only [Except.error.injEq, Prod.mk.injEq] at h
            exact h.2.symm
          · rw [if_neg hq] at h
            exact absurd h (by simp)

/-- Inversion of a successful createBill: all checks passed and the result
is exactly the inserted bill plus the per-line writes. -/
theorem createBillBody_ok_inv (s : State) (d : Str) (input : CreateBillInput)
    (r : State × BillRow) (h : createBillBody s d input = .ok r) :
    input.items ≠ [] ∧
    validateItems input.items = none ∧
    checkStock s input.items (firstOccur (input.items.map (fun it => it.medicineId))) = none ∧
    ∃ ar cd,
      paymentAmounts input.paymentMode input.amountReceived
        (billTotal (itemsSubtotal input.items)
          (clampInt input.discountPercent 0 100) (clampInt input.taxPercent 0 100)) = .ok (ar, cd) ∧
      s.bills.any (fun b => b.bill_number == (mkBill s d input ar cd).bill_number) = false ∧
      r = (createBillWrite s (mkBill s d input ar cd) input, mkBill s d input ar cd) := by
  unfold createBillBody at h
  by_cases h1 : input.items = []
  · rw [if_pos h1] at h
    exact absurd h (by simp)
  · rw [if_neg h1] at h
    cases hv : validateItems input.items with
    | some e' =>
      rw [hv] at h
      exact absurd h (by simp)
    | none =>
      rw [hv] at h
      cases hc : checkStock s input.items (firstOccur (input.items.map (fun it => it.medicineId))) with
      | some e' =>
        rw [hc] at h
        exact absurd h (by simp)
      | none =>
        rw [hc] at h
        cases hp : paymentAmounts input.paymentMode input.amountReceived
            (billTotal (itemsSubtotal input.items)
              (clampInt input.discountPercent 0 100) (clampInt input.taxPercent 0 100)) with
        | error e' =>
          rw [hp] at h
          exact absurd h (by simp)
        | ok p =>
          obtain ⟨ar, cd⟩ := p
          rw [hp] at h
          simp only at h
          by_cases hq : s.bills.any
              (fun b => b.bill_number == (mkBill s d input ar cd).bill_number) = true
          · rw [if_pos hq] at h
            exact absurd h (by simp)
          · rw [if_neg hq] at h
            simp only [Except.ok.injEq] at h
            exact ⟨h1, rfl, rfl, ar, cd, rfl, by simpa using hq, h.symm⟩

theorem createBill_ok_body (s : State) (d : Str) (input : CreateBillInput)
    (r : State × BillRow) (h : createBill s d input = .ok r) :
    createBillBody s d input = .ok r := by
  unfold createBill at h
  cases hb : createBillBody s d input with
  | ok r' =>
    rw [hb] at h
    simp only [Except.ok.injEq] at h
    rw [h]
  | error p =>
    rw [hb] at h
    exact absurd h (by simp)

/-- C5: for every successful `createBill` with validated lines, the stored
amounts satisfy `subtotal = Σ(qty × unitPrice)`, the percents are stored
clamped to `[0, 100]`, and `total_amount = taxable + taxAmount` where
`discountAmount = round-half-away-from-zero(subtotal × d / 100)`,
`taxable = max(0, subtotal − discountAmount)` and
`taxAmount = round-half-away-from-zero(taxable × t / 100)`; moreover the
spec's concrete instances hold: subtotal 10000 with d = 10, t = 5 yields
discount 1000, taxable 9000, tax 450 and total 9450, and d = t = 0 is the
identity (total 333 for subtotal 333). -/
theorem billMoneyArithmetic :
    (∀ (s : State) (d : Str) (input : CreateBillInput) (s' : State) (bill : BillRow),
      createBill s d input = .ok (s', bill) →
      bill.subtotal = ((input.items.map (fun it => it.quantity * it.unitPrice)).sum) ∧
      bill.discount_percent = clampInt input.discountPercent 0 100 ∧
      bill.tax_percent = clampInt input.taxPercent 0 100 ∧
      bill.total_amount =
        max 0 (bill.subtotal - roundHalfAway100 (bill.subtotal * bill.discount_percent)) +
          roundHalfAway100
            (max 0 (bill.subtotal - roundHalfAway100 (bill.subtotal * bill.discount_percent)) *
              bill.tax_percent)) ∧
    computeDiscountAmount 10000 10 = 1000 ∧
    taxableAmount 10000 10 = 9000 ∧
    computeTaxAmount 9000 5 = 450 ∧
    billTotal 10000 10 5 = 9450 ∧
    billTotal 333 0 0 = 333 := by
  refine ⟨?_, by decide, by decide, by decide, by decide, by decide⟩
  intro s d input s' bill h
  obtain ⟨hne, hv, hc, ar, cd, hp, hu, hr⟩ :=
    createBillBody_ok_inv s d input _ (createBill_ok_body _ _ _ _ h)
  injection hr with hs' hbill
  subst hbill
  have hval := validateItems_none input.items hv
  have hsub : 0 ≤ itemsSubtotal input.items :=
    itemsSubtotal_nonneg _ (fun it hit => (hval it hit).2)
  have hdisc : computeDiscountAmount (itemsSubtotal input.items)
      (clampInt input.discountPercent 0 100)
      = roundHalfAway100 (itemsSubtotal input.items * clampInt input.discountPercent 0 100) := by
    rw [computeDiscountAmount, clampInt_idem]
    exact jsRound100_eq_roundHalfAway _ (mul_nonneg hsub (clampInt_nonneg _))
  have htax : ∀ taxable : Int, 0 ≤ taxable →
      computeTaxAmount taxable (clampInt input.taxPercent 0 100)
      = roundHalfAway100 (taxable * clampInt input.taxPercent 0 100) := by
    intro taxable ht
    rw [computeTaxAmount, clampInt_idem]
    exact jsRound100_eq_roundHalfAway _ (mul_nonneg ht (clampInt_nonneg _))
  refine ⟨rfl, rfl, rfl, ?_⟩
  show billTotal (itemsSubtotal input.items)
      (clampInt input.discountPercent 0 100) (clampInt input.taxPercent 0 100) = _
  rw [billTotal, taxableAmount, hdisc, htax _ (le_max_left 0 _)]
  rfl

theorem billMoneyArithmetic_witness :
    sampleBill.subtotal = ((sampleBillInput.items.map (fun it => it.quantity * it.unitPrice)).sum) ∧
    sampleBill.total_amount =
      max 0 (sampleBill.subtotal -
          roundHalfAway100 (sampleBill.subtotal * sampleBill.discount_percent)) +
        roundHalfAway100
          (max 0 (sampleBill.subtotal -
              roundHalfAway100 (sampleBill.subtotal * sampleBill.discount_percent)) *
            sampleBill.tax_percent) := by
  have h := billMoneyArithmetic.1 sampleState sampleDate sampleBillInput sampleBillState sampleBill
    (by rfl)
  exact ⟨h.1, h.2.2.2⟩

theorem createBill_error_of_body (s : State) (d : Str) (input : CreateBillInput)
    (e : Err) (st : State) (h : createBillBody s d input = .error (e, st)) :
    createBill s d input = .error e := by
  unfold createBill
  rw [h]

theorem applyOp_createBill_eq (s : State) (d : Str) (input : CreateBillInput) (e : Err)
    (h : createBill s d input = .error e) : applyOp s (.opCreateBill d input) = s := by
  unfold applyOp
  dsimp only
  rw [h]

/-- C3: a failed createBill leaves no bill row, no bill-item row, no stock
transaction and no stock balance behind — the transaction rolls back, and
in fact every throw in the body already happens against the unmodified
pre-call tables. -/
theorem billCreationAtomicity :
    ∀ (s : State) (d : Str) (input : CreateBillInput) (e : Err),
      createBill s d input = .error e →
      (applyOp s (.opCreateBill d input)).bills = s.bills ∧
      (applyOp s (.opCreateBill d input)).billItems = s.billItems ∧
      (applyOp s (.opCreateBill d input)).stockTransactions = s.stockTransactions ∧
      (applyOp s (.opCreateBill d input)).stock = s.stock ∧
      (∀ st : State, createBillBody s d input = .error (e, st) → st = s) := by
  intro s d input e h
  rw [applyOp_createBill_eq s d input e h]
  exact ⟨rfl, rfl, rfl, rfl, fun st hb => createBillBody_error_state s d input e st hb⟩

theorem billCreationAtomicity_witness :
    (applyOp sampleState (.opCreateBill sampleDate oversellInput)).bills = sampleState.bills ∧
    (applyOp sampleState (.opCreateBill sampleDate oversellInput)).billItems =
      sampleState.billItems ∧
    (applyOp sampleState (.opCreateBill sampleDate oversellInput)).stockTransactions =
      sampleState.stockTransactions ∧
    (applyOp sampleState (.opCreateBill sampleDate oversellInput)).stock = sampleState.stock := by
  have h := billCreationAtomicity sampleState sampleDate oversellInput
    (.insufficientStock (some "Panadol") 100 1003) (by rfl)
  exact ⟨h.1, h.2.1, h.2.2.1, h.2.2.2.1⟩

/-- C9: an empty item list, a non-positive quantity or a negative unit
price fails with a ValidationError and performs no writes; out-of-range
discount/tax percents are clamped, not rejected (createBill behaves
exactly as with the clamped percents); and in cash mode a tendered amount
below the total fails with InsufficientPaymentError and performs no
writes. -/
theorem billInputValidation :
    (∀ (s : State) (d : Str) (input : CreateBillInput),
      input.items = [] →
        ∃ msg, createBill s d input = .error (.validation msg) ∧
          applyOp s (.opCreateBill d input) = s) ∧
    (∀ (s : State) (d : Str) (input : CreateBillInput),
      (∃ it ∈ input.items, it.quantity ≤ 0 ∨ it.unitPrice < 0) →
        ∃ msg, createBill s d input = .error (.validation msg) ∧
          applyOp s (.opCreateBill d input) = s) ∧
    (∀ (s : State) (d : Str) (input : CreateBillInput),
      createBill s d input =
        createBill s d
          { input with
            discountPercent := clampInt input.discountPercent 0 100,
            taxPercent := clampInt input.taxPercent 0 100 }) ∧
    (∀ (s : State) (d : Str) (input : CreateBillInput),
      input.paymentMode = .cash →
      input.items ≠ [] →
      validateItems input.items = none →
      checkStock s input.items (firstOccur (input.items.map (fun it => it.medicineId))) = none →
      input.amountReceived.getD 0 <
        billTotal (itemsSubtotal input.items)
          (clampInt input.discountPercent 0 100) (clampInt input.taxPercent 0 100) →
      createBill s d input = .error .insufficientPayment ∧
        applyOp s (.opCreateBill d input) = s) := by
  refine ⟨?_, ?_, ?_, ?_⟩
  · intro s d input hempty
    have hb : createBillBody s d input =
        .error (.validation "Add at least one medicine to generate a bill.", s) := by
      unfold createBillBody
      rw [if_pos hempty]
    have h := createBill_error_of_body s d input _ _ hb
    exact ⟨_, h, applyOp_createBill_eq s d input _ h⟩
  · intro s d input hbad
    obtain ⟨msg, hmsg⟩ := validateItems_some_of_bad input.items hbad
    have hne : input.items ≠ [] := by
      obtain ⟨it, hit, _⟩ := hbad
      intro hcon
      rw [hcon] at hit
      simp at hit
    have hb : createBillBody s d input = .error (.validation msg, s) := by
      unfold createBillBody
      rw [if_neg hne, hmsg]
    have h := createBill_error_of_body s d input _ _ hb
    exact ⟨msg, h, applyOp_createBill_eq s d input _ h⟩
  · intro s d input
    unfold createBill createBillBody mkBill nextBillNumber billTotal taxableAmount
      computeDiscountAmount computeTaxAmount createBillWrite paymentAmounts
    dsimp only
    simp only [clampInt_idem]
  · intro s d input hmode hne hv hc har
    have hb : createBillBody s d input = .error (.insufficientPayment, s) := by
      unfold createBillBody
      rw [if_neg hne, hv, hc]
      have hpay : paymentAmounts input.paymentMode input.amountReceived
          (billTotal (itemsSubtotal input.items)
            (clampInt input.discountPercent 0 100) (clampInt input.taxPercent 0 100)) =
          .error .insufficientPayment := by
        rw [hmode]
        unfold paymentAmounts
        rw [if_pos har]
      rw [hpay]
    have h := createBill_error_of_body s d input _ _ hb
    exact ⟨h, applyOp_createBill_eq s d input _ h⟩

theorem billInputValidation_witness :
    (∃ msg, createBill sampleState sampleDate { sampleBillInput with items := [] } =
        .error (.validation msg) ∧
      applyOp sampleState (.opCreateBill sampleDate { sampleBillInput with items := [] }) =
        sampleState) ∧
    (∃ msg, createBill sampleState sampleDate
        { sampleBillInput with
          items := [{ medicineId := 1, quantity := 0, unitPrice := 5 }] } =
        .error (.validation msg)) ∧
    createBill sampleState sampleDate { sampleBillInput with discountPercent := 250 } =
      createBill sampleState sampleDate
        { sampleBillInput with discountPercent := 100, taxPercent := 5 } ∧
    createBill sampleState sampleDate { sampleBillInput with amountReceived := some 10 } =
      .error .insufficientPayment := by
  refine ⟨?_, ?_, ?_, ?_⟩
  · exact billInputValidation.1 sampleState sampleDate _ (by rfl)
  · obtain ⟨msg, h, _⟩ := billInputValidation.2.1 sampleState sampleDate
      { sampleBillInput with
        items := [{ medicineId := 1, quantity := 0, unitPrice := 5 }] }
      ⟨{ medicineId := 1, quantity := 0, unitPrice := 5 }, by simp, by decide⟩
    exact ⟨msg, h⟩
  · exact billInputValidation.2.2.1 sampleState sampleDate
      { sampleBillInput with discountPercent := 250 }
  · exact (billInputValidation.2.2.2 sampleState sampleDate
      { sampleBillInput with amountReceived := some 10 }
      (by rfl) (by decide) (by rfl) (by rfl) (by decide)).1

/-- C8 counterexample: the query-layer `recordPayment` accepts a
non-positive amount.  On the sample order (total 500, paid 0) a payment
of −100 succeeds and records `paid_amount = −100` with status `partial`,
while the claim demands a ValidationError and no update. -/
theorem recordPaymentNonpositiveAccepted :
    ((recordPayment samplePOState 1 (-100)).toOption.map
        (fun s' => s'.purchaseOrders.map (fun o => (o.paid_amount, o.status))))
      = some [(-100, OrderStatus.partialPaid)] := by
  decide

/-- C8 amended: the query-layer `recordPayment` validates only the upper
bound — it fails with a ValidationError (updating nothing) when
`currentPaid + amount > total_amount` and otherwise sets
`paid_amount := currentPaid + amount` and recomputes the status
(`received` iff then fully paid, else `partial`), even for amounts ≤ 0;
the `amount ≤ 0` rejection lives in the IPC handler wrapping it. -/
theorem recordPaymentAmended :
    (∀ (s : State) (orderId : Nat) (amount : Int) (o : PurchaseOrderRow),
      findOrder s orderId = some o →
      (o.paid_amount + amount > o.total_amount →
        recordPayment s orderId amount =
          .error (.validation "Payment cannot exceed order total.", s)) ∧
      (o.paid_amount + amount ≤ o.total_amount →
        recordPayment s orderId amount =
          .ok { s with purchaseOrders := s.purchaseOrders.map (fun p =>
            if p.id == orderId then
              { p with
                paid_amount := o.paid_amount + amount,
                status :=
                  if o.paid_amount + amount ≥ o.total_amount then OrderStatus.received
                  else OrderStatus.partialPaid }
            else p) })) ∧
    (∀ (s : State) (orderId : Nat) (amount : Int),
      amount ≤ 0 →
        ipcRecordPayment s orderId amount =
          .error (.validation "Payment amount must be greater than 0.", s)) := by
  constructor
  · intro s orderId amount o hfind
    constructor
    · intro hover
      unfold recordPayment
      rw [hfind]
      dsimp only
      rw [if_pos (by omega)]
    · intro hle
      unfold recordPayment
      rw [hfind]
      dsimp only
      rw [if_neg (by omega)]
  · intro s orderId amount hle
    unfold ipcRecordPayment
    rw [if_pos hle]

theorem recordPaymentAmended_witness :
    recordPayment samplePOState 1 600 =
      .error (.validation "Payment cannot exceed order total.", samplePOState) ∧
    (recordPayment samplePOState 1 200).isOk = true ∧
    ipcRecordPayment samplePOState 1 (-5) =
      .error (.validation "Payment amount must be greater than 0.", samplePOState) := by
  have h := recordPaymentAmended.1 samplePOState 1 600
    { id := 1, order_number := [80, 79, 45, 48, 48, 48, 48, 49], supplier_id := 1,
      received_date := none, status := .pending, total_amount := 500, paid_amount := 0 }
    (by rfl)
  have h2 := recordPaymentAmended.1 samplePOState 1 200
    { id := 1, order_number := [80, 79, 45, 48, 48, 48, 48, 49], supplier_id := 1,
      received_date := none, status := .pending, total_amount := 500, paid_amount := 0 }
    (by rfl)
  refine ⟨h.1 (by decide), ?_, recordPaymentAmended.2 samplePOState 1 (-5) (by decide)⟩
  rw [h2.2 (by decide)]
  rfl

/-! Stock-row lookup lemmas. -/

theorem lookupStockRows_stockSet_self (rows : List StockRow) (m : Nat) (v : Int) :
    lookupStockRows (stockSet rows m v) m = (lookupStockRows rows m).map (fun _ => v) := by
  induction rows with
  | nil => rfl
  | cons r rows ih =>
    by_cases hm : r.medicine_id = m
    · show lookupStockRows
        ((if r.medicine_id == m then { r with current_quantity := v } else r) :: stockSet rows m v)
        m = _
      rw [if_pos (by simpa using hm)]
      show (if r.medicine_id = m then some v else lookupStockRows (stockSet rows m v) m) = _
      rw [if_pos hm]
      show _ = (if r.medicine_id = m then some r.current_quantity else lookupStockRows rows m).map
          (fun _ => v)
      rw [if_pos hm]
      rfl
    · show lookupStockRows
        ((if r.medicine_id == m then { r with current_quantity := v } else r) :: stockSet rows m v)
        m = _
      rw [if_neg (by simpa using hm)]
      show (if r.medicine_id = m then some r.current_quantity
          else lookupStockRows (stockSet rows m v) m) = _
      rw [if_neg hm]
      conv_rhs =>
        rw [show lookupStockRows (r :: rows) m =
          if r.medicine_id = m then some r.current_quantity else lookupStockRows rows m from rfl]
      rw [if_neg hm]
      exact ih

theorem lookupStockRows_stockSet_ne (rows : List StockRow) (m : Nat) (v : Int) (m' : Nat)
    (h : m' ≠ m) : lookupStockRows (stockSet rows m v) m' = lookupStockRows rows m' := by
  induction rows with
  | nil => rfl
  | cons r rows ih =>
    by_cases hm : r.medicine_id = m
    · show lookupStockRows
        ((if r.medicine_id == m then { r with current_quantity := v } else r) :: stockSet rows m v)
        m' = _
      rw [if_pos (by simpa using hm)]
      have hm' : r.medicine_id ≠ m' := fun hc => h (by rw [← hc, hm])
      show (if r.medicine_id = m' then some v else lookupStockRows (stockSet rows m v) m') = _
      rw [if_neg hm']
      conv_rhs =>
        rw [show lookupStockRows (r :: rows) m' =
          if r.medicine_id = m' then some r.current_quantity else lookupStockRows rows m' from rfl]
      rw [if_neg hm']
      exact ih
    · show lookupStockRows
        ((if r.medicine_id == m then { r with current_quantity := v } else r) :: stockSet rows m v)
        m' = _
      rw [if_neg (by simpa using hm)]
      show (if r.medicine_id = m' then some r.current_quantity
          else lookupStockRows (stockSet rows m v) m') = _
      conv_rhs =>
        rw [show lookupStockRows (r :: rows) m' =
          if r.medicine_id = m' then some r.current_quantity else lookupStockRows rows m' from rfl]
      by_cases hm' : r.medicine_id = m'
      · rw [if_pos hm', if_pos hm']
      · rw [if_neg hm', if_neg hm']
        exact ih

theorem lookupStockRows_stockAdd_self (rows : List StockRow) (m : Nat) (d : Int) :
    lookupStockRows (stockAdd rows m d) m = (lookupStockRows rows m).map (fun q => q + d) := by
  induction rows with
  | nil => rfl
  | cons r rows ih =>
    by_cases hm : r.medicine_id = m
    · show lookupStockRows
        ((if r.medicine_id == m then { r with current_quantity := r.current_quantity + d } else r) ::
          stockAdd rows m d) m = _
      rw [if_pos (by simpa using hm)]
      show (if r.medicine_id = m then some (r.current_quantity + d)
          else lookupStockRows (stockAdd rows m d) m) = _
      rw [if_pos hm]
      show _ = (if r.medicine_id = m then some r.current_quantity else lookupStockRows rows m).map
          (fun q => q + d)
      rw [if_pos hm]
      rfl
    · show lookupStockRows
        ((if r.medicine_id == m then { r with current_quantity := r.current_quantity + d } else r) ::
          stockAdd rows m d) m = _
      rw [if_neg (by simpa using hm)]
      show (if r.medicine_id = m then some r.current_quantity
          else lookupStockRows (stockAdd rows m d) m) = _
      rw [if_neg hm]
      conv_rhs =>
        rw [show lookupStockRows (r :: rows) m =
          if r.medicine_id = m then some r.current_quantity else lookupStockRows rows m from rfl]
      rw [if_neg hm]
      exact ih

theorem lookupStockRows_stockAdd_ne (rows : List StockRow) (m : Nat) (d : Int) (m' : Nat)
    (h : m' ≠ m) : lookupStockRows (stockAdd rows m d) m' = lookupStockRows rows m' := by
  induction rows with
  | nil => rfl
  | cons r rows ih =>
    by_cases hm : r.medicine_id = m
    · show lookupStockRows
        ((if r.medicine_id == m then { r with current_quantity := r.current_quantity + d } else r) ::
          stockAdd rows m d) m' = _
      rw [if_pos (by simpa using hm)]
      have hm' : r.medicine_id ≠ m' := fun hc => h (by rw [← hc, hm])
      show (if r.medicine_id = m' then some (r.current_quantity + d)
          else lookupStockRows (stockAdd rows m d) m') = _
      rw [if_neg hm']
      conv_rhs =>
        rw [show lookupStockRows (r :: rows) m' =
          if r.medicine_id = m' then some r.current_quantity else lookupStockRows rows m' from rfl]
      rw [if_neg hm']
      exact ih
    · show lookupStockRows
        ((if r.medicine_id == m then { r with current_quantity := r.current_quantity + d } else r) ::
          stockAdd rows m d) m' = _
      rw [if_neg (by simpa using hm)]
      show (if r.medicine_id = m' then some r.current_quantity
          else lookupStockRows (stockAdd rows m d) m') = _
      conv_rhs =>
        rw [show lookupStockRows (r :: rows) m' =
          if r.medicine_id = m' then some r.current_quantity else lookupStockRows rows m' from rfl]
      by_cases hm' : r.medicine_id = m'
      · rw [if_pos hm', if_pos hm']
      · rw [if_neg hm', if_neg hm']
        exact ih

theorem lookupStockRows_append_none (rows rows' : List StockRow) (m : Nat)
    (h : lookupStockRows rows m = none) :
    lookupStockRows (rows ++ rows') m = lookupStockRows rows' m := by
  induction rows with
  | nil => rfl
  | cons r rows ih =>
    show (if r.medicine_id = m then some r.current_quantity
        else lookupStockRows (rows ++ rows') m) = _
    replace h : (if r.medicine_id = m then some r.current_quantity
        else lookupStockRows rows m) = none := h
    by_cases hm : r.medicine_id = m
    · rw [if_pos hm] at h
      exact absurd h (by simp)
    · rw [if_neg hm] at h ⊢
      exact ih h

theorem lookupStockRows_append_some (rows rows' : List StockRow) (m : Nat) (v : Int)
    (h : lookupStockRows rows m = some v) :
    lookupStockRows (rows ++ rows') m = some v := by
  induction rows with
  | nil => exact absurd h (by simp [lookupStockRows])
  | cons r rows ih =>
    show (if r.medicine_id = m then some r.current_quantity
        else lookupStockRows (rows ++ rows') m) = _
    replace h : (if r.medicine_id = m then some r.current_quantity
        else lookupStockRows rows m) = some v := h
    by_cases hm : r.medicine_id = m
    · rw [if_pos hm] at h ⊢
      exact h
    · rw [if_neg hm] at h ⊢
      exact ih h

/-! receiveLine and its fold. -/

theorem receiveLine_stock_skip (orderId : Nat) (st : State) (it : POItemRow)
    (hq : it.quantity_ordered ≤ 0) : (receiveLine orderId st it).stock = st.stock := by
  unfold receiveLine
  rw [if_pos hq]

theorem receiveLine_stock_some (orderId : Nat) (st : State) (it : POItemRow) (cur : Int)
    (hq : ¬ it.quantity_ordered ≤ 0) (hlk : lookupStock st it.medicine_id = some cur) :
    (receiveLine orderId st it).stock =
      stockSet st.stock it.medicine_id (cur + it.quantity_ordered) := by
  unfold receiveLine
  rw [if_neg hq, hlk]

theorem receiveLine_stock_none (orderId : Nat) (st : State) (it : POItemRow)
    (hq : ¬ it.quantity_ordered ≤ 0) (hlk : lookupStock st it.medicine_id = none) :
    (receiveLine orderId st it).stock =
      st.stock ++ [{ medicine_id := it.medicine_id, current_quantity := it.quantity_ordered }] := by
  unfold receiveLine
  rw [if_neg hq, hlk]

theorem stockD_eq_rows (s : State) (m : Nat) :
    stockD s m = (lookupStockRows s.stock m).getD 0 := rfl

theorem receiveLine_stockD (orderId : Nat) (st : State) (it : POItemRow) (m : Nat) :
    stockD (receiveLine orderId st it) m = stockD st m + lineCredit it m := by
  by_cases hq : it.quantity_ordered ≤ 0
  · rw [stockD_eq_rows, receiveLine_stock_skip orderId st it hq, lineCredit,
      if_neg (fun hc => by omega)]
    show stockD st m = stockD st m + 0
    omega
  · cases hlk : lookupStock st it.medicine_id with
    | some cur =>
      rw [stockD_eq_rows, receiveLine_stock_some orderId st it cur hq hlk, lineCredit]
      by_cases hm : it.medicine_id = m
      · subst hm
        rw [lookupStockRows_stockSet_self]
        have hlk' : lookupStockRows st.stock it.medicine_id = some cur := hlk
        rw [hlk', if_pos ⟨rfl, by omega⟩]
        show cur + it.quantity_ordered = stockD st it.medicine_id + it.quantity_ordered
        rw [stockD_eq_rows, hlk']
        rfl
      · rw [lookupStockRows_stockSet_ne _ _ _ _ (fun hc => hm hc.symm),
          if_neg (fun hc => hm hc.1)]
        rw [stockD_eq_rows]
        omega
    | none =>
      rw [stockD_eq_rows, receiveLine_stock_none orderId st it hq hlk, lineCredit]
      have hlk' : lookupStockRows st.stock it.medicine_id = none := hlk
      by_cases hm : it.medicine_id = m
      · subst hm
        rw [lookupStockRows_append_none _ _ _ hlk']
        rw [show lookupStockRows
            [({ medicine_id := it.medicine_id, current_quantity := it.quantity_ordered } :
              StockRow)] it.medicine_id = some it.quantity_ordered from by
          show (if it.medicine_id = it.medicine_id then _ else _) = _
          rw [if_pos rfl]]
        rw [if_pos ⟨rfl, by omega⟩, stockD_eq_rows, hlk']
        show it.quantity_ordered = (0 : Int) + it.quantity_ordered
        omega
      · have hone : lookupStockRows
            [({ medicine_id := it.medicine_id, current_quantity := it.quantity_ordered } :
              StockRow)] m = none := by
          show (if it.medicine_id = m then _ else none) = none
          rw [if_neg hm]
        rw [if_neg (fun hc => hm hc.1), stockD_eq_rows]
        cases hlk2 : lookupStockRows st.stock m with
        | some v =>
          rw [lookupStockRows_append_some _ _ _ _ hlk2]
          show v = v + 0
          omega
        | none =>
          rw [lookupStockRows_append_none _ _ _ hlk2, hone]
          show (0 : Int) = 0 + 0
          omega

theorem receiveLine_txns (orderId : Nat) (st : State) (it : POItemRow) :
    (receiveLine orderId st it).stockTransactions =
      st.stockTransactions ++ (if 0 < it.quantity_ordered then [recvTxn orderId it] else []) := by
  unfold receiveLine
  by_cases hq : it.quantity_ordered ≤ 0
  · rw [if_pos hq, if_neg (by omega)]
    simp
  · rw [if_neg hq, if_pos (by omega)]
    cases lookupStock st it.medicine_id <;> rfl

theorem receiveLine_frame (orderId : Nat) (st : State) (it : POItemRow) :
    (receiveLine orderId st it).bills = st.bills ∧
    (receiveLine orderId st it).billItems = st.billItems ∧
    (receiveLine orderId st it).medicines = st.medicines ∧
    (receiveLine orderId st it).suppliers = st.suppliers ∧
    (receiveLine orderId st it).purchaseOrders = st.purchaseOrders ∧
    (receiveLine orderId st it).nextMedicineId = st.nextMedicineId ∧
    (receiveLine orderId st it).nextBillId = st.nextBillId ∧
    (receiveLine orderId st it).nextSupplierId = st.nextSupplierId ∧
    (receiveLine orderId st it).nextOrderId = st.nextOrderId ∧
    (receiveLine orderId st it).nextPoItemId = st.nextPoItemId := by
  unfold receiveLine
  by_cases hq : it.quantity_ordered ≤ 0
  · rw [if_pos hq]
    exact ⟨rfl, rfl, rfl, rfl, rfl, rfl, rfl, rfl, rfl, rfl⟩
  · rw [if_neg hq]
    cases lookupStock st it.medicine_id <;>
      exact ⟨rfl, rfl, rfl, rfl, rfl, rfl, rfl, rfl, rfl, rfl⟩

theorem receiveLine_poItems (orderId : Nat) (st : State) (it : POItemRow) :
    (receiveLine orderId st it).purchaseOrderItems =
      if 0 < it.quantity_ordered then
        st.purchaseOrderItems.map (fun r =>
          if r.id == it.id then { r with quantity_received := it.quantity_ordered } else r)
      else st.purchaseOrderItems := by
  unfold receiveLine
  by_cases hq : it.quantity_ordered ≤ 0
  · rw [if_pos hq, if_neg (by omega)]
  · rw [if_neg hq, if_pos (by omega)]
    cases lookupStock st it.medicine_id <;> rfl

theorem receiveFold_stockD (orderId : Nat) :
    ∀ (its : List POItemRow) (st : State) (m : Nat),
      stockD (its.foldl (receiveLine orderId) st) m = stockD st m + creditOf its m := by
  intro its
  induction its with
  | nil =>
    intro st m
    show stockD st m = stockD st m + 0
    omega
  | cons it its ih =>
    intro st m
    show stockD (its.foldl (receiveLine orderId) (receiveLine orderId st it)) m = _
    rw [ih, receiveLine_stockD]
    show _ = stockD st m + ((it :: its).map (fun it => lineCredit it m)).sum
    rw [List.map_cons, List.sum_cons]
    show _ = stockD st m + (lineCredit it m + creditOf its m)
    omega

theorem receiveFold_txns (orderId : Nat) :
    ∀ (its : List POItemRow) (st : State),
      (its.foldl (receiveLine orderId) st).stockTransactions =
        st.stockTransactions ++ recvTxns orderId its := by
  intro its
  induction its with
  | nil =>
    intro st
    show st.stockTransactions = st.stockTransactions ++ recvTxns orderId []
    simp [recvTxns]
  | cons it its ih =>
    intro st
    show (its.foldl (receiveLine orderId) (receiveLine orderId st it)).stockTransactions = _
    rw [ih, receiveLine_txns]
    unfold recvTxns
    by_cases hq : 0 < it.quantity_ordered
    · rw [if_pos hq]
      rw [show (it :: its).filter (fun it => decide (0 < it.quantity_ordered)) =
        it :: its.filter (fun it => decide (0 < it.quantity_ordered)) from by
          rw [List.filter_cons_of_pos]
          simpa using hq]
      rw [List.map_cons, List.append_assoc]
      rfl
    · rw [if_neg hq]
      rw [show (it :: its).filter (fun it => decide (0 < it.quantity_ordered)) =
        its.filter (fun it => decide (0 < it.quantity_ordered)) from by
          rw [List.filter_cons_of_neg]
          simpa using hq]
      simp

theorem receiveFold_frame (orderId : Nat) :
    ∀ (its : List POItemRow) (st : State),
      (its.foldl (receiveLine orderId) st).bills = st.bills ∧
      (its.foldl (receiveLine orderId) st).billItems = st.billItems ∧
      (its.foldl (receiveLine orderId) st).medicines = st.medicines ∧
      (its.foldl (receiveLine orderId) st).suppliers = st.suppliers ∧
      (its.foldl (receiveLine orderId) st).purchaseOrders = st.purchaseOrders ∧
      (its.foldl (receiveLine orderId) st).nextMedicineId = st.nextMedicineId ∧
      (its.foldl (receiveLine orderId) st).nextBillId = st.nextBillId ∧
      (its.foldl (receiveLine orderId) st).nextSupplierId = st.nextSupplierId ∧
      (its.foldl (receiveLine orderId) st).nextOrderId = st.nextOrderId ∧
      (its.foldl (receiveLine orderId) st).nextPoItemId = st.nextPoItemId := by
  intro its
  induction its with
  | nil =>
    intro st
    exact ⟨rfl, rfl, rfl, rfl, rfl, rfl, rfl, rfl, rfl, rfl⟩
  | cons it its ih =>
    intro st
    have h1 := receiveLine_frame orderId st it
    have h2 := ih (receiveLine orderId st it)
    show (its.foldl (receiveLine orderId) (receiveLine orderId st it)).bills = st.bills ∧ _
    obtain ⟨a1, a2, a3, a4, a5, a6, a7, a8, a9, a10⟩ := h1
    obtain ⟨b1, b2, b3, b4, b5, b6, b7, b8, b9, b10⟩ := h2
    exact ⟨b1.trans a1, b2.trans a2, b3.trans a3, b4.trans a4, b5.trans a5,
      b6.trans a6, b7.trans a7, b8.trans a8, b9.trans a9, b10.trans a10⟩

theorem receiveLine_poItems_like (orderId : Nat) (st : State) (x it : POItemRow)
    (h : ∃ r ∈ st.purchaseOrderItems, likeItem it r) :
    ∃ r ∈ (receiveLine orderId st x).purchaseOrderItems, likeItem it r := by
  obtain ⟨r, hr, hlike⟩ := h
  rw [receiveLine_poItems]
  by_cases hq : 0 < x.quantity_ordered
  · rw [if_pos hq]
    refine ⟨if r.id == x.id then { r with quantity_received := x.quantity_ordered } else r,
      List.mem_map_of_mem _ hr, ?_⟩
    by_cases hid : r.id == x.id
    · rw [if_pos hid]
      exact hlike
    · rw [if_neg hid]
      exact hlike
  · rw [if_neg hq]
    exact ⟨r, hr, hlike⟩

theorem receiveLine_poItems_keep (orderId : Nat) (st : State) (x : POItemRow) (r : POItemRow)
    (hr : r ∈ st.purchaseOrderItems) (hid : x.id ≠ r.id) :
    r ∈ (receiveLine orderId st x).purchaseOrderItems := by
  rw [receiveLine_poItems]
  by_cases hq : 0 < x.quantity_ordered
  · rw [if_pos hq]
    have hcond : ¬ (r.id == x.id) = true := by
      simp only [beq_iff_eq]
      exact fun hc => hid hc.symm
    have himg : (fun r => if r.id == x.id then
        { r with quantity_received := x.quantity_ordered } else r) r = r := by
      show (if r.id == x.id then { r with quantity_received := x.quantity_ordered } else r) = r
      rw [if_neg hcond]
    rw [← himg]
    exact List.mem_map_of_mem _ hr
  · rw [if_neg hq]
    exact hr

theorem receiveFold_poItems_keep (orderId : Nat) :
    ∀ (its : List POItemRow) (st : State) (r : POItemRow),
      r ∈ st.purchaseOrderItems → (∀ x ∈ its, x.id ≠ r.id) →
      r ∈ (its.foldl (receiveLine orderId) st).purchaseOrderItems := by
  intro its
  induction its with
  | nil =>
    intro st r hr _
    exact hr
  | cons x its ih =>
    intro st r hr hne
    show r ∈ (its.foldl (receiveLine orderId) (receiveLine orderId st x)).purchaseOrderItems
    exact ih _ r (receiveLine_poItems_keep orderId st x r hr (hne x (by simp)))
      (fun y hy => hne y (by simp [hy]))

theorem receiveFold_poItems_set (orderId : Nat) :
    ∀ (its : List POItemRow) (st : State) (it : POItemRow),
      (its.map (fun x => x.id)).Nodup → it ∈ its → 0 < it.quantity_ordered →
      (∃ r ∈ st.purchaseOrderItems, likeItem it r) →
      ∃ r ∈ (its.foldl (receiveLine orderId) st).purchaseOrderItems,
        likeItem it r ∧ r.quantity_received = it.quantity_ordered := by
  intro its
  induction its with
  | nil =>
    intro st it _ hmem
    simp at hmem
  | cons hd its ih =>
    intro st it hnd hmem hq hex
    rw [List.map_cons] at hnd
    have hnd' := List.nodup_cons.mp hnd
    rcases List.mem_cons.mp hmem with heq | hmem'
    · obtain ⟨r, hr, hlike⟩ := hex
      have hq' : 0 < hd.quantity_ordered := by
        rw [← heq]
        exact hq
      have hstep : ∃ r' ∈ (receiveLine orderId st hd).purchaseOrderItems,
          likeItem it r' ∧ r'.quantity_received = it.quantity_ordered := by
        rw [receiveLine_poItems, if_pos hq']
        refine ⟨{ r with quantity_received := hd.quantity_ordered }, ?_, ?_⟩
        · have himg : (fun r => if r.id == hd.id then
              { r with quantity_received := hd.quantity_ordered } else r) r =
              { r with quantity_received := hd.quantity_ordered } := by
            show (if r.id == hd.id then
              { r with quantity_received := hd.quantity_ordered } else r) = _
            rw [if_pos (by simp only [beq_iff_eq]; rw [hlike.1, heq])]
          rw [← himg]
          exact List.mem_map_of_mem _ hr
        · exact ⟨⟨hlike.1, hlike.2.1, hlike.2.2⟩, by rw [← heq]⟩
      obtain ⟨r', hr', hlike', hqr⟩ := hstep
      refine ⟨r', receiveFold_poItems_keep orderId its _ r' hr' ?_, hlike', hqr⟩
      intro x hx hc
      apply hnd'.1
      have hmm : x.id ∈ its.map (fun x => x.id) := List.mem_map_of_mem _ hx
      rw [hc, hlike'.1, heq] at hmm
      exact hmm
    · exact ih (receiveLine orderId st hd) it hnd'.2 hmem' hq
        (receiveLine_poItems_like orderId st hd it hex)

theorem markOrderReceived_ok (s : State) (orderId : Nat) (rd : String) (o : PurchaseOrderRow)
    (hfind : findOrder s orderId = some o) (hnc : o.status ≠ .cancelled) :
    markOrderReceived s orderId rd = .ok (recvState s orderId rd o) := by
  unfold markOrderReceived
  rw [hfind]
  dsimp only
  rw [if_neg hnc]
  rfl

theorem markOrderReceived_ok_inv (s : State) (orderId : Nat) (rd : String) (s' : State)
    (h : markOrderReceived s orderId rd = .ok s') :
    ∃ o, findOrder s orderId = some o ∧ o.status ≠ .cancelled ∧
      s' = recvState s orderId rd o := by
  unfold markOrderReceived at h
  cases hf : findOrder s orderId with
  | none =>
    rw [hf] at h
    exact absurd h (by simp)
  | some o =>
    rw [hf] at h
    dsimp only at h
    by_cases hc : o.status = .cancelled
    · rw [if_pos hc] at h
      exact absurd h (by simp)
    · rw [if_neg hc] at h
      simp only [Except.ok.injEq] at h
      exact ⟨o, rfl, hc, h.symm⟩

theorem markOrderReceived_error_state (s : State) (orderId : Nat) (rd : String)
    (e : Err) (st : State) (h : markOrderReceived s orderId rd = .error (e, st)) : st = s := by
  unfold markOrderReceived at h
  cases hf : findOrder s orderId with
  | none =>
    rw [hf] at h
    simp only [Except.error.injEq, Prod.mk.injEq] at h
    exact h.2.symm
  | some o =>
    rw [hf] at h
    dsimp only at h
    by_cases hc : o.status = .cancelled
    · rw [if_pos hc] at h
      simp only [Except.error.injEq, Prod.mk.injEq] at h
      exact h.2.symm
    · rw [if_neg hc] at h
      exact absurd h (by simp)

/-! ## Claim C7: markOrderReceived -/

/-- C7: on an order that is not `cancelled`, `markOrderReceived` credits
every line's medicine by exactly its positive ordered quantity (summed
over that medicine's lines, lines with `quantity_ordered ≤ 0` skipped),
appends one `in` ledger row per such line referencing the order, sets each
such line's `quantity_received` to `quantity_ordered`, sets the received
date, and moves the status to `received` iff `paid_amount ≥ total_amount`
and to `partial` otherwise; on a `cancelled` order it fails with
InvalidStateError and changes nothing. -/
theorem purchaseOrderReceipt :
    (∀ (s : State) (orderId : Nat) (rd : String) (o : PurchaseOrderRow),
      findOrder s orderId = some o →
      o.status = .cancelled →
        markOrderReceived s orderId rd =
          .error (.invalidState "Cannot receive a cancelled order.", s) ∧
        applyOp s (.opMarkOrderReceived orderId rd) = s) ∧
    (∀ (s : State) (orderId : Nat) (rd : String) (o : PurchaseOrderRow),
      (s.purchaseOrderItems.map (fun r => r.id)).Nodup →
      findOrder s orderId = some o →
      o.status ≠ .cancelled →
      ∃ s', markOrderReceived s orderId rd = .ok s' ∧
        (∀ m, stockD s' m = stockD s m + creditOf (orderItems s orderId) m) ∧
        s'.stockTransactions = s.stockTransactions ++ recvTxns orderId (orderItems s orderId) ∧
        (∀ it ∈ orderItems s orderId, 0 < it.quantity_ordered →
          ∃ r ∈ s'.purchaseOrderItems, r.id = it.id ∧ r.medicine_id = it.medicine_id ∧
            r.quantity_ordered = it.quantity_ordered ∧
            r.quantity_received = it.quantity_ordered) ∧
        s'.purchaseOrders = s.purchaseOrders.map (fun p =>
          if p.id == orderId then
            { p with
              status :=
                if o.paid_amount ≥ o.total_amount then OrderStatus.received
                else OrderStatus.partialPaid,
              received_date := some rd }
          else p)) := by
  constructor
  · intro s orderId rd o hfind hcanc
    have herr : markOrderReceived s orderId rd =
        .error (.invalidState "Cannot receive a cancelled order.", s) := by
      unfold markOrderReceived
      rw [hfind]
      dsimp only
      rw [if_pos hcanc]
    refine ⟨herr, ?_⟩
    unfold applyOp
    dsimp only
    rw [herr]
  · intro s orderId rd o hnd hfind hnc
    refine ⟨recvState s orderId rd o, markOrderReceived_ok s orderId rd o hfind hnc,
      ?_, ?_, ?_, ?_⟩
    · intro m
      have : stockD (recvState s orderId rd o) m =
          stockD ((orderItems s orderId).foldl (receiveLine orderId) s) m := rfl
      rw [this, receiveFold_stockD]
    · have : (recvState s orderId rd o).stockTransactions =
          ((orderItems s orderId).foldl (receiveLine orderId) s).stockTransactions := rfl
      rw [this, receiveFold_txns]
    · intro it hit hq
      have hnd2 : ((orderItems s orderId).map (fun x => x.id)).Nodup := by
        apply hnd.sublist
        exact (List.filter_sublist _).map _
      have hlike : ∃ r ∈ s.purchaseOrderItems, likeItem it r :=
        ⟨it, List.mem_of_mem_filter hit, rfl, rfl, rfl⟩
      obtain ⟨r, hr, hlike', hqr⟩ :=
        receiveFold_poItems_set orderId (orderItems s orderId) s it hnd2 hit hq hlike
      exact ⟨r, hr, hlike'.1, hlike'.2.1, hlike'.2.2, hqr⟩
    · have hfr := (receiveFold_frame orderId (orderItems s orderId) s).2.2.2.2.1
      show ((orderItems s orderId).foldl (receiveLine orderId) s).purchaseOrders.map _ = _
      rw [hfr]

theorem purchaseOrderReceipt_witness :
    markOrderReceived sampleCancelledState 1 "2026-01-05" =
      .error (.invalidState "Cannot receive a cancelled order.", sampleCancelledState) ∧
    (∃ s', markOrderReceived samplePOState 1 "2026-01-01" = .ok s' ∧ stockD s' 1 = 105) := by
  constructor
  · exact (purchaseOrderReceipt.1 sampleCancelledState 1 "2026-01-05"
      { id := 1, order_number := [80, 79, 45, 48, 48, 48, 48, 49], supplier_id := 1,
        received_date := none, status := .cancelled, total_amount := 500, paid_amount := 0 }
      (by rfl) (by rfl)).1
  · obtain ⟨s', hok, hstock, -, -, -⟩ := purchaseOrderReceipt.2 samplePOState 1 "2026-01-01"
      { id := 1, order_number := [80, 79, 45, 48, 48, 48, 48, 49], supplier_id := 1,
        received_date := none, status := .pending, total_amount := 500, paid_amount := 0 }
      (by decide) (by rfl) (by decide)
    refine ⟨s', hok, ?_⟩
    rw [hstock 1]
    decide

/-! ## Claim C10: purchase-order receipt is re-runnable -/

/-- C10: `markOrderReceived` guards only against `cancelled`: on an order
already in status `received` or `partial` the call succeeds again,
crediting every line's medicine a second time and appending duplicate
`in` ledger rows; and every successful receipt leaves the order in status
`received` or `partial`, so the post-receipt status never blocks a
re-receipt. -/
theorem receiptNotIdempotent :
    (∀ (s : State) (orderId : Nat) (rd : String) (o : PurchaseOrderRow),
      findOrder s orderId = some o →
      (o.status = OrderStatus.received ∨ o.status = OrderStatus.partialPaid) →
      ∃ s', markOrderReceived s orderId rd = .ok s' ∧
        (∀ m, stockD s' m = stockD s m + creditOf (orderItems s orderId) m) ∧
        s'.stockTransactions = s.stockTransactions ++ recvTxns orderId (orderItems s orderId)) ∧
    (∀ (s : State) (orderId : Nat) (rd : String) (s' : State),
      markOrderReceived s orderId rd = .ok s' →
      ∀ o' ∈ s'.purchaseOrders, o'.id = orderId →
        o'.status = OrderStatus.received ∨ o'.status = OrderStatus.partialPaid) := by
  constructor
  · intro s orderId rd o hfind hst
    have hnc : o.status ≠ .cancelled := by
      rcases hst with h | h <;> rw [h] <;> intro hc <;> exact absurd hc (by decide)
    refine ⟨recvState s orderId rd o, markOrderReceived_ok s orderId rd o hfind hnc, ?_, ?_⟩
    · intro m
      have : stockD (recvState s orderId rd o) m =
          stockD ((orderItems s orderId).foldl (receiveLine orderId) s) m := rfl
      rw [this, receiveFold_stockD]
    · have : (recvState s orderId rd o).stockTransactions =
          ((orderItems s orderId).foldl (receiveLine orderId) s).stockTransactions := rfl
      rw [this, receiveFold_txns]
  · intro s orderId rd s' hok o' ho' hid
    obtain ⟨o, hfind, hnc, hs'⟩ := markOrderReceived_ok_inv s orderId rd s' hok
    rw [hs'] at ho'
    have hpos : (recvState s orderId rd o).purchaseOrders =
        ((orderItems s orderId).foldl (receiveLine orderId) s).purchaseOrders.map
          (fun p =>
            if p.id == orderId then
              { p with
                status :=
                  if o.paid_amount ≥ o.total_amount then OrderStatus.received
                  else OrderStatus.partialPaid,
                received_date := some rd }
            else p) := rfl
    rw [hpos] at ho'
    obtain ⟨p, hp, himg⟩ := List.mem_map.mp ho'
    by_cases hpid : (p.id == orderId) = true
    · rw [if_pos hpid] at himg
      rw [← himg]
      by_cases hpay : o.paid_amount ≥ o.total_amount
      · left
        show (if o.paid_amount ≥ o.total_amount then OrderStatus.received
          else OrderStatus.partialPaid) = OrderStatus.received
        rw [if_pos hpay]
      · right
        show (if o.paid_amount ≥ o.total_amount then OrderStatus.received
          else OrderStatus.partialPaid) = OrderStatus.partialPaid
        rw [if_neg hpay]
    · rw [if_neg hpid] at himg
      exfalso
      apply hpid
      rw [himg, hid]
      exact beq_self_eq_true orderId

theorem receiptNotIdempotent_witness :
    ∃ s', markOrderReceived sampleReceivedState 1 "2026-01-06" = .ok s' ∧ stockD s' 1 = 110 := by
  obtain ⟨s', hok, hstock, -⟩ := receiptNotIdempotent.1 sampleReceivedState 1 "2026-01-06"
    { id := 1, order_number := [80, 79, 45, 48, 48, 48, 48, 49], supplier_id := 1,
      received_date := some "2026-01-01", status := .partialPaid, total_amount := 500,
      paid_amount := 0 }
    (by rfl) (Or.inr (by rfl))
  refine ⟨s', hok, ?_⟩
  rw [hstock 1]
  decide

/-! Bill-line and void-line fold lemmas. -/

theorem lookupStockRows_stockAdd_isSome (rows : List StockRow) (x : Nat) (d : Int) (y : Nat) :
    (lookupStockRows (stockAdd rows x d) y).isSome = (lookupStockRows rows y).isSome := by
  by_cases h : y = x
  · subst h
    rw [lookupStockRows_stockAdd_self]
    cases lookupStockRows rows y <;> rfl
  · rw [lookupStockRows_stockAdd_ne _ _ _ _ h]

theorem stockD_pos_isSome (s : State) (m : Nat) (h : 0 < stockD s m) :
    (lookupStockRows s.stock m).isSome = true := by
  rw [stockD_eq_rows] at h
  cases hlk : lookupStockRows s.stock m with
  | some v => rfl
  | none =>
    rw [hlk] at h
    simp only [Option.getD_none] at h
    omega

theorem requiredQty_cons (it : CreateBillItemInput) (items : List CreateBillItemInput) (m : Nat) :
    requiredQty (it :: items) m =
      (if it.medicineId = m then it.quantity else 0) + requiredQty items m := by
  unfold requiredQty
  by_cases hm : it.medicineId = m
  · rw [if_pos hm, List.filter_cons_of_pos]
    · rw [List.map_cons, List.sum_cons]
    · simpa using hm
  · rw [if_neg hm, List.filter_cons_of_neg]
    · omega
    · simpa using hm

theorem billItemsQty_cons (it : BillItemRow) (items : List BillItemRow) (m : Nat) :
    billItemsQty (it :: items) m =
      (if it.medicine_id = m then it.quantity else 0) + billItemsQty items m := by
  unfold billItemsQty
  by_cases hm : it.medicine_id = m
  · rw [if_pos hm, List.filter_cons_of_pos]
    · rw [List.map_cons, List.sum_cons]
    · simpa using hm
  · rw [if_neg hm, List.filter_cons_of_neg]
    · omega
    · simpa using hm

theorem txnsSum_cons (t : StockTxnRow) (l : List StockTxnRow) (m : Nat) :
    txnsSum (t :: l) m = (if t.medicine_id = m then signedQty t else 0) + txnsSum l m := by
  unfold txnsSum
  by_cases hm : t.medicine_id = m
  · rw [if_pos hm, List.filter_cons_of_pos]
    · rw [List.map_cons, List.sum_cons]
    · simpa using hm
  · rw [if_neg hm, List.filter_cons_of_neg]
    · omega
    · simpa using hm

theorem txnsSum_append (a b : List StockTxnRow) (m : Nat) :
    txnsSum (a ++ b) m = txnsSum a m + txnsSum b m := by
  unfold txnsSum
  rw [List.filter_append, List.map_append, List.sum_append]

theorem txnsSum_outTxns (billId : Nat) (cb : Option Nat) :
    ∀ (items : List CreateBillItemInput) (m : Nat),
      txnsSum (items.map (outTxn billId cb)) m = - requiredQty items m := by
  intro items
  induction items with
  | nil =>
    intro m
    show (0 : Int) = -(0 : Int)
    omega
  | cons it items ih =>
    intro m
    rw [List.map_cons, txnsSum_cons, ih, requiredQty_cons]
    by_cases hm : it.medicineId = m
    · rw [if_pos (show (outTxn billId cb it).medicine_id = m from hm), if_pos hm]
      show -it.quantity + -requiredQty items m = -(it.quantity + requiredQty items m)
      omega
    · rw [if_neg (show ¬ (outTxn billId cb it).medicine_id = m from hm), if_neg hm]
      omega

theorem txnsSum_voidTxns (billId : Nat) (vb : Nat) :
    ∀ (items : List BillItemRow) (m : Nat),
      txnsSum (items.map (voidTxn billId vb)) m = billItemsQty items m := by
  intro items
  induction items with
  | nil =>
    intro m
    rfl
  | cons it items ih =>
    intro m
    rw [List.map_cons, txnsSum_cons, ih, billItemsQty_cons]
    by_cases hm : it.medicine_id = m
    · rw [if_pos (show (voidTxn billId vb it).medicine_id = m from hm), if_pos hm]
      rfl
    · rw [if_neg (show ¬ (voidTxn billId vb it).medicine_id = m from hm), if_neg hm]

theorem billItemsQty_map_mkBillItem (billId : Nat) :
    ∀ (items : List CreateBillItemInput) (m : Nat),
      billItemsQty (items.map (mkBillItem billId)) m = requiredQty items m := by
  intro items
  induction items with
  | nil =>
    intro m
    rfl
  | cons it items ih =>
    intro m
    rw [List.map_cons, billItemsQty_cons, ih, requiredQty_cons]
    by_cases hm : it.medicineId = m
    · rw [if_pos (show (mkBillItem billId it).medicine_id = m from hm), if_pos hm]
      rfl
    · rw [if_neg (show ¬ (mkBillItem billId it).medicine_id = m from hm), if_neg hm]

theorem applyBillLine_stockD (billId : Nat) (cb : Option Nat) (st : State)
    (it : CreateBillItemInput) (m : Nat)
    (hsome : (lookupStockRows st.stock it.medicineId).isSome = true) :
    stockD (applyBillLine billId cb st it) m =
      stockD st m - (if it.medicineId = m then it.quantity else 0) := by
  show (lookupStockRows (stockAdd st.stock it.medicineId (-it.quantity)) m).getD 0 = _
  by_cases hm : it.medicineId = m
  · subst hm
    rw [lookupStockRows_stockAdd_self]
    obtain ⟨q, hq⟩ := Option.isSome_iff_exists.mp hsome
    rw [hq, if_pos rfl, stockD_eq_rows, hq]
    show q + -it.quantity = q - it.quantity
    omega
  · rw [lookupStockRows_stockAdd_ne _ _ _ _ (fun hc => hm hc.symm), if_neg hm, stockD_eq_rows]
    omega

theorem applyVoidLine_stockD (billId : Nat) (vb : Nat) (st : State)
    (it : BillItemRow) (m : Nat)
    (hsome : (lookupStockRows st.stock it.medicine_id).isSome = true) :
    stockD (applyVoidLine billId vb st it) m =
      stockD st m + (if it.medicine_id = m then it.quantity else 0) := by
  show (lookupStockRows (stockAdd st.stock it.medicine_id it.quantity) m).getD 0 = _
  by_cases hm : it.medicine_id = m
  · subst hm
    rw [lookupStockRows_stockAdd_self]
    obtain ⟨q, hq⟩ := Option.isSome_iff_exists.mp hsome
    rw [hq, if_pos rfl, stockD_eq_rows, hq]
    rfl
  · rw [lookupStockRows_stockAdd_ne _ _ _ _ (fun hc => hm hc.symm), if_neg hm, stockD_eq_rows]
    omega

theorem billFold_spec (billId : Nat) (cb : Option Nat) :
    ∀ (items : List CreateBillItemInput) (st : State),
      (∀ it ∈ items, (lookupStockRows st.stock it.medicineId).isSome = true) →
      (∀ m, stockD (items.foldl (applyBillLine billId cb) st) m =
        stockD st m - requiredQty items m) ∧
      (items.foldl (applyBillLine billId cb) st).stockTransactions =
        st.stockTransactions ++ items.map (outTxn billId cb) ∧
      (items.foldl (applyBillLine billId cb) st).billItems =
        st.billItems ++ items.map (mkBillItem billId) ∧
      (items.foldl (applyBillLine billId cb) st).bills = st.bills ∧
      (items.foldl (applyBillLine billId cb) st).medicines = st.medicines ∧
      (items.foldl (applyBillLine billId cb) st).suppliers = st.suppliers ∧
      (items.foldl (applyBillLine billId cb) st).purchaseOrders = st.purchaseOrders ∧
      (items.foldl (applyBillLine billId cb) st).purchaseOrderItems = st.purchaseOrderItems ∧
      (items.foldl (applyBillLine billId cb) st).nextMedicineId = st.nextMedicineId ∧
      (items.foldl (applyBillLine billId cb) st).nextBillId = st.nextBillId ∧
      (items.foldl (applyBillLine billId cb) st).nextSupplierId = st.nextSupplierId ∧
      (items.foldl (applyBillLine billId cb) st).nextOrderId = st.nextOrderId ∧
      (items.foldl (applyBillLine billId cb) st).nextPoItemId = st.nextPoItemId ∧
      (∀ y, (lookupStockRows (items.foldl (applyBillLine billId cb) st).stock y).isSome =
        (lookupStockRows st.stock y).isSome) := by
  intro items
  induction items with
  | nil =>
    intro st _
    refine ⟨fun m => ?_, (List.append_nil _).symm, (List.append_nil _).symm,
      rfl, rfl, rfl, rfl, rfl, rfl, rfl, rfl, rfl, rfl, fun y => rfl⟩
    show stockD st m = stockD st m - 0
    omega
  | cons it items ih =>
    intro st hsome
    have hit := hsome it (by simp)
    have hsome' : ∀ x ∈ items,
        (lookupStockRows (applyBillLine billId cb st it).stock x.medicineId).isSome = true := by
      intro x hx
      show (lookupStockRows (stockAdd st.stock it.medicineId (-it.quantity))
        x.medicineId).isSome = true
      rw [lookupStockRows_stockAdd_isSome]
      exact hsome x (by simp [hx])
    obtain ⟨hD, hT, hI, hB, hM, hS, hPO, hPOI, c1, c2, c3, c4, c5, hiso⟩ :=
      ih (applyBillLine billId cb st it) hsome'
    refine ⟨fun m => ?_, ?_, ?_, hB, hM, hS, hPO, hPOI, c1, c2, c3, c4, c5, fun y => ?_⟩
    · show stockD (items.foldl _ (applyBillLine billId cb st it)) m = _
      rw [hD, applyBillLine_stockD billId cb st it m hit, requiredQty_cons]
      omega
    · show (items.foldl (applyBillLine billId cb)
        (applyBillLine billId cb st it)).stockTransactions = _
      rw [hT]
      show (st.stockTransactions ++ [outTxn billId cb it]) ++ items.map (outTxn billId cb) = _
      rw [List.append_assoc]
      rfl
    · show (items.foldl (applyBillLine billId cb) (applyBillLine billId cb st it)).billItems = _
      rw [hI]
      show (st.billItems ++ [mkBillItem billId it]) ++ items.map (mkBillItem billId) = _
      rw [List.append_assoc]
      rfl
    · show (lookupStockRows
        (items.foldl (applyBillLine billId cb) (applyBillLine billId cb st it)).stock y).isSome = _
      rw [hiso y]
      show (lookupStockRows (stockAdd st.stock it.medicineId (-it.quantity)) y).isSome = _
      rw [lookupStockRows_stockAdd_isSome]

theorem voidFold_spec (billId : Nat) (vb : Nat) :
    ∀ (items : List BillItemRow) (st : State),
      (∀ it ∈ items, (lookupStockRows st.stock it.medicine_id).isSome = true) →
      (∀ m, stockD (items.foldl (applyVoidLine billId vb) st) m =
        stockD st m + billItemsQty items m) ∧
      (items.foldl (applyVoidLine billId vb) st).stockTransactions =
        st.stockTransactions ++ items.map (voidTxn billId vb) ∧
      (items.foldl (applyVoidLine billId vb) st).billItems = st.billItems ∧
      (items.foldl (applyVoidLine billId vb) st).bills = st.bills ∧
      (items.foldl (applyVoidLine billId vb) st).medicines = st.medicines ∧
      (items.foldl (applyVoidLine billId vb) st).suppliers = st.suppliers ∧
      (items.foldl (applyVoidLine billId vb) st).purchaseOrders = st.purchaseOrders ∧
      (items.foldl (applyVoidLine billId vb) st).purchaseOrderItems = st.purchaseOrderItems ∧
      (items.foldl (applyVoidLine billId vb) st).nextMedicineId = st.nextMedicineId ∧
      (items.foldl (applyVoidLine billId vb) st).nextBillId = st.nextBillId ∧
      (items.foldl (applyVoidLine billId vb) st).nextSupplierId = st.nextSupplierId ∧
      (items.foldl (applyVoidLine billId vb) st).nextOrderId = st.nextOrderId ∧
      (items.foldl (applyVoidLine billId vb) st).nextPoItemId = st.nextPoItemId ∧
      (∀ y, (lookupStockRows (items.foldl (applyVoidLine billId vb) st).stock y).isSome =
        (lookupStockRows st.stock y).isSome) := by
  intro items
  induction items with
  | nil =>
    intro st _
    refine ⟨fun m => ?_, (List.append_nil _).symm,
      rfl, rfl, rfl, rfl, rfl, rfl, rfl, rfl, rfl, rfl, rfl, fun y => rfl⟩
    show stockD st m = stockD st m + 0
    omega
  | cons it items ih =>
    intro st hsome
    have hit := hsome it (by simp)
    have hsome' : ∀ x ∈ items,
        (lookupStockRows (applyVoidLine billId vb st it).stock x.medicine_id).isSome = true := by
      intro x hx
      show (lookupStockRows (stockAdd st.stock it.medicine_id it.quantity)
        x.medicine_id).isSome = true
      rw [lookupStockRows_stockAdd_isSome]
      exact hsome x (by simp [hx])
    obtain ⟨hD, hT, hI, hB, hM, hS, hPO, hPOI, c1, c2, c3, c4, c5, hiso⟩ :=
      ih (applyVoidLine billId vb st it) hsome'
    refine ⟨fun m => ?_, ?_, hI, hB, hM, hS, hPO, hPOI, c1, c2, c3, c4, c5, fun y => ?_⟩
    · show stockD (items.foldl _ (applyVoidLine billId vb st it)) m = _
      rw [hD, applyVoidLine_stockD billId vb st it m hit, billItemsQty_cons]
      omega
    · show (items.foldl (applyVoidLine billId vb)
        (applyVoidLine billId vb st it)).stockTransactions = _
      rw [hT]
      show (st.stockTransactions ++ [voidTxn billId vb it]) ++ items.map (voidTxn billId vb) = _
      rw [List.append_assoc]
      rfl
    · show (lookupStockRows
        (items.foldl (applyVoidLine billId vb) (applyVoidLine billId vb st it)).stock y).isSome = _
      rw [hiso y]
      show (lookupStockRows (stockAdd st.stock it.medicine_id it.quantity) y).isSome = _
      rw [lookupStockRows_stockAdd_isSome]

theorem firstOccurAux_mem :
    ∀ (l : List Nat) (seen : List Nat) (x : Nat),
      x ∈ firstOccurAux seen l ↔ x ∈ l ∧ x ∉ seen := by
  intro l
  induction l with
  | nil =>
    intro seen x
    simp [firstOccurAux]
  | cons y l ih =>
    intro seen x
    unfold firstOccurAux
    by_cases hy : y ∈ seen
    · rw [if_pos hy, ih]
      constructor
      · rintro ⟨hxl, hxs⟩
        exact ⟨by simp [hxl], hxs⟩
      · rintro ⟨hx, hxs⟩
        rcases List.mem_cons.mp hx with heq | hx'
        · exact absurd (heq ▸ hy) hxs
        · exact ⟨hx', hxs⟩
    · rw [if_neg hy]
      constructor
      · intro hx
        rcases List.mem_cons.mp hx with heq | hx'
        · exact ⟨by simp [heq], heq ▸ hy⟩
        · rw [ih] at hx'
          obtain ⟨h1, h2⟩ := hx'
          exact ⟨by simp [h1], fun hc => h2 (by simp [hc])⟩
      · rintro ⟨hx, hxs⟩
        rcases List.mem_cons.mp hx with heq | hx'
        · rw [heq]
          exact List.mem_cons_self _ _
        · by_cases hxy : x = y
          · rw [hxy]
            exact List.mem_cons_self _ _
          · apply List.mem_cons_of_mem
            rw [ih]
            refine ⟨hx', fun hc => ?_⟩
            rcases List.mem_cons.mp hc with heq2 | hc'
            · exact hxy heq2
            · exact hxs hc'

theorem firstOccur_mem (l : List Nat) (x : Nat) : x ∈ firstOccur l ↔ x ∈ l := by
  rw [firstOccur, firstOccurAux_mem]
  simp

theorem checkStock_none (s : State) (items : List CreateBillItemInput) :
    ∀ ms, checkStock s items ms = none →
      ∀ m ∈ ms, ∃ med, findMedicine s m = some med ∧ med.is_deleted = false ∧
        requiredQty items m ≤ stockD s m := by
  intro ms
  induction ms with
  | nil =>
    intro _ m hm
    simp at hm
  | cons x ms ih =>
    intro h m hm
    unfold checkStock at h
    cases hf : findMedicine s x with
    | none =>
      rw [hf] at h
      exact absurd h (by simp)
    | some med =>
      rw [hf] at h
      dsimp only at h
      by_cases hdel : med.is_deleted = true
      · rw [if_pos hdel] at h
        exact absurd h (by simp)
      · rw [if_neg hdel] at h
        by_cases hlt : stockD s x < requiredQty items x
        · rw [if_pos hlt] at h
          exact absurd h (by simp)
        · rw [if_neg hlt] at h
          rcases List.mem_cons.mp hm with heq | hm'
          · rw [heq]
            exact ⟨med, hf, by simpa using hdel, by omega⟩
          · exact ih h m hm'

theorem validated_item_quantity_le (items : List CreateBillItemInput)
    (hval : ∀ it ∈ items, it.medicineId ≠ 0 ∧ 0 < it.quantity ∧ 0 ≤ it.unitPrice)
    (it : CreateBillItemInput) (hit : it ∈ items) :
    it.quantity ≤ requiredQty items it.medicineId := by
  unfold requiredQty
  apply List.single_le_sum
  · intro x hx
    obtain ⟨y, hy, heq⟩ := List.mem_map.mp hx
    have := hval y (List.mem_of_mem_filter hy)
    omega
  · apply List.mem_map_of_mem
    rw [List.mem_filter]
    exact ⟨hit, by simp⟩

/-- After a successful stock check, every line's medicine has a stock row. -/
theorem createBillBody_items_isSome (s : State) (d : Str) (input : CreateBillInput)
    (r : State × BillRow) (h : createBillBody s d input = .ok r) :
    ∀ it ∈ input.items, (lookupStockRows s.stock it.medicineId).isSome = true := by
  obtain ⟨hne, hv, hc, ar, cd, hp, hu, hr⟩ := createBillBody_ok_inv s d input r h
  intro it hit
  have hval := validateItems_none input.items hv
  have hmem : it.medicineId ∈ firstOccur (input.items.map (fun x => x.medicineId)) := by
    rw [firstOccur_mem]
    exact List.mem_map_of_mem _ hit
  obtain ⟨med, hmed, hdel, hreq⟩ := checkStock_none s input.items _ hc it.medicineId hmem
  have hq := validated_item_quantity_le input.items hval it hit
  have hqpos := (hval it hit).2.1
  apply stockD_pos_isSome
  omega

theorem voidBill_ok_inv (s : State) (billId : Nat) (reason : Str) (vb : Nat) (s' : State)
    (h : voidBill s billId reason vb = .ok s') :
    s.billItems.filter (fun it => it.bill_id == billId) ≠ [] ∧
    s' = (s.billItems.filter (fun it => it.bill_id == billId)).foldl (applyVoidLine billId vb)
      { s with bills := s.bills.map (fun b => if b.id == billId then
          { b with is_voided := true, voided_reason := some (strTrim reason), voided_by := some vb }
        else b) } := by
  unfold voidBill at h
  by_cases h1 : billId = 0
  · rw [if_pos h1] at h
    exact absurd h (by simp)
  · rw [if_neg h1] at h
    by_cases h2 : strTrim reason = []
    · rw [if_pos h2] at h
      exact absurd h (by simp)
    · rw [if_neg h2] at h
      by_cases h3 : vb = 0
      · rw [if_pos h3] at h
        exact absurd h (by simp)
      · rw [if_neg h3] at h
        cases hf : s.bills.find? (fun b => b.id == billId) with
        | none =>
          rw [hf] at h
          exact absurd h (by simp)
        | some bill =>
          rw [hf] at h
          dsimp only at h
          by_cases h4 : bill.is_voided = true
          · rw [if_pos h4] at h
            exact absurd h (by simp)
          · rw [if_neg h4] at h
            by_cases h5 : s.billItems.filter (fun it => it.bill_id == billId) = []
            · rw [if_pos h5] at h
              exact absurd h (by simp)
            · rw [if_neg h5] at h
              simp only [Except.ok.injEq] at h
              exact ⟨h5, h.symm⟩

theorem filter_billItems_append (old : List BillItemRow) (items : List CreateBillItemInput)
    (billId : Nat) (hold : ∀ it ∈ old, it.bill_id ≠ billId) :
    (old ++ items.map (mkBillItem billId)).filter (fun it => it.bill_id == billId) =
      items.map (mkBillItem billId) := by
  rw [List.filter_append]
  have h1 : old.filter (fun it => it.bill_id == billId) = [] := by
    rw [List.filter_eq_nil_iff]
    intro it hit
    simpa using hold it hit
  have h2 : (items.map (mkBillItem billId)).filter (fun it => it.bill_id == billId) =
      items.map (mkBillItem billId) := by
    rw [List.filter_eq_self]
    intro it hit
    obtain ⟨x, hx, heq⟩ := List.mem_map.mp hit
    rw [← heq]
    show ((mkBillItem billId x).bill_id == billId) = true
    simp [mkBillItem]
  rw [h1, h2, List.nil_append]

/-- C6: void is a perfect stock inverse.  For every successful `createBill`
followed by a successful `voidBill` of that bill (in a store whose existing
bill items all belong to bills with smaller ids, as the autoincrement ids
guarantee), the ledger rows attributable to the bill — the `out` rows of
creation plus the `in` rows of the void — sum to exactly 0 for every
medicine, every stock balance returns to its pre-bill value, the bill row
remains (marked voided, same id and bill number), and the bill item rows
remain untouched. -/
theorem voidRestoresStock (s : State) (d : Str) (input : CreateBillInput)
    (s1 : State) (bill : BillRow) (reason : Str) (vb : Nat) (s2 : State)
    (hwf : ∀ it ∈ s.billItems, it.bill_id < s.nextBillId)
    (hcreate : createBill s d input = .ok (s1, bill))
    (hvoid : voidBill s1 bill.id reason vb = .ok s2) :
    (∀ m, txnsSum (s2.stockTransactions.drop s.stockTransactions.length) m = 0) ∧
    (∀ m, stockD s2 m = stockD s m) ∧
    (∃ b ∈ s2.bills, b.id = bill.id ∧ b.bill_number = bill.bill_number ∧ b.is_voided = true) ∧
    s2.billItems = s1.billItems := by
  have hbody := createBill_ok_body s d input _ hcreate
  have hisome := createBillBody_items_isSome s d input _ hbody
  obtain ⟨hne, hv, hc, ar, cd, hp, hu, hr⟩ := createBillBody_ok_inv s d input _ hbody
  have hs1 : s1 = createBillWrite s (mkBill s d input ar cd) input := congrArg Prod.fst hr
  have hbill : bill = mkBill s d input ar cd := congrArg Prod.snd hr
  subst hbill
  obtain ⟨fD, fT, fI, fB, fM, fS, fPO, fPOI, f1, f2, f3, f4, f5, fiso⟩ :=
    billFold_spec (mkBill s d input ar cd).id input.createdBy input.items
      { s with bills := s.bills ++ [mkBill s d input ar cd], nextBillId := s.nextBillId + 1 }
      (fun it hit => hisome it hit)
  have hT1 : s1.stockTransactions = s.stockTransactions ++
      input.items.map (outTxn (mkBill s d input ar cd).id input.createdBy) := by
    rw [hs1]; exact fT
  have hI1 : s1.billItems = s.billItems ++
      input.items.map (mkBillItem (mkBill s d input ar cd).id) := by
    rw [hs1]; exact fI
  have hB1 : s1.bills = s.bills ++ [mkBill s d input ar cd] := by
    rw [hs1]; exact fB
  have hD1 : ∀ m, stockD s1 m = stockD s m - requiredQty input.items m := by
    intro m; rw [hs1]; exact fD m
  have hiso1 : ∀ y, (lookupStockRows s1.stock y).isSome = (lookupStockRows s.stock y).isSome := by
    intro y; rw [hs1]; exact fiso y
  obtain ⟨hne2, hs2⟩ := voidBill_ok_inv s1 (mkBill s d input ar cd).id reason vb s2 hvoid
  have hfil : s1.billItems.filter (fun it => it.bill_id == (mkBill s d input ar cd).id) =
      input.items.map (mkBillItem (mkBill s d input ar cd).id) := by
    rw [hI1]
    exact filter_billItems_append s.billItems input.items _
      (fun it hit => Nat.ne_of_lt (hwf it hit))
  have hsome2 : ∀ it ∈ s1.billItems.filter (fun it => it.bill_id == (mkBill s d input ar cd).id),
      (lookupStockRows s1.stock it.medicine_id).isSome = true := by
    intro it hit
    rw [hfil] at hit
    obtain ⟨x, hx, heq⟩ := List.mem_map.mp hit
    rw [← heq]
    show (lookupStockRows s1.stock x.medicineId).isSome = true
    rw [hiso1]
    exact hisome x hx
  obtain ⟨gD, gT, gI, gB, gM, gS, gPO, gPOI, g1, g2, g3, g4, g5, giso⟩ :=
    voidFold_spec (mkBill s d input ar cd).id vb
      (s1.billItems.filter (fun it => it.bill_id == (mkBill s d input ar cd).id))
      { s1 with bills := s1.bills.map (fun b => if b.id == (mkBill s d input ar cd).id then
          { b with is_voided := true, voided_reason := some (strTrim reason), voided_by := some vb }
        else b) }
      hsome2
  have hT2 : s2.stockTransactions = s.stockTransactions ++
      (input.items.map (outTxn (mkBill s d input ar cd).id input.createdBy) ++
        (input.items.map (mkBillItem (mkBill s d input ar cd).id)).map
          (voidTxn (mkBill s d input ar cd).id vb)) := by
    rw [hs2, gT]
    show s1.stockTransactions ++ _ = _
    rw [hT1, hfil, List.append_assoc]
  have hB2 : s2.bills = (s.bills ++ [mkBill s d input ar cd]).map
      (fun b => if b.id == (mkBill s d input ar cd).id then
        { b with is_voided := true, voided_reason := some (strTrim reason), voided_by := some vb }
      else b) := by
    rw [hs2, gB]
    show s1.bills.map _ = _
    rw [hB1]
  refine ⟨fun m => ?_, fun m => ?_, ?_, ?_⟩
  · rw [hT2, List.drop_left, txnsSum_append, txnsSum_outTxns, txnsSum_voidTxns,
      billItemsQty_map_mkBillItem]
    omega
  · rw [hs2, gD m, hfil, billItemsQty_map_mkBillItem]
    show stockD s1 m + requiredQty input.items m = stockD s m
    have h1 := hD1 m
    omega
  · refine ⟨{ mkBill s d input ar cd with
        is_voided := true
        voided_reason := some (strTrim reason)
        voided_by := some vb }, ?_, rfl, rfl, rfl⟩
    rw [hB2, List.map_append]
    apply List.mem_append_right
    have hfB : (fun b => if b.id == (mkBill s d input ar cd).id then
        { b with is_voided := true, voided_reason := some (strTrim reason), voided_by := some vb }
      else b) (mkBill s d input ar cd) =
        { mkBill s d input ar cd with
          is_voided := true
          voided_reason := some (strTrim reason)
          voided_by := some vb } := by
      show (if (mkBill s d input ar cd).id == (mkBill s d input ar cd).id then _ else _) = _
      rw [if_pos (beq_self_eq_true _)]
    rw [← hfB]
    exact List.mem_map_of_mem _ (List.mem_singleton_self _)
  · rw [hs2, gI]

theorem requiredQty_not_mem (items : List CreateBillItemInput) (m : Nat)
    (h : ∀ it ∈ items, it.medicineId ≠ m) : requiredQty items m = 0 := by
  unfold requiredQty
  have hfil : items.filter (fun it => it.medicineId == m) = [] := by
    rw [List.filter_eq_nil_iff]
    intro it hit
    simpa using h it hit
  rw [hfil]
  rfl

/-- The stock effect of a successful createBill: each balance drops by the
aggregated required quantity. -/
theorem createBill_ok_stockD (s : State) (d : Str) (input : CreateBillInput)
    (s1 : State) (bill : BillRow) (h : createBill s d input = .ok (s1, bill)) :
    ∀ m, stockD s1 m = stockD s m - requiredQty input.items m := by
  have hbody := createBill_ok_body s d input _ h
  have hisome := createBillBody_items_isSome s d input _ hbody
  obtain ⟨hne, hv, hc, ar, cd, hp, hu, hr⟩ := createBillBody_ok_inv s d input _ hbody
  have hs1 : s1 = createBillWrite s (mkBill s d input ar cd) input := congrArg Prod.fst hr
  obtain ⟨fD, _⟩ :=
    billFold_spec (mkBill s d input ar cd).id input.createdBy input.items
      { s with bills := s.bills ++ [mkBill s d input ar cd], nextBillId := s.nextBillId + 1 }
      (fun it hit => hisome it hit)
  intro m
  rw [hs1]
  exact fD m

theorem recordTransaction_error_state (s : State) (input : RecordTxnInput) (e : Err) (s' : State)
    (h : recordTransaction s input = .error (e, s')) : s' = s := by
  unfold recordTransaction at h
  by_cases h1 : input.quantity ≤ 0
  · rw [if_pos h1] at h
    simp only [Except.error.injEq, Prod.mk.injEq] at h
    exact h.2.symm
  · rw [if_neg h1] at h
    cases hl : lookupStock s input.medicineId with
    | none =>
      rw [hl] at h
      simp only [Except.error.injEq, Prod.mk.injEq] at h
      exact h.2.symm
    | some current =>
      rw [hl] at h
      dsimp only at h
      cases hty : input.type with
      | mIn =>
        rw [hty] at h
        dsimp only at h
        rw [if_neg (fun hc => hc.1 rfl)] at h
        exact absurd h (by simp)
      | mOut =>
        rw [hty] at h
        dsimp only at h
        by_cases h2 : current + -input.quantity < 0
        · rw [if_pos ⟨by decide, h2⟩] at h
          simp only [Except.error.injEq, Prod.mk.injEq] at h
          exact h.2.symm
        · rw [if_neg (fun hc => h2 hc.2)] at h
          exact absurd h (by simp)
      | mAdjust =>
        rw [hty] at h
        dsimp only at h
        by_cases h2 : current + -input.quantity < 0
        · rw [if_pos ⟨by decide, h2⟩] at h
          simp only [Except.error.injEq, Prod.mk.injEq] at h
          exact h.2.symm
        · rw [if_neg (fun hc => h2 hc.2)] at h
          exact absurd h (by simp)

/-- The stock effect of a successful recordTransaction: only the given
medicine changes, by +quantity for type `in` and −quantity otherwise; in
the latter case the guard ensures the new balance is nonnegative. -/
theorem recordTransaction_ok_stockD (s : State) (input : RecordTxnInput) (s' : State)
    (h : recordTransaction s input = .ok s') :
    (∀ m, m ≠ input.medicineId → stockD s' m = stockD s m) ∧
    0 < input.quantity ∧
    ∃ current, lookupStock s input.medicineId = some current ∧
      ((input.type = ManualTxnType.mIn ∧
          stockD s' input.medicineId = current + input.quantity) ∨
        (stockD s' input.medicineId = current - input.quantity ∧
          0 ≤ current - input.quantity)) := by
  unfold recordTransaction at h
  by_cases h1 : input.quantity ≤ 0
  · rw [if_pos h1] at h
    exact absurd h (by simp)
  · rw [if_neg h1] at h
    cases hl : lookupStock s input.medicineId with
    | none =>
      rw [hl] at h
      exact absurd h (by simp)
    | some current =>
      rw [hl] at h
      dsimp only at h
      cases hty : input.type with
      | mIn =>
        rw [hty] at h
        dsimp only at h
        rw [if_neg (fun hc => hc.1 rfl)] at h
        simp only [Except.ok.injEq] at h
        subst h
        refine ⟨fun m hm => ?_, by omega, current, rfl, Or.inl ⟨rfl, ?_⟩⟩
        · show (lookupStockRows
            (stockSet s.stock input.medicineId (current + input.quantity)) m).getD 0 = stockD s m
          rw [lookupStockRows_stockSet_ne _ _ _ _ hm]
          rfl
        · show (lookupStockRows (stockSet s.stock input.medicineId
            (current + input.quantity)) input.medicineId).getD 0 = current + input.quantity
          rw [lookupStockRows_stockSet_self,
            show lookupStockRows s.stock input.medicineId = some current from hl]
          rfl
      | mOut =>
        rw [hty] at h
        dsimp only at h
        by_cases h2 : current + -input.quantity < 0
        · rw [if_pos ⟨by decide, h2⟩] at h
          exact absurd h (by simp)
        · rw [if_neg (fun hc => h2 hc.2)] at h
          simp only [Except.ok.injEq] at h
          subst h
          refine ⟨fun m hm => ?_, by omega, current, rfl, Or.inr ⟨?_, by omega⟩⟩
          · show (lookupStockRows
              (stockSet s.stock input.medicineId (current + -input.quantity)) m).getD 0 = stockD s m
            rw [lookupStockRows_stockSet_ne _ _ _ _ hm]
            rfl
          · show (lookupStockRows (stockSet s.stock input.medicineId
              (current + -input.quantity)) input.medicineId).getD 0 = current - input.quantity
            rw [lookupStockRows_stockSet_self,
              show lookupStockRows s.stock input.medicineId = some current from hl]
            show current + -input.quantity = current - input.quantity
            omega
      | mAdjust =>
        rw [hty] at h
        dsimp only at h
        by_cases h2 : current + -input.quantity < 0
        · rw [if_pos ⟨by decide, h2⟩] at h
          exact absurd h (by simp)
        · rw [if_neg (fun hc => h2 hc.2)] at h
          simp only [Except.ok.injEq] at h
          subst h
          refine ⟨fun m hm => ?_, by omega, current, rfl, Or.inr ⟨?_, by omega⟩⟩
          · show (lookupStockRows
              (stockSet s.stock input.medicineId (current + -input.quantity)) m).getD 0 = stockD s m
            rw [lookupStockRows_stockSet_ne _ _ _ _ hm]
            rfl
          · show (lookupStockRows (stockSet s.stock input.medicineId
              (current + -input.quantity)) input.medicineId).getD 0 = current - input.quantity
            rw [lookupStockRows_stockSet_self,
              show lookupStockRows s.stock input.medicineId = some current from hl]
            show current + -input.quantity = current - input.quantity
            omega

/-- When every checked medicine exists and is not deleted, the stock check
either passes or reports an insufficiency with a genuine shortfall. -/
theorem checkStock_shape (s : State) (items : List CreateBillItemInput) :
    ∀ ms, (∀ m ∈ ms, ∃ med, findMedicine s m = some med ∧ med.is_deleted = false) →
      checkStock s items ms = none ∨
      ∃ name had req, checkStock s items ms = some (.insufficientStock name had req) ∧
        had < req := by
  intro ms
  induction ms with
  | nil =>
    intro _
    exact Or.inl rfl
  | cons x ms ih =>
    intro hmed
    obtain ⟨med, hf, hdel⟩ := hmed x (by simp)
    unfold checkStock
    rw [hf]
    dsimp only
    rw [if_neg (by simp [hdel])]
    by_cases hlt : stockD s x < requiredQty items x
    · rw [if_pos hlt]
      exact Or.inr ⟨some med.name, stockD s x, requiredQty items x, rfl, hlt⟩
    · rw [if_neg hlt]
      exact ih (fun m hm => hmed m (by simp [hm]))

/-- One sale-side operation preserves nonnegativity of every stock balance. -/
theorem applyOp_stock_nonneg (s : State) (op : Op) (hop : isSaleOp op = true)
    (hpos : ∀ m, 0 ≤ stockD s m) (m : Nat) : 0 ≤ stockD (applyOp s op) m := by
  cases op with
  | opCreateBill d input =>
    show 0 ≤ stockD (match createBill s d input with
      | .ok (s', _) => s' | .error _ => s) m
    cases h : createBill s d input with
    | error e => exact hpos m
    | ok p =>
      obtain ⟨s1, bill⟩ := p
      show 0 ≤ stockD s1 m
      have hD := createBill_ok_stockD s d input s1 bill h
      have hbody := createBill_ok_body s d input _ h
      obtain ⟨hne, hv, hc, ar, cd, hp2, hu, hr⟩ := createBillBody_ok_inv s d input _ hbody
      by_cases hm : ∃ it ∈ input.items, it.medicineId = m
      · obtain ⟨it, hit, heq⟩ := hm
        have hmem : m ∈ firstOccur (input.items.map (fun x => x.medicineId)) := by
          rw [firstOccur_mem]
          exact heq ▸ List.mem_map_of_mem _ hit
        obtain ⟨med, _, _, hle⟩ := checkStock_none s input.items _ hc m hmem
        have h1 := hD m
        have h2 := hpos m
        omega
      · have hz : requiredQty input.items m = 0 := requiredQty_not_mem input.items m
          (fun it hit hc2 => hm ⟨it, hit, hc2⟩)
        have h1 := hD m
        have h2 := hpos m
        omega
  | opRecordTransaction input =>
    show 0 ≤ stockD (match recordTransaction s input with
      | .ok s' => s' | .error (_, s') => s') m
    cases h : recordTransaction s input with
    | error p =>
      obtain ⟨e, s'⟩ := p
      show 0 ≤ stockD s' m
      rw [recordTransaction_error_state s input e s' h]
      exact hpos m
    | ok s' =>
      show 0 ≤ stockD s' m
      obtain ⟨hother, hq, current, hl, hcases⟩ := recordTransaction_ok_stockD s input s' h
      by_cases hm : m = input.medicineId
      · subst hm
        have hcur : stockD s input.medicineId = current := by
          rw [stockD_eq_rows,
            show lookupStockRows s.stock input.medicineId = some current from hl]
          rfl
        have h2 := hpos input.medicineId
        rcases hcases with ⟨_, heq⟩ | ⟨heq, hge⟩
        · rw [heq]
          omega
        · rw [heq]
          exact hge
      · rw [hother m hm]
        exact hpos m
  | opCreateMedicine input => exact Bool.noConfusion hop
  | opCreateSupplier => exact Bool.noConfusion hop
  | opCreatePurchaseOrder input => exact Bool.noConfusion hop
  | opVoidBill b r v => exact Bool.noConfusion hop
  | opMarkOrderReceived oid rd => exact Bool.noConfusion hop
  | opRecordPayment oid amt => exact Bool.noConfusion hop
  | opUpdateOrderStatus oid st rd => exact Bool.noConfusion hop

/-- C2: no sequence of createBill / recordTransaction calls can drive any
stock balance below 0; a createBill whose aggregated required quantity for
some line's medicine exceeds its stock (with well-formed lines on live
medicines) fails with InsufficientStockError naming the shortfall and
leaves the state unchanged; a recordTransaction of type out/adjust whose
quantity exceeds the current stock fails with InsufficientStockError
carrying the shortfall and the unchanged state. -/
theorem noNegativeStock :
    (∀ (s : State) (ops : List Op), (∀ op ∈ ops, isSaleOp op = true) →
      (∀ m, 0 ≤ stockD s m) → ∀ m, 0 ≤ stockD (runOps s ops) m) ∧
    (∀ (s : State) (d : Str) (input : CreateBillInput),
      input.items ≠ [] →
      validateItems input.items = none →
      (∀ it ∈ input.items, ∃ med, findMedicine s it.medicineId = some med ∧
        med.is_deleted = false) →
      (∃ it ∈ input.items, stockD s it.medicineId < requiredQty input.items it.medicineId) →
      (∃ name had req, createBill s d input = .error (.insufficientStock name had req) ∧
        had < req) ∧
      applyOp s (.opCreateBill d input) = s) ∧
    (∀ (s : State) (input : RecordTxnInput) (current : Int),
      input.type ≠ ManualTxnType.mIn → 0 < input.quantity →
      lookupStock s input.medicineId = some current → current < input.quantity →
      recordTransaction s input =
        .error (.insufficientStock none current input.quantity, s)) := by
  refine ⟨?_, ?_, ?_⟩
  · intro s ops
    induction ops generalizing s with
    | nil =>
      intro _ hpos m
      exact hpos m
    | cons op ops ih =>
      intro hops hpos m
      show 0 ≤ stockD (runOps (applyOp s op) ops) m
      exact ih (applyOp s op) (fun o ho => hops o (List.mem_cons_of_mem _ ho))
        (fun y => applyOp_stock_nonneg s op (hops op (List.mem_cons_self _ _)) hpos y) m
  · intro s d input hne hv hmed hins
    have hmeds : ∀ m ∈ firstOccur (input.items.map (fun it => it.medicineId)),
        ∃ med, findMedicine s m = some med ∧ med.is_deleted = false := by
      intro m hm
      rw [firstOccur_mem] at hm
      obtain ⟨it, hit, heq⟩ := List.mem_map.mp hm
      exact heq ▸ hmed it hit
    rcases checkStock_shape s input.items
        (firstOccur (input.items.map (fun it => it.medicineId))) hmeds with
      hc | ⟨name, had, req, hc, hlt⟩
    · obtain ⟨it, hit, hlt2⟩ := hins
      have hmem : it.medicineId ∈ firstOccur (input.items.map (fun x => x.medicineId)) := by
        rw [firstOccur_mem]
        exact List.mem_map_of_mem _ hit
      obtain ⟨med, _, _, hle⟩ := checkStock_none s input.items _ hc it.medicineId hmem
      omega
    · have hbody : createBillBody s d input = .error (.insufficientStock name had req, s) := by
        unfold createBillBody
        rw [if_neg hne, hv, hc]
      have hcb : createBill s d input = .error (.insufficientStock name had req) := by
        unfold createBill
        rw [hbody]
      refine ⟨⟨name, had, req, hcb, hlt⟩, ?_⟩
      show (match createBill s d input with | .ok (s', _) => s' | .error _ => s) = s
      rw [hcb]
  · intro s input current hty hq hl hlt
    unfold recordTransaction
    rw [if_neg (by omega), hl]
    dsimp only
    cases htyc : input.type with
    | mIn => exact absurd htyc hty
    | mOut =>
      dsimp only
      rw [if_pos ⟨by decide, by omega⟩]
    | mAdjust =>
      dsimp only
      rw [if_pos ⟨by decide, by omega⟩]

theorem ledgerSum_eq_txnsSum (s : State) (m : Nat) :
    ledgerSum s m = txnsSum s.stockTransactions m := rfl

/-- An operation that leaves stock, ledger and bill items untouched
preserves the replay invariant. -/
theorem ledgerInv_of_frames (s s' : State) (h : ledgerInv s)
    (hst : s'.stock = s.stock) (htx : s'.stockTransactions = s.stockTransactions)
    (hbi : s'.billItems = s.billItems) : ledgerInv s' := by
  constructor
  · intro m
    rw [stockD_eq_rows, hst, ← stockD_eq_rows, ledgerSum_eq_txnsSum, htx,
      ← ledgerSum_eq_txnsSum]
    exact h.1 m
  · intro it hit
    rw [hbi] at hit
    rw [hst]
    exact h.2 it hit

theorem txnsSum_recvTxns (orderId : Nat) :
    ∀ (its : List POItemRow) (m : Nat),
      txnsSum (recvTxns orderId its) m = creditOf its m := by
  intro its
  induction its with
  | nil =>
    intro m
    rfl
  | cons it its ih =>
    intro m
    show txnsSum (((it :: its).filter (fun x => decide (0 < x.quantity_ordered))).map
      (recvTxn orderId)) m = (List.map (fun x => lineCredit x m) (it :: its)).sum
    rw [List.map_cons, List.sum_cons]
    by_cases hq : 0 < it.quantity_ordered
    · rw [List.filter_cons_of_pos (by simpa using hq), List.map_cons, txnsSum_cons]
      show (if (recvTxn orderId it).medicine_id = m then signedQty (recvTxn orderId it) else 0) +
        txnsSum (recvTxns orderId its) m = lineCredit it m + creditOf its m
      rw [ih m]
      by_cases hm : it.medicine_id = m
      · rw [if_pos (show (recvTxn orderId it).medicine_id = m from hm),
          show lineCredit it m = it.quantity_ordered from by
            unfold lineCredit
            rw [if_pos ⟨hm, hq⟩]]
        rfl
      · rw [if_neg (show ¬ (recvTxn orderId it).medicine_id = m from hm),
          show lineCredit it m = 0 from by
            unfold lineCredit
            rw [if_neg (fun hc => hm hc.1)]]
    · rw [List.filter_cons_of_neg (by simpa using hq),
        show lineCredit it m = 0 from by
          unfold lineCredit
          rw [if_neg (fun hc => hq hc.2)]]
      show txnsSum (recvTxns orderId its) m = 0 + creditOf its m
      rw [ih m]
      omega

theorem receiveLine_isSome (orderId : Nat) (st : State) (it : POItemRow) (y : Nat)
    (h : (lookupStockRows st.stock y).isSome = true) :
    (lookupStockRows (receiveLine orderId st it).stock y).isSome = true := by
  unfold receiveLine
  by_cases hq : it.quantity_ordered ≤ 0
  · rw [if_pos hq]
    exact h
  · rw [if_neg hq]
    cases hlk : lookupStock st it.medicine_id with
    | some cur =>
      show (lookupStockRows
        (stockSet st.stock it.medicine_id (cur + it.quantity_ordered)) y).isSome = true
      by_cases hy : y = it.medicine_id
      · subst hy
        rw [lookupStockRows_stockSet_self]
        obtain ⟨q, hqq⟩ := Option.isSome_iff_exists.mp h
        rw [hqq]
        rfl
      · rw [lookupStockRows_stockSet_ne _ _ _ _ hy]
        exact h
    | none =>
      show (lookupStockRows (st.stock ++
        [{ medicine_id := it.medicine_id, current_quantity := it.quantity_ordered }]) y).isSome =
        true
      obtain ⟨q, hqq⟩ := Option.isSome_iff_exists.mp h
      rw [lookupStockRows_append_some _ _ _ _ hqq]
      rfl

theorem receiveFold_isSome (orderId : Nat) :
    ∀ (its : List POItemRow) (st : State) (y : Nat),
      (lookupStockRows st.stock y).isSome = true →
      (lookupStockRows ((its.foldl (receiveLine orderId) st)).stock y).isSome = true := by
  intro its
  induction its with
  | nil =>
    intro st y h
    exact h
  | cons it its ih =>
    intro st y h
    show (lookupStockRows
      ((its.foldl (receiveLine orderId) (receiveLine orderId st it))).stock y).isSome = true
    exact ih _ y (receiveLine_isSome orderId st it y h)

theorem recvState_stock_txns (s : State) (oid : Nat) (rd : String) (o : PurchaseOrderRow) :
    (recvState s oid rd o).stock = ((orderItems s oid).foldl (receiveLine oid) s).stock ∧
    (recvState s oid rd o).stockTransactions =
      ((orderItems s oid).foldl (receiveLine oid) s).stockTransactions ∧
    (recvState s oid rd o).billItems =
      ((orderItems s oid).foldl (receiveLine oid) s).billItems :=
  ⟨rfl, rfl, rfl⟩

/-- createMedicine either fails keeping stock, ledger and bill items, or
succeeds on a fresh id, appending the stock row and the opening ledger
entry. -/
theorem createMedicine_cases (s : State) (input : CreateMedicineInput) :
    (∃ e s', createMedicine s input = .error (e, s') ∧ s'.stock = s.stock ∧
      s'.stockTransactions = s.stockTransactions ∧ s'.billItems = s.billItems) ∨
    (∃ s' mid, createMedicine s input = .ok (s', mid) ∧
      lookupStockRows s.stock s.nextMedicineId = none ∧
      s'.stock = s.stock ++
        [{ medicine_id := s.nextMedicineId, current_quantity := input.opening_stock }] ∧
      s'.stockTransactions = s.stockTransactions ++
        [{ medicine_id := s.nextMedicineId, transaction_type := .txIn,
           quantity := input.opening_stock, reference_id := none, reference_type := none,
           performed_by := none }] ∧
      s'.billItems = s.billItems) := by
  by_cases hg : (lookupStockRows s.stock s.nextMedicineId).isSome = true
  · left
    refine ⟨.uniqueViolation "stock.medicine_id",
      { s with
        medicines := s.medicines ++
          [{ id := s.nextMedicineId, name := input.name, is_deleted := false,
             opening_stock := input.opening_stock }]
        nextMedicineId := s.nextMedicineId + 1 }, ?_, rfl, rfl, rfl⟩
    unfold createMedicine
    dsimp only
    exact if_pos hg
  · have hnone : lookupStockRows s.stock s.nextMedicineId = none := by
      cases hl : lookupStockRows s.stock s.nextMedicineId with
      | none => rfl
      | some q => exact absurd (by rw [hl]; rfl) hg
    right
    refine ⟨{ s with
        medicines := s.medicines ++
          [{ id := s.nextMedicineId, name := input.name, is_deleted := false,
             opening_stock := input.opening_stock }]
        nextMedicineId := s.nextMedicineId + 1
        stock := s.stock ++
          [{ medicine_id := s.nextMedicineId, current_quantity := input.opening_stock }]
        stockTransactions := s.stockTransactions ++
          [{ medicine_id := s.nextMedicineId, transaction_type := .txIn,
             quantity := input.opening_stock, reference_id := none, reference_type := none,
             performed_by := none }] }, s.nextMedicineId, ?_, hnone, rfl, rfl, rfl⟩
    unfold createMedicine
    dsimp only
    exact if_neg hg

/-- The appended rows of a successful createBill, existentially over the
new bill id. -/
theorem createBill_ok_shape (s : State) (d : Str) (input : CreateBillInput)
    (s1 : State) (bill : BillRow) (h : createBill s d input = .ok (s1, bill)) :
    (∃ bid cb, s1.stockTransactions =
      s.stockTransactions ++ input.items.map (outTxn bid cb)) ∧
    (∃ bid, s1.billItems = s.billItems ++ input.items.map (mkBillItem bid)) ∧
    (∀ y, (lookupStockRows s1.stock y).isSome = (lookupStockRows s.stock y).isSome) := by
  have hbody := createBill_ok_body s d input _ h
  have hisome := createBillBody_items_isSome s d input _ hbody
  obtain ⟨hne, hv, hc, ar, cd, hp, hu, hr⟩ := createBillBody_ok_inv s d input _ hbody
  have hs1 : s1 = createBillWrite s (mkBill s d input ar cd) input := congrArg Prod.fst hr
  obtain ⟨fD, fT, fI, fB, fM, fS, fPO, fPOI, f1, f2, f3, f4, f5, fiso⟩ :=
    billFold_spec (mkBill s d input ar cd).id input.createdBy input.items
      { s with bills := s.bills ++ [mkBill s d input ar cd], nextBillId := s.nextBillId + 1 }
      (fun it hit => hisome it hit)
  refine ⟨⟨(mkBill s d input ar cd).id, input.createdBy, ?_⟩,
    ⟨(mkBill s d input ar cd).id, ?_⟩, fun y => ?_⟩
  · rw [hs1]
    exact fT
  · rw [hs1]
    exact fI
  · rw [hs1]
    exact fiso y

/-- The single ledger row and stock update of a successful
recordTransaction. -/
theorem recordTransaction_ok_shape (s : State) (input : RecordTxnInput) (s' : State)
    (h : recordTransaction s input = .ok s') :
    ∃ t : StockTxnRow, t.medicine_id = input.medicineId ∧
      s'.stockTransactions = s.stockTransactions ++ [t] ∧
      (∀ m, stockD s' m = stockD s m + (if t.medicine_id = m then signedQty t else 0)) ∧
      s'.billItems = s.billItems ∧
      (∀ y, (lookupStockRows s'.stock y).isSome = (lookupStockRows s.stock y).isSome) := by
  unfold recordTransaction at h
  by_cases h1 : input.quantity ≤ 0
  · rw [if_pos h1] at h
    exact absurd h (by simp)
  · rw [if_neg h1] at h
    cases hl : lookupStock s input.medicineId with
    | none =>
      rw [hl] at h
      exact absurd h (by simp)
    | some current =>
      rw [hl] at h
      dsimp only at h
      have hcur : stockD s input.medicineId = current := by
        rw [stockD_eq_rows, show lookupStockRows s.stock input.medicineId = some current from hl]
        rfl
      cases hty : input.type with
      | mIn =>
        rw [hty] at h
        dsimp only at h
        rw [if_neg (fun hc => hc.1 rfl)] at h
        simp only [Except.ok.injEq] at h
        subst h
        refine ⟨{ medicine_id := input.medicineId
                  transaction_type := .txIn
                  quantity := input.quantity
                  reference_id := none
                  reference_type := none
                  performed_by := input.performedBy }, rfl, rfl, fun m => ?_, rfl, fun y => ?_⟩
        · by_cases hm : m = input.medicineId
          · subst hm
            rw [if_pos rfl, hcur]
            show (lookupStockRows
              (stockSet s.stock input.medicineId
                (current + input.quantity)) input.medicineId).getD 0 = _
            rw [lookupStockRows_stockSet_self,
              show lookupStockRows s.stock input.medicineId = some current from hl]
            rfl
          · rw [if_neg (fun hc => hm hc.symm)]
            show (lookupStockRows
              (stockSet s.stock input.medicineId (current + input.quantity)) m).getD 0 = _
            rw [lookupStockRows_stockSet_ne _ _ _ _ hm, ← stockD_eq_rows]
            omega
        · show (lookupStockRows
            (stockSet s.stock input.medicineId (current + input.quantity)) y).isSome = _
          by_cases hy : y = input.medicineId
          · subst hy
            rw [lookupStockRows_stockSet_self,
              show lookupStockRows s.stock input.medicineId = some current from hl]
            rfl
          · rw [lookupStockRows_stockSet_ne _ _ _ _ hy]
      | mOut =>
        rw [hty] at h
        dsimp only at h
        by_cases h2 : current + -input.quantity < 0
        · rw [if_pos ⟨by decide, h2⟩] at h
          exact absurd h (by simp)
        · rw [if_neg (fun hc => h2 hc.2)] at h
          simp only [Except.ok.injEq] at h
          subst h
          refine ⟨{ medicine_id := input.medicineId
                    transaction_type := .txOut
                    quantity := input.quantity
                    reference_id := none
                    reference_type := none
                    performed_by := input.performedBy }, rfl, rfl, fun m => ?_, rfl, fun y => ?_⟩
          · by_cases hm : m = input.medicineId
            · subst hm
              rw [if_pos rfl, hcur]
              show (lookupStockRows
                (stockSet s.stock input.medicineId
                  (current + -input.quantity)) input.medicineId).getD 0 = _
              rw [lookupStockRows_stockSet_self,
                show lookupStockRows s.stock input.medicineId = some current from hl]
              show current + -input.quantity = current + -input.quantity
              rfl
            · rw [if_neg (fun hc => hm hc.symm)]
              show (lookupStockRows
                (stockSet s.stock input.medicineId (current + -input.quantity)) m).getD 0 = _
              rw [lookupStockRows_stockSet_ne _ _ _ _ hm, ← stockD_eq_rows]
              omega
          · show (lookupStockRows
              (stockSet s.stock input.medicineId (current + -input.quantity)) y).isSome = _
            by_cases hy : y = input.medicineId
            · subst hy
              rw [lookupStockRows_stockSet_self,
                show lookupStockRows s.stock input.medicineId = some current from hl]
              rfl
            · rw [lookupStockRows_stockSet_ne _ _ _ _ hy]
      | mAdjust =>
        rw [hty] at h
        dsimp only at h
        by_cases h2 : current + -input.quantity < 0
        · rw [if_pos ⟨by decide, h2⟩] at h
          exact absurd h (by simp)
        · rw [if_neg (fun hc => h2 hc.2)] at h
          simp only [Except.ok.injEq] at h
          subst h
          refine ⟨{ medicine_id := input.medicineId
                    transaction_type := .txAdjust
                    quantity := input.quantity
                    reference_id := none
                    reference_type := none
                    performed_by := input.performedBy }, rfl, rfl, fun m => ?_, rfl, fun y => ?_⟩
          · by_cases hm : m = input.medicineId
            · subst hm
              rw [if_pos rfl, hcur]
              show (lookupStockRows
                (stockSet s.stock input.medicineId
                  (current + -input.quantity)) input.medicineId).getD 0 = _
              rw [lookupStockRows_stockSet_self,
                show lookupStockRows s.stock input.medicineId = some current from hl]
              rfl
            · rw [if_neg (fun hc => hm hc.symm)]
              show (lookupStockRows
                (stockSet s.stock input.medicineId (current + -input.quantity)) m).getD 0 = _
              rw [lookupStockRows_stockSet_ne _ _ _ _ hm, ← stockD_eq_rows]
              omega
          · show (lookupStockRows
              (stockSet s.stock input.medicineId (current + -input.quantity)) y).isSome = _
            by_cases hy : y = input.medicineId
            · subst hy
              rw [lookupStockRows_stockSet_self,
                show lookupStockRows s.stock input.medicineId = some current from hl]
              rfl
            · rw [lookupStockRows_stockSet_ne _ _ _ _ hy]

theorem recordPayment_error_state (s : State) (oid : Nat) (amt : Int) (e : Err) (st : State)
    (h : recordPayment s oid amt = .error (e, st)) : st = s := by
  unfold recordPayment at h
  cases hf : findOrder s oid with
  | none =>
    rw [hf] at h
    simp only [Except.error.injEq, Prod.mk.injEq] at h
    exact h.2.symm
  | some row =>
    rw [hf] at h
    dsimp only at h
    by_cases hp : row.paid_amount + amt > row.total_amount
    · rw [if_pos hp] at h
      simp only [Except.error.injEq, Prod.mk.injEq] at h
      exact h.2.symm
    · rw [if_neg hp] at h
      exact absurd h (by simp)

theorem recordPayment_ok_frame (s : State) (oid : Nat) (amt : Int) (s' : State)
    (h : recordPayment s oid amt = .ok s') :
    s'.stock = s.stock ∧ s'.stockTransactions = s.stockTransactions ∧
    s'.billItems = s.billItems := by
  unfold recordPayment at h
  cases hf : findOrder s oid with
  | none =>
    rw [hf] at h
    exact absurd h (by simp)
  | some row =>
    rw [hf] at h
    dsimp only at h
    by_cases hp : row.paid_amount + amt > row.total_amount
    · rw [if_pos hp] at h
      exact absurd h (by simp)
    · rw [if_neg hp] at h
      simp only [Except.ok.injEq] at h
      subst h
      exact ⟨rfl, rfl, rfl⟩

theorem insertPOItems_frame (orderId : Nat) :
    ∀ (items : List POItemInput) (st : State),
      (∀ st', insertPOItems orderId st items = .ok st' →
        st'.stock = st.stock ∧ st'.stockTransactions = st.stockTransactions ∧
        st'.billItems = st.billItems) ∧
      (∀ e st', insertPOItems orderId st items = .error (e, st') →
        st'.stock = st.stock ∧ st'.stockTransactions = st.stockTransactions ∧
        st'.billItems = st.billItems) := by
  intro items
  induction items with
  | nil =>
    intro st
    constructor
    · intro st' h
      replace h : Except.ok st = .ok st' := h
      simp only [Except.ok.injEq] at h
      subst h
      exact ⟨rfl, rfl, rfl⟩
    · intro e st' h
      exact absurd (show Except.ok st = _ from h) (by simp)
  | cons it items ih =>
    intro st
    constructor
    · intro st' h
      unfold insertPOItems at h
      by_cases hg : st.medicines.any (fun m => m.id == it.medicine_id) = true
      · rw [if_pos hg] at h
        exact (ih { st with
          purchaseOrderItems := st.purchaseOrderItems ++
            [{ id := st.nextPoItemId
               purchase_order_id := orderId
               medicine_id := it.medicine_id
               quantity_ordered := it.quantity_ordered
               quantity_received := 0
               unit_price := it.unit_price }]
          nextPoItemId := st.nextPoItemId + 1 }).1 st' h
      · rw [if_neg hg] at h
        exact absurd h (by simp)
    · intro e st' h
      unfold insertPOItems at h
      by_cases hg : st.medicines.any (fun m => m.id == it.medicine_id) = true
      · rw [if_pos hg] at h
        exact (ih { st with
          purchaseOrderItems := st.purchaseOrderItems ++
            [{ id := st.nextPoItemId
               purchase_order_id := orderId
               medicine_id := it.medicine_id
               quantity_ordered := it.quantity_ordered
               quantity_received := 0
               unit_price := it.unit_price }]
          nextPoItemId := st.nextPoItemId + 1 }).2 e st' h
      · rw [if_neg hg] at h
        simp only [Except.error.injEq, Prod.mk.injEq] at h
        rw [← h.2]
        exact ⟨rfl, rfl, rfl⟩

theorem createPurchaseOrder_frame (s : State) (input : CreatePOInput) :
    ∀ r, createPurchaseOrder s input = r →
      (∀ s' oid, r = .ok (s', oid) →
        s'.stock = s.stock ∧ s'.stockTransactions = s.stockTransactions ∧
        s'.billItems = s.billItems) ∧
      (∀ e s', r = .error (e, s') →
        s'.stock = s.stock ∧ s'.stockTransactions = s.stockTransactions ∧
        s'.billItems = s.billItems) := by
  intro r h
  unfold createPurchaseOrder at h
  by_cases h1 : input.items = []
  · rw [if_pos h1] at h
    constructor
    · intro s' oid hr
      rw [← h] at hr
      exact absurd hr (by simp)
    · intro e s' hr
      rw [← h] at hr
      simp only [Except.error.injEq, Prod.mk.injEq] at hr
      rw [← hr.2]
      exact ⟨rfl, rfl, rfl⟩
  · rw [if_neg h1] at h
    dsimp only at h
    by_cases h2 : input.supplier_id ∈ s.suppliers
    · rw [if_pos h2] at h
      by_cases h3 : s.purchaseOrders.any
          (fun o => o.order_number == generateOrderNumber s.purchaseOrders) = true
      · rw [if_pos h3] at h
        constructor
        · intro s' oid hr
          rw [← h] at hr
          exact absurd hr (by simp)
        · intro e s' hr
          rw [← h] at hr
          simp only [Except.error.injEq, Prod.mk.injEq] at hr
          rw [← hr.2]
          exact ⟨rfl, rfl, rfl⟩
      · rw [if_neg h3] at h
        constructor
        · intro s' oid hr
          rw [← h] at hr
          cases hins : insertPOItems s.nextOrderId
              { s with
                purchaseOrders := s.purchaseOrders ++
                  [{ id := s.nextOrderId,
                     order_number := generateOrderNumber s.purchaseOrders,
                     supplier_id := input.supplier_id, received_date := none,
                     status := .pending,
                     total_amount :=
                       (input.items.map (fun it => it.quantity_ordered * it.unit_price)).sum,
                     paid_amount := 0 }]
                nextOrderId := s.nextOrderId + 1 } input.items with
          | ok st =>
            rw [show insertPOItems s.nextOrderId _ input.items = .ok st from hins] at hr
            simp only [Except.map, Except.ok.injEq, Prod.mk.injEq] at hr
            obtain ⟨hst, _⟩ := hr
            have hfr := (insertPOItems_frame s.nextOrderId input.items _).1 st hins
            rw [← hst]
            exact ⟨hfr.1, hfr.2.1, hfr.2.2⟩
          | error p =>
            rw [show insertPOItems s.nextOrderId _ input.items = .error p from hins] at hr
            exact absurd hr (by simp [Except.map])
        · intro e s' hr
          rw [← h] at hr
          cases hins : insertPOItems s.nextOrderId
              { s with
                purchaseOrders := s.purchaseOrders ++
                  [{ id := s.nextOrderId,
                     order_number := generateOrderNumber s.purchaseOrders,
                     supplier_id := input.supplier_id, received_date := none,
                     status := .pending,
                     total_amount :=
                       (input.items.map (fun it => it.quantity_ordered * it.unit_price)).sum,
                     paid_amount := 0 }]
                nextOrderId := s.nextOrderId + 1 } input.items with
          | ok st =>
            rw [show insertPOItems s.nextOrderId _ input.items = .ok st from hins] at hr
            exact absurd hr (by simp [Except.map])
          | error p =>
            obtain ⟨e2, st2⟩ := p
            rw [show insertPOItems s.nextOrderId _ input.items = .error (e2, st2) from hins] at hr
            simp only [Except.map, Except.error.injEq, Prod.mk.injEq] at hr
            obtain ⟨_, hst⟩ := hr
            have hfr := (insertPOItems_frame s.nextOrderId input.items _).2 e2 st2 hins
            rw [← hst]
            exact ⟨hfr.1, hfr.2.1, hfr.2.2⟩
    · rw [if_neg h2] at h
      constructor
      · intro s' oid hr
        rw [← h] at hr
        exact absurd hr (by simp)
      · intro e s' hr
        rw [← h] at hr
        simp only [Except.error.injEq, Prod.mk.injEq] at hr
        rw [← hr.2]
        exact ⟨rfl, rfl, rfl⟩

/-- Every core mutating operation preserves the ledger-replay invariant. -/
theorem ledgerInv_applyOp (s : State) (op : Op) (h : ledgerInv s) : ledgerInv (applyOp s op) := by
  cases op with
  | opCreateMedicine input =>
    show ledgerInv (match createMedicine s input with
      | .ok (s', _) => s' | .error (_, s') => s')
    rcases createMedicine_cases s input with
      ⟨e, s', hres, hst, htx, hbi⟩ | ⟨s', mid, hres, hnone, hst, htx, hbi⟩
    · rw [hres]
      exact ledgerInv_of_frames s s' h hst htx hbi
    · rw [hres]
      show ledgerInv s'
      constructor
      · intro m
        rw [stockD_eq_rows, hst, ledgerSum_eq_txnsSum, htx, txnsSum_append, txnsSum_cons,
          ← ledgerSum_eq_txnsSum]
        have h1 : (lookupStockRows s.stock m).getD 0 = ledgerSum s m := h.1 m
        by_cases hm : s.nextMedicineId = m
        · subst hm
          rw [lookupStockRows_append_none _ _ _ hnone]
          rw [show lookupStockRows
              [({ medicine_id := s.nextMedicineId, current_quantity := input.opening_stock } :
                StockRow)] s.nextMedicineId = some input.opening_stock from by
            show (if s.nextMedicineId = s.nextMedicineId then _ else _) = _
            rw [if_pos rfl]]
          rw [if_pos rfl]
          rw [hnone] at h1
          simp only [Option.getD_none, Option.getD_some] at h1 ⊢
          have h2 : txnsSum ([] : List StockTxnRow) s.nextMedicineId = 0 := rfl
          have h3 : signedQty
              { medicine_id := s.nextMedicineId
                transaction_type := TxnType.txIn
                quantity := input.opening_stock
                reference_id := none
                reference_type := none
                performed_by := none } = input.opening_stock := rfl
          omega
        · cases hl : lookupStockRows s.stock m with
          | some q =>
            rw [lookupStockRows_append_some _ _ _ _ hl]
            rw [if_neg (fun hc => hm hc)]
            rw [hl] at h1
            simp only [Option.getD_some] at h1 ⊢
            have h2 : txnsSum ([] : List StockTxnRow) m = 0 := rfl
            omega
          | none =>
            rw [lookupStockRows_append_none _ _ _ hl]
            rw [show lookupStockRows
                [({ medicine_id := s.nextMedicineId, current_quantity := input.opening_stock } :
                  StockRow)] m = none from by
              show (if s.nextMedicineId = m then _ else _) = _
              rw [if_neg hm]
              rfl]
            rw [if_neg (fun hc => hm hc)]
            rw [hl] at h1
            simp only [Option.getD_none] at h1 ⊢
            have h2 : txnsSum ([] : List StockTxnRow) m = 0 := rfl
            omega
      · intro it hit
        rw [hbi] at hit
        rw [hst]
        obtain ⟨q, hq⟩ := Option.isSome_iff_exists.mp (h.2 it hit)
        rw [lookupStockRows_append_some _ _ _ _ hq]
        rfl
  | opCreateSupplier =>
    exact ledgerInv_of_frames s _ h rfl rfl rfl
  | opCreatePurchaseOrder input =>
    show ledgerInv (match createPurchaseOrder s input with
      | .ok (s', _) => s' | .error (_, s') => s')
    cases hres : createPurchaseOrder s input with
    | ok p =>
      obtain ⟨s', oid⟩ := p
      show ledgerInv s'
      obtain ⟨hst, htx, hbi⟩ := (createPurchaseOrder_frame s input _ hres).1 s' oid rfl
      exact ledgerInv_of_frames s s' h hst htx hbi
    | error p =>
      obtain ⟨e, s'⟩ := p
      show ledgerInv s'
      obtain ⟨hst, htx, hbi⟩ := (createPurchaseOrder_frame s input _ hres).2 e s' rfl
      exact ledgerInv_of_frames s s' h hst htx hbi
  | opCreateBill d input =>
    show ledgerInv (match createBill s d input with | .ok (s', _) => s' | .error _ => s)
    cases hres : createBill s d input with
    | error e => exact h
    | ok p =>
      obtain ⟨s1, bill⟩ := p
      show ledgerInv s1
      have hD := createBill_ok_stockD s d input s1 bill hres
      obtain ⟨⟨bid, cb, htx⟩, ⟨bid2, hbi⟩, hiso⟩ := createBill_ok_shape s d input s1 bill hres
      constructor
      · intro m
        rw [hD m, ledgerSum_eq_txnsSum, htx, txnsSum_append, txnsSum_outTxns,
          ← ledgerSum_eq_txnsSum]
        have h1 := h.1 m
        omega
      · intro it hit
        rw [hbi] at hit
        rw [hiso it.medicine_id]
        rcases List.mem_append.mp hit with hold | hnew
        · exact h.2 it hold
        · obtain ⟨x, hx, heq⟩ := List.mem_map.mp hnew
          have hx2 := createBillBody_items_isSome s d input (s1, bill)
            (createBill_ok_body s d input _ hres) x hx
          rw [← heq]
          exact hx2
  | opVoidBill b r v =>
    show ledgerInv (match voidBill s b r v with | .ok s' => s' | .error _ => s)
    cases hres : voidBill s b r v with
    | error e => exact h
    | ok s' =>
      show ledgerInv s'
      obtain ⟨hne2, hs2⟩ := voidBill_ok_inv s b r v s' hres
      have hsome2 : ∀ it ∈ s.billItems.filter (fun it => it.bill_id == b),
          (lookupStockRows s.stock it.medicine_id).isSome = true :=
        fun it hit => h.2 it (List.mem_of_mem_filter hit)
      obtain ⟨gD, gT, gI, gB, gM, gS, gPO, gPOI, g1, g2, g3, g4, g5, giso⟩ :=
        voidFold_spec b v (s.billItems.filter (fun it => it.bill_id == b))
          { s with bills := s.bills.map (fun b2 => if b2.id == b then
              { b2 with
                is_voided := true
                voided_reason := some (strTrim r)
                voided_by := some v }
            else b2) }
          hsome2
      constructor
      · intro m
        rw [hs2, gD m, ledgerSum_eq_txnsSum, gT, txnsSum_append, txnsSum_voidTxns]
        have h1 : stockD s m = txnsSum s.stockTransactions m := h.1 m
        show stockD s m + billItemsQty (s.billItems.filter (fun it => it.bill_id == b)) m =
          txnsSum s.stockTransactions m +
            billItemsQty (s.billItems.filter (fun it => it.bill_id == b)) m
        omega
      · intro it hit
        rw [hs2] at hit
        rw [hs2, giso it.medicine_id]
        rw [gI] at hit
        exact h.2 it hit
  | opRecordTransaction input =>
    show ledgerInv (match recordTransaction s input with
      | .ok s' => s' | .error (_, s') => s')
    cases hres : recordTransaction s input with
    | error p =>
      obtain ⟨e, s'⟩ := p
      show ledgerInv s'
      rw [recordTransaction_error_state s input e s' hres]
      exact h
    | ok s' =>
      show ledgerInv s'
      obtain ⟨t, htm, htx, hD, hbi, hiso⟩ := recordTransaction_ok_shape s input s' hres
      constructor
      · intro m
        rw [hD m, ledgerSum_eq_txnsSum, htx, txnsSum_append, ← ledgerSum_eq_txnsSum]
        have h1 := h.1 m
        have h2 : txnsSum [t] m = if t.medicine_id = m then signedQty t else 0 := by
          rw [txnsSum_cons]
          show _ + (0 : Int) = _
          omega
        rw [h2]
        omega
      · intro it hit
        rw [hbi] at hit
        rw [hiso it.medicine_id]
        exact h.2 it hit
  | opMarkOrderReceived oid rd =>
    show ledgerInv (match markOrderReceived s oid rd with
      | .ok s' => s' | .error (_, s') => s')
    cases hres : markOrderReceived s oid rd with
    | error p =>
      obtain ⟨e, st⟩ := p
      show ledgerInv st
      rw [markOrderReceived_error_state s oid rd e st hres]
      exact h
    | ok s' =>
      show ledgerInv s'
      obtain ⟨o, hfo, hnc, hs'⟩ := markOrderReceived_ok_inv s oid rd s' hres
      constructor
      · intro m
        rw [hs', stockD_eq_rows, (recvState_stock_txns s oid rd o).1, ← stockD_eq_rows,
          ledgerSum_eq_txnsSum, (recvState_stock_txns s oid rd o).2.1, ← ledgerSum_eq_txnsSum]
        rw [receiveFold_stockD, ledgerSum_eq_txnsSum, receiveFold_txns, txnsSum_append,
          txnsSum_recvTxns, ← ledgerSum_eq_txnsSum]
        have h1 := h.1 m
        omega
      · intro it hit
        rw [hs'] at hit
        rw [(recvState_stock_txns s oid rd o).2.2,
          (receiveFold_frame oid (orderItems s oid) s).2.1] at hit
        rw [hs', (recvState_stock_txns s oid rd o).1]
        exact receiveFold_isSome oid (orderItems s oid) s it.medicine_id (h.2 it hit)
  | opRecordPayment oid amt =>
    show ledgerInv (match recordPayment s oid amt with
      | .ok s' => s' | .error (_, s') => s')
    cases hres : recordPayment s oid amt with
    | error p =>
      obtain ⟨e, st⟩ := p
      show ledgerInv st
      rw [recordPayment_error_state s oid amt e st hres]
      exact h
    | ok s' =>
      show ledgerInv s'
      obtain ⟨hst, htx, hbi⟩ := recordPayment_ok_frame s oid amt s' hres
      exact ledgerInv_of_frames s s' h hst htx hbi
  | opUpdateOrderStatus oid st rd =>
    exact ledgerInv_of_frames s _ h rfl rfl rfl

theorem ledgerInv_runOps : ∀ (ops : List Op) (s : State),
    ledgerInv s → ledgerInv (runOps s ops) := by
  intro ops
  induction ops with
  | nil =>
    intro s h
    exact h
  | cons op ops ih =>
    intro s h
    show ledgerInv (runOps (applyOp s op) ops)
    exact ih (applyOp s op) (ledgerInv_applyOp s op h)

theorem ledgerInv_empty : ledgerInv emptyState := by
  constructor
  · intro m
    rfl
  · intro it hit
    exact absurd hit (List.not_mem_nil it)

theorem isPrefixOf_append_self (a b : Str) : a.isPrefixOf (a ++ b) = true := by
  induction a with
  | nil => cases b <;> rfl
  | cons c a ih =>
    show (c == c && a.isPrefixOf (a ++ b)) = true
    rw [ih]
    simp

theorem pad4_ne_nil (n : Nat) : pad4 n ≠ [] := by
  have h3 : (pad4 n).length = max 4 (natToStr n).length := padZero_length 4 (natToStr n)
  intro hc
  rw [hc] at h3
  simp only [List.length_nil] at h3
  omega

theorem lastSeg_mkBillNumber (d : Str) (n : Nat) : lastSeg (mkBillNumber d n) = pad4 n := by
  show lastSeg (billPre d ++ pad4 n) = pad4 n
  rw [show billPre d ++ pad4 n = (billTag ++ d) ++ (dashCode :: pad4 n) from by
    show ((billTag ++ d) ++ [dashCode]) ++ pad4 n = _
    rw [List.append_assoc, List.singleton_append]]
  exact lastSeg_append (billTag ++ d) (pad4 n) (all_digits_ne_dash _ (pad4_all_digits n))

theorem mkBillNumber_inj (d : Str) (a b : Nat) (h : mkBillNumber d a = mkBillNumber d b) :
    a = b := by
  unfold mkBillNumber at h
  exact pad4_inj a b (List.append_cancel_left h)

/-- nextBillNumber with its lets inlined. -/
theorem nextBillNumber_eq (bills : List BillRow) (d : Str) :
    nextBillNumber bills d = mkBillNumber d
      ((if lastSeg ((strMax ((bills.filter
            (fun b => (billPre d).isPrefixOf b.bill_number)).map
            (fun b => b.bill_number))).getD []) ≠ [] ∧
          (lastSeg ((strMax ((bills.filter
            (fun b => (billPre d).isPrefixOf b.bill_number)).map
            (fun b => b.bill_number))).getD [])).all isDigitCode = true
        then digitsToNat (lastSeg ((strMax ((bills.filter
            (fun b => (billPre d).isPrefixOf b.bill_number)).map
            (fun b => b.bill_number))).getD []))
        else 0) + 1) := rfl

/-- When the date's bill numbers are exactly 0001..k with k ≤ 9999, the
generator produces the number k+1. -/
theorem nextBillNumber_of_matching (bills : List BillRow) (d : Str) (k : Nat)
    (hk : k ≤ 9999)
    (hm : (bills.filter (fun b => (billPre d).isPrefixOf b.bill_number)).map
      (fun b => b.bill_number) = (List.range k).map (fun i => mkBillNumber d (i + 1))) :
    nextBillNumber bills d = mkBillNumber d (k + 1) := by
  cases k with
  | zero =>
    rw [nextBillNumber_eq, hm]
    rw [show ((List.range 0).map fun i => mkBillNumber d (i + 1)) = [] from rfl]
    rw [show strMax [] = none from rfl]
    rw [if_neg (fun hc => hc.1 rfl)]
  | succ j =>
    have hmax : strMax ((List.range (j + 1)).map fun i => mkBillNumber d (i + 1)) =
        some (mkBillNumber d (j + 1)) := by
      apply strMax_eq
      · exact List.mem_map_of_mem _ (by rw [List.mem_range]; omega)
      · intro x hx
        obtain ⟨i, hi, rfl⟩ := List.mem_map.mp hx
        rw [List.mem_range] at hi
        by_cases hik : i + 1 = j + 1
        · left
          rw [hik]
        · right
          unfold mkBillNumber
          rw [strLt_append_left]
          apply pad4_strLt <;> omega
    rw [nextBillNumber_eq, hm, hmax, Option.getD_some, lastSeg_mkBillNumber,
      if_pos ⟨pad4_ne_nil (j + 1), pad4_all_digits (j + 1)⟩, digitsToNat_pad4]

/-- At 10000 same-date bills the lexicographic maximum is `…-9999`, so the
generator proposes `…-10000`, which already exists. -/
theorem nextBillNumber_at_limit (bills : List BillRow) (d : Str)
    (hm : (bills.filter (fun b => (billPre d).isPrefixOf b.bill_number)).map
      (fun b => b.bill_number) =
      (List.range 10000).map (fun i => mkBillNumber d (i + 1))) :
    nextBillNumber bills d = mkBillNumber d 10000 := by
  have hmax : strMax ((List.range 10000).map fun i => mkBillNumber d (i + 1)) =
      some (mkBillNumber d 9999) := by
    apply strMax_eq
    · exact List.mem_map_of_mem _ (show 9998 ∈ List.range 10000 by rw [List.mem_range]; omega)
    · intro x hx
      obtain ⟨i, hi, rfl⟩ := List.mem_map.mp hx
      rw [List.mem_range] at hi
      by_cases hik : i + 1 = 9999
      · left
        rw [hik]
      · right
        unfold mkBillNumber
        rw [strLt_append_left]
        by_cases h10 : i + 1 = 10000
        · rw [h10]
          decide
        · apply pad4_strLt <;> omega
  rw [nextBillNumber_eq, hm, hmax, Option.getD_some, lastSeg_mkBillNumber,
    if_pos ⟨pad4_ne_nil 9999, pad4_all_digits 9999⟩, digitsToNat_pad4]

/-- A successful createBill appends the bill row, whose number is the
generated one and was not present before. -/
theorem createBill_ok_bills (s : State) (d : Str) (input : CreateBillInput)
    (s1 : State) (bill : BillRow) (h : createBill s d input = .ok (s1, bill)) :
    s1.bills = s.bills ++ [bill] ∧
    bill.bill_number = nextBillNumber s.bills d ∧
    s.bills.any (fun b => b.bill_number == bill.bill_number) = false := by
  have hbody := createBill_ok_body s d input _ h
  have hisome := createBillBody_items_isSome s d input _ hbody
  obtain ⟨hne, hv, hc, ar, cd, hp, hu, hr⟩ := createBillBody_ok_inv s d input _ hbody
  have hs1 : s1 = createBillWrite s (mkBill s d input ar cd) input := congrArg Prod.fst hr
  have hbill : bill = mkBill s d input ar cd := congrArg Prod.snd hr
  obtain ⟨fD, fT, fI, fB, _⟩ :=
    billFold_spec (mkBill s d input ar cd).id input.createdBy input.items
      { s with bills := s.bills ++ [mkBill s d input ar cd], nextBillId := s.nextBillId + 1 }
      (fun it hit => hisome it hit)
  refine ⟨?_, ?_, ?_⟩
  · rw [hs1, hbill]
    exact fB
  · rw [hbill]
    rfl
  · rw [hbill]
    exact hu

/-- The run of same-date bills numbers them k+1, k+2, … when the state
already holds exactly the numbers 1..k for that date. -/
theorem runBills_spec (d : Str) :
    ∀ (inputs : List CreateBillInput) (s : State) (k : Nat) (s' : State) (nums : List Str),
      k ≤ 10000 →
      (s.bills.filter (fun b => (billPre d).isPrefixOf b.bill_number)).map
        (fun b => b.bill_number) = (List.range k).map (fun i => mkBillNumber d (i + 1)) →
      runBills d s inputs = some (s', nums) →
      nums = (List.range inputs.length).map (fun i => mkBillNumber d (k + i + 1)) := by
  intro inputs
  induction inputs with
  | nil =>
    intro s k s' nums hk hm hr
    have hr2 : (some (s, ([] : List Str)) : Option (State × List Str)) = some (s', nums) := hr
    simp only [Option.some.injEq, Prod.mk.injEq] at hr2
    rw [← hr2.2]
    rfl
  | cons input rest ih =>
    intro s k s' nums hk hm hr
    unfold runBills at hr
    cases hcb : createBill s d input with
    | error e =>
      rw [hcb] at hr
      exact absurd hr (by simp)
    | ok p =>
      obtain ⟨s1, bill⟩ := p
      rw [hcb] at hr
      dsimp only at hr
      cases hrest : runBills d s1 rest with
      | none =>
        rw [hrest] at hr
        exact absurd hr (by simp)
      | some q =>
        obtain ⟨s2, nums2⟩ := q
        rw [hrest] at hr
        dsimp only at hr
        simp only [Option.some.injEq, Prod.mk.injEq] at hr
        obtain ⟨hB, hNum, hAny⟩ := createBill_ok_bills s d input s1 bill hcb
        have hk9999 : k ≤ 9999 := by
          by_contra hgt
          have hk10000 : k = 10000 := by omega
          subst hk10000
          have hnext := nextBillNumber_at_limit s.bills d hm
          have hmem : mkBillNumber d 10000 ∈
              (s.bills.filter (fun b => (billPre d).isPrefixOf b.bill_number)).map
                (fun b => b.bill_number) := by
            rw [hm]
            exact List.mem_map_of_mem _
              (show 9999 ∈ List.range 10000 by rw [List.mem_range]; omega)
          obtain ⟨b, hb, hbn⟩ := List.mem_map.mp hmem
          have hb2 : b ∈ s.bills := List.mem_of_mem_filter hb
          have hany2 : s.bills.any (fun b2 => b2.bill_number == bill.bill_number) = true := by
            rw [List.any_eq_true]
            refine ⟨b, hb2, ?_⟩
            rw [hNum, hnext, hbn]
            exact beq_self_eq_true _
          rw [hany2] at hAny
          exact Bool.noConfusion hAny
        have hnext := nextBillNumber_of_matching s.bills d k hk9999 hm
        have hpre : ((billPre d).isPrefixOf bill.bill_number) = true := by
          rw [hNum, hnext]
          show (billPre d).isPrefixOf (billPre d ++ pad4 (k + 1)) = true
          exact isPrefixOf_append_self _ _
        have hm1 : (s1.bills.filter (fun b => (billPre d).isPrefixOf b.bill_number)).map
            (fun b => b.bill_number) =
            (List.range (k + 1)).map (fun i => mkBillNumber d (i + 1)) := by
          rw [hB, List.filter_append, List.map_append, hm]
          rw [List.filter_cons_of_pos]
          · rw [List.range_succ, List.map_append]
            show _ ++ [bill.bill_number] = _ ++ [mkBillNumber d (k + 1)]
            rw [hNum, hnext]
          · exact hpre
        have htail := ih s1 (k + 1) s2 nums2 (by omega) hm1 hrest
        rw [← hr.2, htail, hNum, hnext]
        rw [show (input :: rest).length = rest.length + 1 from rfl, List.range_succ_eq_map,
          List.map_cons, List.map_map]
        congr 1
        apply List.map_congr_left
        intro i _
        show mkBillNumber d (k + 1 + i + 1) = mkBillNumber d (k + (i + 1) + 1)
        rw [show k + 1 + i + 1 = k + (i + 1) + 1 from by omega]

/-- C4: starting from a state with no bills under the date's prefix, a run
of N successful same-date createBill calls yields exactly the numbers
BILL-date-0001 .. BILL-date-000N (zero-padded to at least 4 digits):
pairwise distinct, with the i-th number's numeric suffix equal to i+1
(strictly increasing from 1); and a createBill under a fresh date segment
restarts at 0001. -/
theorem billNumberSequence :
    (∀ (s : State) (d : Str) (inputs : List CreateBillInput) (s' : State) (nums : List Str),
      s.bills.filter (fun b => (billPre d).isPrefixOf b.bill_number) = [] →
      runBills d s inputs = some (s', nums) →
      nums = (List.range inputs.length).map (fun i => mkBillNumber d (i + 1)) ∧
      nums.Pairwise (fun a b => a ≠ b) ∧
      (∀ i (hi : i < nums.length), digitsToNat (lastSeg (nums.get ⟨i, hi⟩)) = i + 1)) ∧
    (∀ (s : State) (d2 : Str) (input : CreateBillInput) (s1 : State) (bill : BillRow),
      s.bills.filter (fun b => (billPre d2).isPrefixOf b.bill_number) = [] →
      createBill s d2 input = .ok (s1, bill) →
      bill.bill_number = mkBillNumber d2 1) := by
  constructor
  · intro s d inputs s' nums hfil hrun
    have hm0 : (s.bills.filter (fun b => (billPre d).isPrefixOf b.bill_number)).map
        (fun b => b.bill_number) = (List.range 0).map (fun i => mkBillNumber d (i + 1)) := by
      rw [hfil]
      rfl
    have heq0 := runBills_spec d inputs s 0 s' nums (by omega) hm0 hrun
    have heq : nums = (List.range inputs.length).map (fun i => mkBillNumber d (i + 1)) := by
      rw [heq0]
      apply List.map_congr_left
      intro i _
      rw [Nat.zero_add]
    subst heq
    refine ⟨rfl, ?_, ?_⟩
    · refine List.Pairwise.map (fun i => mkBillNumber d (i + 1)) ?_
        (List.pairwise_lt_range inputs.length)
      intro a b hab hc
      have := mkBillNumber_inj d (a + 1) (b + 1) hc
      omega
    · intro i hi
      have hi2 : i < inputs.length := by
        have := hi
        rw [List.length_map, List.length_range] at this
        exact this
      rw [show ((List.range inputs.length).map (fun i => mkBillNumber d (i + 1))).get ⟨i, hi⟩ =
          mkBillNumber d (i + 1) from by
        rw [List.get_eq_getElem, List.getElem_map, List.getElem_range]]
      rw [lastSeg_mkBillNumber, digitsToNat_pad4]
  · intro s d2 input s1 bill hfil hcb
    obtain ⟨hB, hNum, hAny⟩ := createBill_ok_bills s d2 input s1 bill hcb
    have hm0 : (s.bills.filter (fun b => (billPre d2).isPrefixOf b.bill_number)).map
        (fun b => b.bill_number) = (List.range 0).map (fun i => mkBillNumber d2 (i + 1)) := by
      rw [hfil]
      rfl
    rw [hNum, nextBillNumber_of_matching s.bills d2 0 (by omega) hm0]

/-- Witness for billNumberSequence: two sample-date bills from the sample
store are numbered BILL-20260101-0001 and BILL-20260101-0002, and the
first bill of the run starts at 0001. -/
theorem billNumberSequence_witness :
    sampleRunNums = [mkBillNumber sampleDate 1, mkBillNumber sampleDate 2] ∧
    sampleRunNums.Pairwise (fun a b => a ≠ b) ∧
    sampleBill.bill_number = mkBillNumber sampleDate 1 := by
  have h1 := billNumberSequence.1 sampleState sampleDate [sampleBillInput, sampleBillInput]
    sampleRunState sampleRunNums (by rfl) (by rfl)
  have h2 := billNumberSequence.2 sampleState sampleDate sampleBillInput sampleBillState
    sampleBill (by rfl) (by rfl)
  exact ⟨h1.1, h1.2.1, h2⟩

/-- C1: ledger replay invariant.  After every sequence of core mutating
operations starting from the empty store, every medicine's balance (0 when
no stock row exists) equals the signed replay sum of its ledger rows —
`in`/`return` positive, `out`/`adjust` negative — and in particular every
existing stock row's current_quantity equals that sum. -/
theorem ledgerReplayInvariant (ops : List Op) (m : Nat) :
    stockD (runOps emptyState ops) m = ledgerSum (runOps emptyState ops) m ∧
    ∀ q, lookupStock (runOps emptyState ops) m = some q →
      q = ledgerSum (runOps emptyState ops) m := by
  have hinv := ledgerInv_runOps ops emptyState ledgerInv_empty
  refine ⟨hinv.1 m, fun q hq => ?_⟩
  have h2 : (lookupStock (runOps emptyState ops) m).getD 0 =
      ledgerSum (runOps emptyState ops) m := hinv.1 m
  rw [hq] at h2
  exact h2

/-- Witness for ledgerReplayInvariant: after creating a medicine with
opening stock 100 and selling 2 units, the stored balance 98 equals the
replay sum of the two ledger rows. -/
theorem ledgerReplayInvariant_witness :
    (98 : Int) = ledgerSum (runOps emptyState
      [Op.opCreateMedicine { name := "Panadol", opening_stock := 100 },
       Op.opCreateBill sampleDate sampleBillInput]) 1 :=
  (ledgerReplayInvariant
    [Op.opCreateMedicine { name := "Panadol", opening_stock := 100 },
     Op.opCreateBill sampleDate sampleBillInput] 1).2 98 (by rfl)

/-- Witness for noNegativeStock: a sale on the sample store keeps stock
nonnegative; the oversell bill and a 200-unit manual `out` on a stock of
100 both fail with the insufficiency error and change nothing. -/
theorem noNegativeStock_witness :
    0 ≤ stockD (runOps sampleState [Op.opCreateBill sampleDate sampleBillInput]) 1 ∧
    applyOp sampleState (.opCreateBill sampleDate oversellInput) = sampleState ∧
    recordTransaction sampleState
      { medicineId := 1, type := ManualTxnType.mOut, quantity := 200, performedBy := none } =
      .error (.insufficientStock none 100 200, sampleState) := by
  have hpos : ∀ m, 0 ≤ stockD sampleState m := by
    intro m
    show 0 ≤ ((if 1 = m then some (100 : Int) else none).getD 0)
    by_cases hm : 1 = m
    · rw [if_pos hm]
      decide
    · rw [if_neg hm]
      decide
  refine ⟨noNegativeStock.1 sampleState [Op.opCreateBill sampleDate sampleBillInput]
      (by decide) hpos 1,
    (noNegativeStock.2.1 sampleState sampleDate oversellInput (by decide) (by rfl)
      ?_ ?_).2,
    noNegativeStock.2.2 sampleState
      { medicineId := 1, type := ManualTxnType.mOut, quantity := 200, performedBy := none }
      100 (by decide) (by decide) (by rfl) (by decide)⟩
  · intro it hit
    have hid : it.medicineId = 1 := by
      simp only [oversellInput, List.mem_cons, List.not_mem_nil, or_false] at hit
      rcases hit with rfl | rfl | rfl <;> rfl
    rw [hid]
    exact ⟨{ id := 1, name := "Panadol", is_deleted := false, opening_stock := 100 }, rfl, rfl⟩
  · exact ⟨{ medicineId := 1, quantity := 2, unitPrice := 5000 }, by decide, by decide⟩

/-- Witness for voidRestoresStock: creating and voiding the sample bill
cancels the ledger and restores the stock of medicine 1. -/
theorem voidRestoresStock_witness :
    txnsSum (sampleVoidState.stockTransactions.drop sampleState.stockTransactions.length) 1 = 0 ∧
    stockD sampleVoidState 1 = stockD sampleState 1 ∧
    sampleVoidState.billItems = sampleBillState.billItems := by
  have h := voidRestoresStock sampleState sampleDate sampleBillInput sampleBillState sampleBill
    sampleReason 7 sampleVoidState (by decide) (by rfl) (by rfl)
  exact ⟨h.1 1, h.2.1 1, h.2.2.2⟩

end Pharmacy
